import Mathlib

/-!
LXC backing-store subsystem: a shallow embedding of `src/lxc/bdev/bdev.c`, of
the lock manager `src/lxc/lxclock.c` and of the argument handling of
`src/lxc/lxc_create.c`.

C strings are modelled as lists of characters (`CStr`), a nullable `char *`
as `Option CStr`, and C `int` results as `Int`.  Functions that live in other
modules of the repository (the zfs/lvm/btrfs/aufs/overlayfs drivers, `is_dir`,
`am_unpriv`, the system calls) are fields of an environment record `Env`, so
every statement below holds for all possible behaviours of those collaborators.
Memory allocation (`malloc`, `strdup`) is taken to succeed and string lengths
are taken to fit the C `int` type.
-/

namespace Lxc

/-- A NUL-terminated C string, without its terminator. -/
abbrev CStr := List Char

/-- The nine operation tables (`static const struct bdev_ops ..._ops`) of bdev.c. -/
inductive OpsTable where
  | aufs_ops | btrfs_ops | lvm_ops | ovl_ops | zfs_ops
  | dir_ops | rbd_ops | loop_ops | nbd_ops
  deriving DecidableEq, Repr

/-- The `.can_snapshot` member of each operation table (bdev.c:82-139, 613-622,
783-792, 1076-1085, 1387-1396). -/
def OpsTable.can_snapshot : OpsTable → Bool
  | .aufs_ops => true
  | .btrfs_ops => true
  | .lvm_ops => true
  | .ovl_ops => true
  | .zfs_ops => true
  | .dir_ops => false
  | .rbd_ops => false
  | .loop_ops => false
  | .nbd_ops => true

/-- The `.can_backup` member of each operation table. -/
def OpsTable.can_backup : OpsTable → Bool
  | .aufs_ops => true
  | .btrfs_ops => true
  | .lvm_ops => false
  | .ovl_ops => true
  | .zfs_ops => true
  | .dir_ops => true
  | .rbd_ops => false
  | .loop_ops => true
  | .nbd_ops => false

/-- The C `struct bdev_type`: a name and a pointer to an operation table. -/
structure bdev_type where
  name : CStr
  ops : OpsTable
  deriving DecidableEq, Repr

/-- The registry `static const struct bdev_type bdevs[]` (bdev.c:1398-1408). -/
def bdevs : List bdev_type :=
  [ ⟨"zfs".toList, .zfs_ops⟩,
    ⟨"lvm".toList, .lvm_ops⟩,
    ⟨"rbd".toList, .rbd_ops⟩,
    ⟨"btrfs".toList, .btrfs_ops⟩,
    ⟨"dir".toList, .dir_ops⟩,
    ⟨"aufs".toList, .aufs_ops⟩,
    ⟨"overlayfs".toList, .ovl_ops⟩,
    ⟨"loop".toList, .loop_ops⟩,
    ⟨"nbd".toList, .nbd_ops⟩ ]

/-- The C `struct bdev` handle: operation table, type name, source, destination,
mount options, loop descriptor and nbd index. -/
structure bdev where
  ops : OpsTable
  type : CStr
  src : Option CStr
  dest : Option CStr
  mntopts : Option CStr
  lofd : Int
  nbd_idx : Int
  deriving DecidableEq, Repr

/-- The fields of `struct lxc_conf` read by bdev.c. -/
structure lxc_conf where
  rootfs_path : Option CStr
  rootfs_mount : Option CStr
  nbd_idx : Int
  deriving DecidableEq, Repr

/-- The fields of `struct lxc_container` read by `bdev_copy`. -/
structure lxc_container where
  name : CStr
  config_path : CStr
  conf : lxc_conf
  deriving DecidableEq, Repr

/-- The members of `struct bdev_specs` (declared in bdev/bdev.h) that bdev.c
reads: `fstype`, `fssize`, `dir`, `rbd.rbdname` and `rbd.rbdpool`. -/
structure bdev_specs where
  fstype : Option CStr
  fssize : Nat
  dir : Option CStr
  rbdname : Option CStr
  rbdpool : Option CStr
  deriving DecidableEq, Repr

/-- Everything bdev.c calls but does not define: the detectors and
`clone_paths` of the five drivers kept in their own modules, helpers from
utils.c and the results of system calls and child processes. -/
structure Env where
  zfs_detect : CStr → Int
  lvm_detect : CStr → Int
  btrfs_detect : CStr → Int
  aufs_detect : CStr → Int
  ovl_detect : CStr → Int
  is_dir : CStr → Bool
  am_unpriv : Bool
  LXC_CLONE_SNAPSHOT : Nat
  LXC_CLONE_KEEPBDEVTYPE : Nat
  LXC_CLONE_MAYBE_SNAPSHOT : Nat
  lvm_is_thin_volume : Option CStr → Int
  ext_clonepaths : OpsTable → bdev → bdev → CStr → CStr → CStr → CStr → Int → Nat →
    lxc_conf → Int × bdev
  blk_getsize : bdev → Int × Nat
  detect_fs : bdev → Int × CStr
  creat : CStr → Int
  lseek : Int → Nat → Int
  write_one : Int → Int
  close : Int → Int
  do_mkfs : CStr → CStr → Int
  stat_enoent : CStr → Bool
  mkdir_p : Option CStr → Int
  chown_mapped_root : Option CStr → Int
  btrfs_same_fs : Option CStr → Option CStr → Int
  btrfs_destroy : bdev → Int
  btrfs_snapshot : Option CStr → Option CStr → Int
  fork : Int
  wait_for_pid : Int → Int
  ext_create : OpsTable → bdev → CStr → CStr → Option bdev_specs → Int × bdev
  rbd_default_pool : CStr
  run_rbd : List CStr → Int
  mkdir_p_eexist : Option CStr → Bool
  parse_mntopts : Option CStr → Int × Nat × Option CStr
  sys_mount : CStr → CStr → CStr → Nat → Option CStr → Bool
  sys_umount : CStr → Bool
  file_exists : CStr → Bool
  file_exists_poll : CStr → Nat → Bool
  access : CStr → Int
  lxc_file_for_each_line : CStr → CStr → CStr → Option CStr → Int
  open_rdwr : CStr → Int
  loop_ctl_get_free : Int → Int
  dev_entries : Option (List CStr)
  openat_dev : CStr → Int
  loop_status_enxio : Int → Bool
  ioctl_loop_set_fd : Int → Int → Int
  ioctl_loop_set_status : Int → Int

/-- C `strncmp(a, b, n) == 0` on NUL-free strings: the first `n` characters agree. -/
def strncmp_eq (a b : CStr) (n : Nat) : Bool :=
  a.take n == b.take n

/-- C `strcmp(a, b) == 0`. -/
def strcmp_eq (a b : CStr) : Bool :=
  a == b

/-- Function `dir_detect` (bdev.c:507-514). -/
def dir_detect (env : Env) (path : CStr) : Int :=
  if strncmp_eq path "dir:".toList 4 then 1
  else if env.is_dir path then 1
  else 0

/-- Function `rbd_detect` (bdev.c:637-642): `memcmp(path, "/dev/rbd/", 9) == 0`; a path
shorter than nine characters differs at its terminator at the latest. -/
def rbd_detect (path : CStr) : Int :=
  if strncmp_eq path "/dev/rbd/".toList 9 then 1 else 0

/-- Function `loop_detect` (bdev.c:797-802). -/
def loop_detect (path : CStr) : Int :=
  if strncmp_eq path "loop:".toList 5 then 1 else 0

/-- Function `nbd_detect` (bdev.c:1091-1096). -/
def nbd_detect (path : CStr) : Int :=
  if strncmp_eq path "nbd:".toList 4 then 1 else 0

/-- The `.detect` member of each operation table. -/
def detect (env : Env) : OpsTable → CStr → Int
  | .aufs_ops => env.aufs_detect
  | .btrfs_ops => env.btrfs_detect
  | .lvm_ops => env.lvm_detect
  | .ovl_ops => env.ovl_detect
  | .zfs_ops => env.zfs_detect
  | .dir_ops => dir_detect env
  | .rbd_ops => rbd_detect
  | .loop_ops => loop_detect
  | .nbd_ops => nbd_detect

/-- The loop of `bdev_query` (bdev.c:1443-1448) over the remaining table
entries.  Besides the entry at which the loop breaks it returns the names of
the entries whose detector was called, in call order. -/
def bdev_query_loop (env : Env) (src : CStr) : List bdev_type → Option bdev_type × List CStr
  | [] => (none, [])
  | b :: rest =>
    if detect env b.ops src ≠ 0 then (some b, [b.name])
    else
      let r := bdev_query_loop env src rest
      (r.1, b.name :: r.2)

/-- Function `bdev_query` (bdev.c:1440-1453): `none` is the NULL result. -/
def bdev_query (env : Env) (src : CStr) : Option bdev_type :=
  (bdev_query_loop env src bdevs).1

/-- The detectors `bdev_query` consults on `src`, in order. -/
def bdev_query_consulted (env : Env) (src : CStr) : List CStr :=
  (bdev_query_loop env src bdevs).2

/-- C `strstr(hay, needle)` as the offset of the first occurrence of `needle`
in `hay`; `none` is the NULL result.  An empty needle is found at offset 0. -/
def strstr : CStr → CStr → Option Nat
  | [], needle => if needle.isPrefixOf [] then some 0 else none
  | c :: t, needle =>
    if needle.isPrefixOf (c :: t) then some 0 else (strstr t needle).map (· + 1)

/-- The first loop of `dir_new_path` (bdev.c:228-231): `p` is the text still
to scan and `nlen` the buffer size so far.  One unit of `fuel` is one
evaluation of the loop condition; `none` means the fuel ran out. -/
def dir_new_path_count (oldname name : CStr) : Nat → CStr → Int → Option Int
  | 0, _, _ => none
  | fuel + 1, p, nlen =>
    match strstr p oldname with
    | none => some nlen
    | some k =>
      dir_new_path_count oldname name fuel (p.drop (k + oldname.length))
        (nlen + ((name.length : Int) - (oldname.length : Int)))

/-- The second loop of `dir_new_path` and the final `sprintf` (bdev.c:243-249):
`src` is the text still to copy and `out` the text written to `ret` so far. -/
def dir_new_path_copy (oldname name : CStr) : Nat → CStr → CStr → Option CStr
  | 0, _, _ => none
  | fuel + 1, src, out =>
    match strstr src oldname with
    | none => some (out ++ src)
    | some k =>
      dir_new_path_copy oldname name fuel (src.drop (k + oldname.length))
        (out ++ src.take k ++ name)

/-- Function `dir_new_path` (bdev.c:212-251) with a bound `fuel` on the number of
iterations of each loop.  The result is the size passed to `malloc` and the
string written to the buffer; `none` means a loop did not finish within `fuel`
iterations. -/
def dir_new_path_fuel (fuel : Nat) (src oldname name oldpath lxcpath : CStr) :
    Option (Int × CStr) :=
  let l1 := oldpath.length
  let nlen0 : Int := (src.length : Int) + 1
  let starts := strncmp_eq src oldpath l1
  let p := if starts then src.drop l1 else src
  let nlen1 : Int := if starts then nlen0 + ((lxcpath.length : Int) - (l1 : Int)) else nlen0
  match dir_new_path_count oldname name fuel p nlen1 with
  | none => none
  | some nlen =>
    let out := if starts then lxcpath else []
    let src2 := if starts then src.drop l1 else src
    match dir_new_path_copy oldname name fuel src2 out with
    | none => none
    | some r => some (nlen, r)

/-- The string returned by `dir_new_path`, each loop being given
`strlen(src) + 1` iterations. -/
def dir_new_path (src oldname name oldpath lxcpath : CStr) : Option CStr :=
  (dir_new_path_fuel (src.length + 1) src oldname name oldpath lxcpath).map Prod.snd

/-- C `snprintf(buf, size, ...)` where the formatted text is `s`: the return
value is the length of `s`, the buffer receives at most `size - 1` characters. -/
def snprintf (size : Nat) (s : CStr) : Int × CStr :=
  ((s.length : Int), s.take (size - 1))

/-- Modelled from the spec: the macro `DEFAULT_FSTYPE` of bdev/bdev.h, which is
not among the sources (spec section 3: fstype, default ext3). -/
def DEFAULT_FSTYPE : CStr := "ext3".toList

/-- Modelled from the spec: the macro `DEFAULT_FS_SIZE` of bdev/bdev.h, which is
not among the sources (spec section 3: fssize bytes, default 1 GiB). -/
def DEFAULT_FS_SIZE : Nat := 1073741824

/-- The errno value `ENOSYS` on Linux. -/
def ENOSYS : Int := 38

/-- Function `is_blktype` (bdev.c:626-631). -/
def is_blktype (b : bdev) : Int :=
  if strcmp_eq b.type "lvm".toList then 1 else 0

/-- Function `dir_clonepaths` (bdev.c:553-579): the return value and the new handle. -/
def dir_clonepaths (orig new : bdev) (_oldname cname _oldpath lxcpath : CStr) (snap : Int)
    (_newsize : Nat) (_conf : lxc_conf) : Int × bdev :=
  if snap ≠ 0 then (-1, new)
  else if orig.dest.isNone || orig.src.isNone then (-1, new)
  else
    let len := lxcpath.length + cname.length + "rootfs".toList.length + 3
    let r := snprintf len (lxcpath ++ "/".toList ++ cname ++ "/rootfs".toList)
    let new1 := { new with src := some r.2 }
    if r.1 < 0 ∨ r.1 ≥ (len : Int) then (-1, new1)
    else (0, { new1 with dest := new1.src })

/-- Function `rbd_clonepaths` (bdev.c:669-676). -/
def rbd_clonepaths (_orig new : bdev) (_oldname _cname _oldpath _lxcpath : CStr) (_snap : Int)
    (_newsize : Nat) (_conf : lxc_conf) : Int × bdev :=
  (-1, new)

/-- Function `nbd_clonepaths` (bdev.c:1362-1368). -/
def nbd_clonepaths (_orig new : bdev) (_oldname _cname _oldpath _lxcpath : CStr) (_snap : Int)
    (_newsize : Nat) (_conf : lxc_conf) : Int × bdev :=
  (-ENOSYS, new)

/-- Function `do_loop_create` (bdev.c:926-957). -/
def do_loop_create (env : Env) (path : CStr) (size : Nat) (fstype : CStr) : Int :=
  let fd := env.creat path
  if fd < 0 then -1
  else if env.lseek fd size < 0 then -1
  else if env.write_one fd ≠ 1 then -1
  else if env.close fd < 0 then -1
  else if env.do_mkfs path fstype < 0 then -1
  else 0

/-- Function `loop_clonepaths` (bdev.c:963-1021): the return value and the new handle. -/
def loop_clonepaths (env : Env) (orig new : bdev) (_oldname cname _oldpath lxcpath : CStr)
    (snap : Int) (newsize : Nat) (_conf : lxc_conf) : Int × bdev :=
  if snap ≠ 0 then (-1, new)
  else if orig.dest.isNone || orig.src.isNone then (-1, new)
  else
    let len := lxcpath.length + cname.length + "rootdev".toList.length + 3
    let r1 := snprintf len (lxcpath ++ "/".toList ++ cname ++ "/rootdev".toList)
    if r1.1 < 0 ∨ r1.1 ≥ (len : Int) then (-1, new)
    else
      let srcdev := r1.2
      let r2 := snprintf (len + 5) ("loop:".toList ++ srcdev)
      let new1 := { new with src := some r2.2 }
      if r2.1 < 0 ∨ r2.1 ≥ ((len + 5 : Nat) : Int) then (-1, new1)
      else
        let r3 := snprintf len (lxcpath ++ "/".toList ++ cname ++ "/rootfs".toList)
        let new2 := { new1 with dest := some r3.2 }
        if r3.1 < 0 ∨ r3.1 ≥ (len : Int) then (-1, new2)
        else if is_blktype orig ≠ 0 then
          let g := env.blk_getsize orig
          if newsize = 0 ∧ g.1 < 0 then (-1, new2)
          else
            let size := if newsize = 0 then g.2 else newsize
            let d := env.detect_fs orig
            if d.1 < 0 then (-1, new2)
            else (do_loop_create env srcdev size d.2, new2)
        else
          let size := if newsize = 0 then DEFAULT_FS_SIZE else newsize
          (do_loop_create env srcdev size DEFAULT_FSTYPE, new2)

/-- The `.clone_paths` member of each operation table. -/
def clone_paths (env : Env) : OpsTable → bdev → bdev → CStr → CStr → CStr → CStr → Int →
    Nat → lxc_conf → Int × bdev
  | .dir_ops => dir_clonepaths
  | .rbd_ops => rbd_clonepaths
  | .loop_ops => loop_clonepaths env
  | .nbd_ops => nbd_clonepaths
  | .aufs_ops => env.ext_clonepaths .aufs_ops
  | .btrfs_ops => env.ext_clonepaths .btrfs_ops
  | .lvm_ops => env.ext_clonepaths .lvm_ops
  | .ovl_ops => env.ext_clonepaths .ovl_ops
  | .zfs_ops => env.ext_clonepaths .zfs_ops

/-- Function `bdev_get` (bdev.c:1420-1438): a zeroed handle bound to the table entry
whose name equals `type`, `none` (NULL) when no entry has that name. -/
def bdev_get (type : CStr) : Option bdev :=
  match bdevs.find? (fun b => strcmp_eq b.name type) with
  | none => none
  | some b =>
    some { ops := b.ops, type := b.name, src := none, dest := none, mntopts := none,
           lofd := 0, nbd_idx := 0 }

/-- Function `bdev_init` (bdev.c:1455-1487). -/
def bdev_init (env : Env) (conf : lxc_conf) (src dst mntopts : Option CStr) : Option bdev :=
  let src1 := match src with
    | some s => some s
    | none => conf.rootfs_path
  match src1 with
  | none => none
  | some s =>
    match bdev_query env s with
    | none => none
    | some q =>
      some { ops := q.ops, type := q.name, src := some s, dest := dst, mntopts := mntopts,
             lofd := 0,
             nbd_idx := if strcmp_eq q.name "nbd".toList then conf.nbd_idx else 0 }

/-- Function `unpriv_snap_allowed` (bdev.c:1516-1541). -/
def unpriv_snap_allowed (b : bdev) (t : Option CStr) (_snap _maybesnap : Bool) : Bool :=
  match t with
  | none =>
    if strcmp_eq b.type "dir".toList || strcmp_eq b.type "aufs".toList ||
        strcmp_eq b.type "overlayfs".toList || strcmp_eq b.type "btrfs".toList ||
        strcmp_eq b.type "loop".toList then true
    else false
  | some t =>
    if strcmp_eq t "dir".toList || strcmp_eq t "aufs".toList ||
        strcmp_eq t "overlayfs".toList || strcmp_eq t "btrfs".toList ||
        strcmp_eq t "loop".toList then true
    else false

/-- The calls of `bdev_copy` that allocate a handle or act on storage. -/
inductive Event where
  | mkdir_p (path : Option CStr)
  | bdev_get (type : CStr)
  | clone_paths (ops : OpsTable) (snap : Int)
  | chown_mapped_root (path : Option CStr)
  | btrfs_destroy
  | btrfs_snapshot
  | fork
  deriving DecidableEq, Repr

/-- What a call of `bdev_copy` leaves behind: the returned handle (`none` is
NULL), the value stored through `needs_rdep` (`none` if nothing was stored)
and the calls made, in order. -/
structure CopyResult where
  ret : Option bdev
  needs_rdep : Option Int
  events : List Event
  deriving DecidableEq, Repr

/-- The block of `bdev_copy` that gives the original handle a destination
(bdev.c:1577-1599); `none` is the early `return NULL`. -/
def bdev_copy_dest (env : Env) (orig : bdev) (oldpath oldname : CStr) :
    Option (bdev × List Event) :=
  match orig.dest with
  | some _ => some (orig, [])
  | none =>
    let len := oldpath.length + oldname.length + "/rootfs".toList.length + 2
    let r := snprintf len (oldpath ++ "/".toList ++ oldname ++ "/rootfs".toList)
    if r.1 < 0 ∨ r.1 ≥ (len : Int) then none
    else
      let orig1 := { orig with dest := some r.2 }
      if env.stat_enoent r.2 then some (orig1, [Event.mkdir_p (some r.2)])
      else some (orig1, [])

/-- The snapshot flag of `bdev_copy` after the demotion at bdev.c:1606-1607. -/
def bdev_copy_snap (maybe_snap keepbdevtype snap : Bool) (bdevtype : Option CStr)
    (orig : bdev) : Bool :=
  if maybe_snap && keepbdevtype && bdevtype.isNone && !orig.ops.can_snapshot then false
  else snap

/-- The variable `bdevtype` of `bdev_copy` after the promotion at
bdev.c:1612-1613, `snap` being the flag after the demotion. -/
def bdev_copy_bdevtype (keepbdevtype snap : Bool) (bdevtype : Option CStr)
    (orig : bdev) : Option CStr :=
  if bdevtype.isNone && !keepbdevtype && snap && strcmp_eq orig.type "dir".toList then
    some "overlayfs".toList
  else bdevtype

/-- The value `bdev_copy` stores in `*needs_rdep` (bdev.c:1621-1629). -/
def bdev_copy_rdep (env : Env) (orig : bdev) (bdevtype : Option CStr) (snap : Bool) : Int :=
  if (match bdevtype with
      | none => false
      | some t => strcmp_eq orig.type "dir".toList &&
          (strcmp_eq t "aufs".toList || strcmp_eq t "overlayfs".toList)) then 1
  else if snap && strcmp_eq orig.type "lvm".toList &&
      (env.lvm_is_thin_volume orig.src == 0) then 1
  else 0

/-- The part of `bdev_copy` after a successful `clone_paths` (bdev.c:1644-1701):
`ev` are the calls made so far.  `none` is the forked child, which runs the
copy and exits instead of returning. -/
def bdev_copy_finish (env : Env) (orig new : bdev) (bdevtype : Option CStr) (snap : Bool)
    (rdep : Int) (ev : List Event) : Option CopyResult :=
  let ev1 := if env.am_unpriv then ev ++ [Event.chown_mapped_root new.src] else ev
  if snap then some ⟨some new, some rdep, ev1⟩
  else if bdevtype.isSome && strcmp_eq orig.type "btrfs".toList &&
      strcmp_eq new.type "btrfs".toList && (env.btrfs_same_fs orig.dest new.dest == 0) then
    if env.btrfs_destroy new < 0 then some ⟨none, some rdep, ev1 ++ [Event.btrfs_destroy]⟩
    else if env.mkdir_p new.dest < 0 then
      some ⟨none, some rdep, ev1 ++ [Event.btrfs_destroy, Event.mkdir_p new.dest]⟩
    else if env.btrfs_snapshot orig.dest new.dest < 0 then
      some ⟨none, some rdep,
        ev1 ++ [Event.btrfs_destroy, Event.mkdir_p new.dest, Event.btrfs_snapshot]⟩
    else
      some ⟨some new, some rdep,
        ev1 ++ [Event.btrfs_destroy, Event.mkdir_p new.dest, Event.btrfs_snapshot]⟩
  else
    let pid := env.fork
    if pid < 0 then some ⟨none, some rdep, ev1 ++ [Event.fork]⟩
    else if pid > 0 then
      if env.wait_for_pid pid < 0 then some ⟨none, some rdep, ev1 ++ [Event.fork]⟩
      else some ⟨some new, some rdep, ev1 ++ [Event.fork]⟩
    else none

/-- The argument of `bdev_get` in `bdev_copy` (bdev.c:1631):
`bdevtype ? bdevtype : orig->type`. -/
def bdev_copy_newtype (bdevtype : Option CStr) (orig : bdev) : CStr :=
  match bdevtype with
  | some t => t
  | none => orig.type

/-- The part of `bdev_copy` from the allocation of the new handle on
(bdev.c:1631-1702): `bdevtype` and `snap` are the variables after the
adjustments, `rdep` the value stored in `*needs_rdep`, `ev0` the calls made so
far. -/
def bdev_copy_clone (env : Env) (c0 : lxc_container) (orig : bdev) (cname lxcpath : CStr)
    (bdevtype : Option CStr) (snap : Bool) (newsize : Nat) (rdep : Int)
    (ev0 : List Event) : Option CopyResult :=
  let newtype := bdev_copy_newtype bdevtype orig
  match bdev_get newtype with
  | none => some ⟨none, some rdep, ev0 ++ [Event.bdev_get newtype]⟩
  | some new0 =>
    let ev1 := ev0 ++ [Event.bdev_get newtype,
      Event.clone_paths new0.ops (if snap then 1 else 0)]
    let r := clone_paths env new0.ops orig new0 c0.name cname c0.config_path lxcpath
      (if snap then 1 else 0) newsize c0.conf
    if r.1 < 0 then some ⟨none, some rdep, ev1⟩
    else bdev_copy_finish env orig r.2 bdevtype snap rdep ev1

/-- Function `bdev_copy` (bdev.c:1547-1702).  `none` means that the call does not return
a value to its caller: `strstr` is applied to a NULL rootfs path (undefined
behaviour), or this is the forked child. -/
def bdev_copy (env : Env) (c0 : lxc_container) (cname lxcpath : CStr)
    (bdevtype : Option CStr) (flags : Nat) (_bdevdata : Option CStr) (newsize : Nat) :
    Option CopyResult :=
  let snap0 : Bool := (flags &&& env.LXC_CLONE_SNAPSHOT) != 0
  let maybe_snap : Bool := (flags &&& env.LXC_CLONE_MAYBE_SNAPSHOT) != 0
  let keepbdevtype : Bool := (flags &&& env.LXC_CLONE_KEEPBDEVTYPE) != 0
  let oldname := c0.name
  let oldpath := c0.config_path
  match c0.conf.rootfs_path with
  | none => none
  | some src =>
    if strstr src oldname = none then some ⟨none, none, []⟩
    else
      match bdev_init env c0.conf (some src) none none with
      | none => some ⟨none, none, []⟩
      | some orig0 =>
        match bdev_copy_dest env orig0 oldpath oldname with
        | none => some ⟨none, none, []⟩
        | some (orig, ev0) =>
          let snap := bdev_copy_snap maybe_snap keepbdevtype snap0 bdevtype orig
          let bdevtype1 := bdev_copy_bdevtype keepbdevtype snap bdevtype orig
          if env.am_unpriv && !unpriv_snap_allowed orig bdevtype1 snap maybe_snap then
            some ⟨none, none, ev0⟩
          else
            bdev_copy_clone env c0 orig cname lxcpath bdevtype1 snap newsize
              (bdev_copy_rdep env orig bdevtype1 snap) ev0

/-- A host on which every collaborator reports success: no external detector
claims a source, no path is a directory, the caller is privileged, the clone
flags have the values of lxccontainer.h. -/
def Env.quiet : Env where
  zfs_detect := fun _ => 0
  lvm_detect := fun _ => 0
  btrfs_detect := fun _ => 0
  aufs_detect := fun _ => 0
  ovl_detect := fun _ => 0
  is_dir := fun _ => false
  am_unpriv := false
  LXC_CLONE_SNAPSHOT := 4
  LXC_CLONE_KEEPBDEVTYPE := 8
  LXC_CLONE_MAYBE_SNAPSHOT := 16
  lvm_is_thin_volume := fun _ => 0
  ext_clonepaths := fun _ _ new _ _ _ _ _ _ _ => (0, new)
  blk_getsize := fun _ => (0, 0)
  detect_fs := fun _ => (4, "ext3".toList)
  creat := fun _ => 3
  lseek := fun _ n => (n : Int)
  write_one := fun _ => 1
  close := fun _ => 0
  do_mkfs := fun _ _ => 0
  stat_enoent := fun _ => false
  mkdir_p := fun _ => 0
  chown_mapped_root := fun _ => 0
  btrfs_same_fs := fun _ _ => 0
  btrfs_destroy := fun _ => 0
  btrfs_snapshot := fun _ _ => 0
  fork := 1
  wait_for_pid := fun _ => 0
  ext_create := fun _ b _ _ _ => (0, b)
  rbd_default_pool := "lxc".toList
  run_rbd := fun _ => 0
  mkdir_p_eexist := fun _ => false
  parse_mntopts := fun _ => (0, 0, none)
  sys_mount := fun _ _ _ _ _ => true
  sys_umount := fun _ => true
  file_exists := fun _ => true
  file_exists_poll := fun _ _ => true
  access := fun _ => 0
  lxc_file_for_each_line := fun _ _ _ _ => 1
  open_rdwr := fun _ => 5
  loop_ctl_get_free := fun _ => 0
  dev_entries := some ["loop0".toList]
  openat_dev := fun _ => 6
  loop_status_enxio := fun _ => true
  ioctl_loop_set_fd := fun _ _ => 0
  ioctl_loop_set_status := fun _ => 0

/-- A host like `Env.quiet` on which the relative path `loop:d` names an
existing directory. -/
def Env.loop_dir : Env :=
  { Env.quiet with is_dir := fun s => s == "loop:d".toList }

/-- The original handle of a container `c1` kept under `/var/lib/lxc`, with
source and destination set. -/
def orig_c1 (ops : OpsTable) (type : CStr) : bdev :=
  { ops := ops, type := type, src := some "/var/lib/lxc/c1/rootfs".toList,
    dest := some "/var/lib/lxc/c1/rootfs".toList, mntopts := none, lofd := 0, nbd_idx := 0 }

/-- A handle as `bdev_get` returns it: bound to a table entry, all else zero. -/
def fresh_bdev (ops : OpsTable) (type : CStr) : bdev :=
  { ops := ops, type := type, src := none, dest := none, mntopts := none, lofd := 0,
    nbd_idx := 0 }

/-- A container configuration without rootfs entries. -/
def conf_empty : lxc_conf :=
  { rootfs_path := none, rootfs_mount := none, nbd_idx := -1 }

/-- The replacement `R` of the path-rewrite law, in the words of the law: the
text is scanned from left to right, every occurrence of `old` met is replaced
by `new` and the scan resumes behind it, so the occurrences replaced are the
leftmost non-overlapping ones.  `skip` is the number of characters of the
occurrence just replaced that are still to be passed over. -/
def replace_occurrences (old new : CStr) : Nat → CStr → CStr
  | _, [] => []
  | skip + 1, _ :: t => replace_occurrences old new skip t
  | 0, c :: t =>
    if old.isPrefixOf (c :: t) then new ++ replace_occurrences old new (old.length - 1) t
    else c :: replace_occurrences old new 0 t

/-- The events that allocate the new handle or call `clone_paths`. -/
def Event.is_alloc_or_clone : Event → Bool
  | .bdev_get _ => true
  | .clone_paths _ _ => true
  | _ => false

/-- Whether `flags` has a bit of `mask` set (C: `flags & mask` as a `bool`). -/
def has_flag (flags mask : Nat) : Bool :=
  (flags &&& mask) != 0

/-- The effective snapshot flag in the words of step 3 of the copy
orchestrator: the SNAPSHOT flag, demoted to false if MAYBE_SNAPSHOT and
KEEP_BDEVTYPE are set, no new type is requested and the original back-end
cannot snapshot. -/
def effective_snap (snapshot maybe_snap keep_type : Bool) (new_type : Option CStr)
    (orig_can_snapshot : Bool) : Bool :=
  if maybe_snap = true ∧ keep_type = true ∧ new_type = none ∧ orig_can_snapshot = false
  then false else snapshot

/-- The effective new type in the words of step 3 of the copy orchestrator:
overlayfs if no new type is requested, KEEP_BDEVTYPE is not set, the effective
snapshot flag is true and the original type is dir; otherwise the requested
type or, if none, the type of the original. -/
def effective_type (keep_type snap : Bool) (new_type : Option CStr) (orig_type : CStr) :
    CStr :=
  if new_type = none ∧ keep_type = false ∧ snap = true ∧ orig_type = "dir".toList then
    "overlayfs".toList
  else
    match new_type with
    | some t => t
    | none => orig_type

/-- The types an unprivileged caller may clone to. -/
def unpriv_types : List CStr :=
  ["dir".toList, "aufs".toList, "overlayfs".toList, "btrfs".toList, "loop".toList]

/-- A host like `Env.quiet` on which `/var/lib/lxc/c1/rootfs` is a directory. -/
def Env.dir_host : Env :=
  { Env.quiet with is_dir := fun s => s == "/var/lib/lxc/c1/rootfs".toList }

/-- The container `c1` under `/var/lib/lxc` with a directory rootfs. -/
def container_c1 : lxc_container :=
  { name := "c1".toList, config_path := "/var/lib/lxc".toList,
    conf := { rootfs_path := some "/var/lib/lxc/c1/rootfs".toList, rootfs_mount := none,
              nbd_idx := -1 } }

/-- A host like `Env.quiet` with an unprivileged caller, on which the lvm
detector claims `/dev/lxc/c1`. -/
def Env.unpriv_lvm : Env :=
  { Env.quiet with
    am_unpriv := true
    lvm_detect := fun s => if s == "/dev/lxc/c1".toList then 1 else 0 }

/-- The container `c1` under `/var/lib/lxc` whose rootfs is the logical volume
`/dev/lxc/c1`. -/
def container_lvm_c1 : lxc_container :=
  { name := "c1".toList, config_path := "/var/lib/lxc".toList,
    conf := { rootfs_path := some "/dev/lxc/c1".toList, rootfs_mount := none,
              nbd_idx := -1 } }

/-- Function `dir_create` (bdev.c:588-611): the return value and the handle. -/
def dir_create (env : Env) (b : bdev) (dest _n : CStr) (specs : Option bdev_specs) :
    Int × bdev :=
  let src := match specs with
    | some sp =>
      match sp.dir with
      | some d => d
      | none => dest
    | none => dest
  let bdev1 := { b with src := some src, dest := some dest }
  if env.mkdir_p bdev1.src < 0 then (-1, bdev1)
  else if env.mkdir_p bdev1.dest < 0 then (-1, bdev1)
  else (0, bdev1)

/-- Function `loop_create` (bdev.c:1023-1069).  `none` is undefined behaviour:
for a `dest` of fewer than two characters `sprintf(srcdev + len - 4, "dev")`
writes in front of the buffer. -/
def loop_create (env : Env) (b : bdev) (dest _n : CStr) (specs : Option bdev_specs) :
    Option (Int × bdev) :=
  match specs with
  | none => some (-1, b)
  | some sp =>
    let len := dest.length + 2
    let r := snprintf len dest
    if r.1 < 0 ∨ r.1 ≥ (len : Int) then some (-1, b)
    else if len < 4 then none
    else
      let srcdev := r.2.take (len - 4) ++ "dev".toList
      let r2 := snprintf (len + 5) ("loop:".toList ++ srcdev)
      let bdev1 := { b with src := some r2.2 }
      if r2.1 < 0 ∨ r2.1 ≥ ((len + 5 : Nat) : Int) then some (-1, bdev1)
      else
        let sz := if sp.fssize = 0 then DEFAULT_FS_SIZE else sp.fssize
        let fstype := match sp.fstype with
          | some f => f
          | none => DEFAULT_FSTYPE
        let bdev2 := { bdev1 with dest := some dest }
        if env.mkdir_p bdev2.dest < 0 then some (-1, bdev2)
        else some (do_loop_create env srcdev sz fstype, bdev2)

/-- Function `rbd_create` (bdev.c:706-781).  `run_rbd` stands for one
fork/exec/wait of the `rbd` tool and is negative when the fork or the child
fails; the size in megabytes always prints in fewer than 24 characters. -/
def rbd_create (env : Env) (b : bdev) (dest n : CStr) (specs : Option bdev_specs) :
    Int × bdev :=
  match specs with
  | none => (-1, b)
  | some sp =>
    let rbdpool := match sp.rbdpool with
      | some p => p
      | none => env.rbd_default_pool
    let rbdname := match sp.rbdname with
      | some r => r
      | none => n
    let len := rbdpool.length + rbdname.length + 11
    let r := snprintf len ("/dev/rbd/".toList ++ rbdpool ++ "/".toList ++ rbdname)
    let bdev1 := { b with src := some r.2 }
    if r.1 < 0 ∨ r.1 ≥ (len : Int) then (-1, bdev1)
    else
      let size := if sp.fssize = 0 then DEFAULT_FS_SIZE else sp.fssize
      let sz := Nat.toDigits 10 (size / 1024 / 1024)
      if env.run_rbd ["create".toList, "--pool".toList, rbdpool, rbdname, "--size".toList, sz]
          < 0 then (-1, bdev1)
      else if env.run_rbd ["map".toList, "--pool".toList, rbdpool, rbdname] < 0 then
        (-1, bdev1)
      else
        let fstype := match sp.fstype with
          | some f => f
          | none => DEFAULT_FSTYPE
        if env.do_mkfs r.2 fstype < 0 then (-1, bdev1)
        else
          let bdev2 := { bdev1 with dest := some dest }
          if env.mkdir_p bdev2.dest < 0 ∧ env.mkdir_p_eexist bdev2.dest = false then
            (-1, bdev2)
          else (0, bdev2)

/-- Function `nbd_create` (bdev.c:1356-1360). -/
def nbd_create (b : bdev) (_dest _n : CStr) (_specs : Option bdev_specs) : Int × bdev :=
  (-ENOSYS, b)

/-- The `.create` member of each operation table; `none` is undefined
behaviour inside the callee. -/
def create (env : Env) : OpsTable → bdev → CStr → CStr → Option bdev_specs →
    Option (Int × bdev)
  | .dir_ops => fun b d n s => some (dir_create env b d n s)
  | .rbd_ops => fun b d n s => some (rbd_create env b d n s)
  | .loop_ops => loop_create env
  | .nbd_ops => fun b d n s => some (nbd_create b d n s)
  | .aufs_ops => fun b d n s => some (env.ext_create .aufs_ops b d n s)
  | .btrfs_ops => fun b d n s => some (env.ext_create .btrfs_ops b d n s)
  | .lvm_ops => fun b d n s => some (env.ext_create .lvm_ops b d n s)
  | .ovl_ops => fun b d n s => some (env.ext_create .ovl_ops b d n s)
  | .zfs_ops => fun b d n s => some (env.ext_create .zfs_ops b d n s)

/-- Function `do_bdev_create` (bdev.c:1704-1719): `some none` is the NULL result,
`none` undefined behaviour in the `create` callee. -/
def do_bdev_create (env : Env) (dest type cname : CStr) (specs : Option bdev_specs) :
    Option (Option bdev) :=
  match bdev_get type with
  | none => some none
  | some b =>
    match create env b.ops b dest cname specs with
    | none => none
    | some r => if r.1 < 0 then some none else some (some r.2)

/-- One call `strtok_r(s, ",", &saveptr)` of the C library on the text `s` still
to scan: leading commas are skipped; `none` is the NULL result at the end of the
text; otherwise the token runs up to the next comma and the text left starts
behind that comma. -/
def strtok_r (s : CStr) : Option (CStr × CStr) :=
  let s1 := s.dropWhile (fun c => c == ',')
  if s1 = [] then none
  else some (s1.takeWhile (fun c => c != ','), (s1.dropWhile (fun c => c != ',')).drop 1)

/-- The loop `for (token = strtok_r(dup, ",", &saveptr); token; token =
strtok_r(NULL, ",", &saveptr))` of `bdev_create` (bdev.c:1756-1760) with an early
return on the first attempt that gives a handle; `fuel` bounds the number of
`strtok_r` calls.  The result `some none` means that the loop ended without a
handle. -/
def bdev_create_tokens (env : Env) (dest cname : CStr) (specs : Option bdev_specs) :
    Nat → CStr → Option (Option bdev)
  | 0, _ => some none
  | fuel + 1, s =>
    match strtok_r s with
    | none => some none
    | some (token, rest) =>
      match do_bdev_create env dest token cname specs with
      | none => none
      | some (some b) => some (some b)
      | some none => bdev_create_tokens env dest cname specs fuel rest

/-- The array `best_options` of `bdev_create` (bdev.c:1736). -/
def best_options : List CStr :=
  ["btrfs".toList, "zfs".toList, "lvm".toList, "dir".toList, "rbd".toList]

/-- The loop over `best_options` in `bdev_create` (bdev.c:1745-1748). -/
def bdev_create_best (env : Env) (dest cname : CStr) (specs : Option bdev_specs) :
    List CStr → Option (Option bdev)
  | [] => some none
  | t :: rest =>
    match do_bdev_create env dest t cname specs with
    | none => none
    | some (some b) => some (some b)
    | some none => bdev_create_best env dest cname specs rest

/-- Function `bdev_create` (bdev.c:1732-1764): `some none` is the NULL result,
`none` undefined behaviour in a `create` callee.  The token loop is given
`strlen(type) + 1` calls of `strtok_r`. -/
def bdev_create (env : Env) (dest : CStr) (type : Option CStr) (cname : CStr)
    (specs : Option bdev_specs) : Option (Option bdev) :=
  match type with
  | none => do_bdev_create env dest "dir".toList cname specs
  | some t =>
    if strcmp_eq t "best".toList then bdev_create_best env dest cname specs best_options
    else if ',' ∈ t then
      match bdev_create_tokens env dest cname specs (t.length + 1) t with
      | none => none
      | some (some b) => some (some b)
      | some none => do_bdev_create env dest t cname specs
    else do_bdev_create env dest t cname specs

/-- The text split at every comma, in the words of the creation entry point:
`a,b` gives `a` and `b`; two commas in a row give an empty token. -/
def split_commas : CStr → List CStr
  | [] => [[]]
  | c :: t =>
    if c = ',' then [] :: split_commas t
    else
      match split_commas t with
      | [] => [[c]]
      | h :: r => (c :: h) :: r

/-- The list of back-end names `bdev_create` is said to attempt for `type`. -/
def attempt_list (type : Option CStr) : List CStr :=
  match type with
  | none => ["dir".toList]
  | some t =>
    if t = "best".toList then
      ["btrfs".toList, "zfs".toList, "lvm".toList, "dir".toList, "rbd".toList]
    else if ',' ∈ t then split_commas t
    else [t]

/-- One attempt with the back-end named `t`, in the words of the creation
entry point: a name that is not in the registry fails; for a registered name
the create operation of that back-end runs on a fresh handle bound to it, and
the attempt succeeds, with the handle as create leaves it, exactly when create
does not return a negative value.  `some none` is the failed attempt, `none`
undefined behaviour inside create. -/
def attempt (env : Env) (dest t cname : CStr) (specs : Option bdev_specs) :
    Option (Option bdev) :=
  match bdevs.find? (fun e => e.name == t) with
  | none => some none
  | some e =>
    match create env e.ops (fresh_bdev e.ops e.name) dest cname specs with
    | none => none
    | some r => if 0 ≤ r.1 then some (some r.2) else some none

/-- The handle of the first attempt in `names` that succeeds, the names being
tried from left to right; `some none` when every attempt fails. -/
def first_success (env : Env) (dest cname : CStr) (specs : Option bdev_specs) :
    List CStr → Option (Option bdev)
  | [] => some none
  | t :: rest =>
    match attempt env dest t cname specs with
    | none => none
    | some (some b) => some (some b)
    | some none => first_success env dest cname specs rest

/-- The calls to the system made by the mount and umount operations. -/
inductive SysCall where
  | mount (src dest fstype : CStr)
  | umount (dest : CStr)
  | mount_unknown_fs (rootfs target : CStr)
  | find_free_loopdev
  | open_rdwr (path : CStr)
  | ioctl_loop_set_fd (lfd ffd : Int)
  | ioctl_loop_set_status (lfd : Int)
  | close (fd : Int)
  | file_exists (path : CStr)
  | sleep
  deriving DecidableEq, Repr

/-- What a mount or umount operation leaves behind: the return value, the
handle and the calls made, in order. -/
structure MountResult where
  ret : Int
  bdev : bdev
  calls : List SysCall
  deriving DecidableEq, Repr

/-- The return value of a system call that reports success as 0 and failure
as -1 (`mount(2)`, `umount(2)`). -/
def sys_ret (ok : Bool) : Int :=
  if ok then 0 else -1

/-- The mount flag `MS_BIND` of Linux. -/
def MS_BIND : Nat := 4096

/-- The mount flag `MS_REC` of Linux. -/
def MS_REC : Nat := 16384

/-- The conversion `%d` of `printf`. -/
def fmt_d (i : Int) : CStr :=
  if i < 0 then '-' :: Nat.toDigits 10 i.natAbs else Nat.toDigits 10 i.toNat

/-- The loop of `mount_unknown_fs` over the files that list filesystem types
(bdev.c:344-359); `lxc_file_for_each_line` runs `find_fstype_cb` on each line. -/
def mount_unknown_fs_files (env : Env) (rootfs target : CStr) (options : Option CStr) :
    List CStr → Int
  | [] => -1
  | f :: rest =>
    if env.access f ≠ 0 then mount_unknown_fs_files env rootfs target options rest
    else
      let ret := env.lxc_file_for_each_line f rootfs target options
      if ret < 0 then -1
      else if ret ≠ 0 then 0
      else mount_unknown_fs_files env rootfs target options rest

/-- Function `mount_unknown_fs` (bdev.c:320-363). -/
def mount_unknown_fs (env : Env) (rootfs target : CStr) (options : Option CStr) : Int :=
  mount_unknown_fs_files env rootfs target options
    ["/etc/filesystems".toList, "/proc/filesystems".toList]

/-- Function `dir_mount` (bdev.c:519-538). -/
def dir_mount (env : Env) (b : bdev) : MountResult :=
  if !strcmp_eq b.type "dir".toList then ⟨-22, b, []⟩
  else
    match b.src, b.dest with
    | some src, some dest =>
      let p := env.parse_mntopts b.mntopts
      if p.1 < 0 then ⟨-22, b, []⟩
      else
        ⟨sys_ret (env.sys_mount src dest "bind".toList (MS_BIND ||| MS_REC ||| p.2.1) p.2.2),
          b, [SysCall.mount src dest "bind".toList]⟩
    | _, _ => ⟨-22, b, []⟩

/-- Function `dir_umount` (bdev.c:540-547). -/
def dir_umount (env : Env) (b : bdev) : MountResult :=
  if !strcmp_eq b.type "dir".toList then ⟨-22, b, []⟩
  else
    match b.src, b.dest with
    | some _, some dest => ⟨sys_ret (env.sys_umount dest), b, [SysCall.umount dest]⟩
    | _, _ => ⟨-22, b, []⟩

/-- Function `rbd_mount` (bdev.c:644-658). -/
def rbd_mount (env : Env) (b : bdev) : MountResult :=
  if !strcmp_eq b.type "rbd".toList then ⟨-22, b, []⟩
  else
    match b.src, b.dest with
    | some src, some dest =>
      if !env.file_exists src then ⟨-1, b, [SysCall.file_exists src]⟩
      else
        ⟨mount_unknown_fs env src dest b.mntopts, b,
          [SysCall.file_exists src, SysCall.mount_unknown_fs src dest]⟩
    | _, _ => ⟨-22, b, []⟩

/-- Function `rbd_umount` (bdev.c:660-667). -/
def rbd_umount (env : Env) (b : bdev) : MountResult :=
  if !strcmp_eq b.type "rbd".toList then ⟨-22, b, []⟩
  else
    match b.src, b.dest with
    | some _, some dest => ⟨sys_ret (env.sys_umount dest), b, [SysCall.umount dest]⟩
    | _, _ => ⟨-22, b, []⟩

/-- The loop of `find_free_loopdev_no_control` over the entries of `/dev`
(bdev.c:816-833): `fd` is the value of the variable `fd` on entry, the result
is its value and the device name when the loop is left. -/
def find_free_loopdev_scan (env : Env) : Int → List CStr → Int × CStr
  | fd, [] => (fd, [])
  | fd, d :: rest =>
    if !strncmp_eq d "loop".toList 4 then find_free_loopdev_scan env fd rest
    else
      let fd1 := env.openat_dev d
      if fd1 < 0 then find_free_loopdev_scan env fd1 rest
      else if !env.loop_status_enxio fd1 then find_free_loopdev_scan env (-1) rest
      else (fd1, (snprintf 100 ("/dev/".toList ++ d)).2)

/-- Function `find_free_loopdev_no_control` (bdev.c:804-842): the return
value, the descriptor and the device name. -/
def find_free_loopdev_no_control (env : Env) : Int × Int × CStr :=
  match env.dev_entries with
  | none => (-1, -1, [])
  | some entries =>
    let r := find_free_loopdev_scan env (-1) entries
    if r.1 = -1 then (-1, -1, []) else (0, r.1, r.2)

/-- Function `find_free_loopdev` (bdev.c:844-862): the return value, the
descriptor and the device name. -/
def find_free_loopdev (env : Env) : Int × Int × CStr :=
  let ctl := env.open_rdwr "/dev/loop-control".toList
  if ctl < 0 then find_free_loopdev_no_control env
  else
    let rc := env.loop_ctl_get_free ctl
    let name := if rc ≥ 0 then (snprintf 100 ("/dev/loop".toList ++ fmt_d rc)).2 else []
    let fd := if rc ≥ 0 then env.open_rdwr name else -1
    if fd = -1 then (-1, -1, name) else (0, fd, name)

/-- Function `loop_mount` (bdev.c:864-908). -/
def loop_mount (env : Env) (b : bdev) : MountResult :=
  if !strcmp_eq b.type "loop".toList then ⟨-22, b, []⟩
  else
    match b.src, b.dest with
    | some src, some dest =>
      let f := find_free_loopdev env
      if f.1 < 0 then ⟨-22, b, [SysCall.find_free_loopdev]⟩
      else
        let lfd := f.2.1
        let loname := f.2.2
        let ffd := env.open_rdwr (src.drop 5)
        let ev1 := [SysCall.find_free_loopdev, SysCall.open_rdwr (src.drop 5)]
        if ffd < 0 then ⟨-1, { b with lofd := -1 }, ev1 ++ [SysCall.close lfd]⟩
        else if env.ioctl_loop_set_fd lfd ffd < 0 then
          ⟨-1, { b with lofd := -1 },
            ev1 ++ [SysCall.ioctl_loop_set_fd lfd ffd, SysCall.close ffd, SysCall.close lfd]⟩
        else if env.ioctl_loop_set_status lfd < 0 then
          ⟨-1, { b with lofd := -1 },
            ev1 ++ [SysCall.ioctl_loop_set_fd lfd ffd, SysCall.ioctl_loop_set_status lfd,
              SysCall.close ffd, SysCall.close lfd]⟩
        else
          let ret := mount_unknown_fs env loname dest b.mntopts
          let ev2 := ev1 ++ [SysCall.ioctl_loop_set_fd lfd ffd,
            SysCall.ioctl_loop_set_status lfd, SysCall.mount_unknown_fs loname dest,
            SysCall.close ffd]
          if ret < 0 then ⟨ret, { b with lofd := -1 }, ev2 ++ [SysCall.close lfd]⟩
          else ⟨ret, { b with lofd := lfd }, ev2⟩
    | _, _ => ⟨-22, b, []⟩

/-- Function `loop_umount` (bdev.c:910-924). -/
def loop_umount (env : Env) (b : bdev) : MountResult :=
  if !strcmp_eq b.type "loop".toList then ⟨-22, b, []⟩
  else
    match b.src, b.dest with
    | some _, some dest =>
      let ret := sys_ret (env.sys_umount dest)
      if b.lofd ≥ 0 then
        ⟨ret, { b with lofd := -1 }, [SysCall.umount dest, SysCall.close b.lofd]⟩
      else ⟨ret, b, [SysCall.umount dest]⟩
    | _, _ => ⟨-22, b, []⟩

/-- C `strchr(s, c)` as the text from the first occurrence of `c` on; `none` is
the NULL result. -/
def strchr : CStr → Char → Option CStr
  | [], _ => none
  | a :: t, c => if a = c then some (a :: t) else strchr t c

/-- Function `nbd_get_partition` (bdev.c:1293-1305). -/
def nbd_get_partition (src : CStr) : Int :=
  match strchr src ':' with
  | none => 0
  | some p =>
    match strchr (p.drop 1) ':' with
    | none => 0
    | some p2 =>
      match p2.drop 1 with
      | [] => 0
      | c :: _ => if c < '1' ∨ c > '9' then 0 else (c.toNat : Int) - ('0'.toNat : Int)

/-- The loop of `wait_for_partition` (bdev.c:1310-1315) with `n` iterations left
and the variable `count` on entry; the answer of `file_exists` may change from
one poll to the next. -/
def wait_for_partition_from (env : Env) (path : CStr) : Nat → Nat → Bool × List SysCall
  | 0, _ => (false, [])
  | n + 1, count =>
    if env.file_exists_poll path count then (true, [SysCall.file_exists path])
    else
      let r := wait_for_partition_from env path n (count + 1)
      (r.1, SysCall.file_exists path :: SysCall.sleep :: r.2)

/-- Function `wait_for_partition` (bdev.c:1307-1318): the answer and the calls
made. -/
def wait_for_partition (env : Env) (path : CStr) : Bool × List SysCall :=
  wait_for_partition_from env path 5 0

/-- Function `nbd_mount` (bdev.c:1320-1354). -/
def nbd_mount (env : Env) (b : bdev) : MountResult :=
  if !strcmp_eq b.type "nbd".toList then ⟨-22, b, []⟩
  else
    match b.src, b.dest with
    | some src, some dest =>
      if b.nbd_idx < 0 then ⟨-22, b, []⟩
      else
        let partition := nbd_get_partition src
        let r := if partition ≠ 0 then
            snprintf 50 ("/dev/nbd".toList ++ fmt_d b.nbd_idx ++ "p".toList ++ fmt_d partition)
          else snprintf 50 ("/dev/nbd".toList ++ fmt_d b.nbd_idx)
        if r.1 < 0 ∨ r.1 ≥ 50 then ⟨r.1, b, []⟩
        else
          let path := r.2
          let w := if partition ≠ 0 then wait_for_partition env path else (true, [])
          if !w.1 then ⟨-2, b, w.2⟩
          else
            ⟨mount_unknown_fs env path dest b.mntopts, b,
              w.2 ++ [SysCall.mount_unknown_fs path dest]⟩
    | _, _ => ⟨-22, b, []⟩

/-- Function `nbd_umount` (bdev.c:1375-1385). -/
def nbd_umount (env : Env) (b : bdev) : MountResult :=
  if !strcmp_eq b.type "nbd".toList then ⟨-22, b, []⟩
  else
    match b.src, b.dest with
    | some _, some dest => ⟨sys_ret (env.sys_umount dest), b, [SysCall.umount dest]⟩
    | _, _ => ⟨-22, b, []⟩

/-- The mount operation of the four back-ends implemented in bdev.c, by the name
of the back-end; `none` for any other name. -/
def mount_op (env : Env) (name : CStr) (b : bdev) : Option MountResult :=
  if name = "dir".toList then some (dir_mount env b)
  else if name = "loop".toList then some (loop_mount env b)
  else if name = "rbd".toList then some (rbd_mount env b)
  else if name = "nbd".toList then some (nbd_mount env b)
  else none

/-- The umount operation of the four back-ends implemented in bdev.c, by the
name of the back-end; `none` for any other name. -/
def umount_op (env : Env) (name : CStr) (b : bdev) : Option MountResult :=
  if name = "dir".toList then some (dir_umount env b)
  else if name = "loop".toList then some (loop_umount env b)
  else if name = "rbd".toList then some (rbd_umount env b)
  else if name = "nbd".toList then some (nbd_umount env b)
  else none

/-- A host like `Env.quiet` without any free loop device: `/dev/loop-control`
cannot be opened and `/dev` has no loop entry. -/
def Env.no_loopdev : Env :=
  { Env.quiet with
    open_rdwr := fun _ => -1
    dev_entries := some [] }

/-- A loop handle with source `loop:/img` and destination `/mnt`. -/
def loop_img : bdev :=
  { fresh_bdev .loop_ops "loop".toList with
    src := some "loop:/img".toList, dest := some "/mnt".toList }

/-- An nbd handle for partition 3 of the image `/img`, attached at index 12. -/
def nbd_img_p3 : bdev :=
  { fresh_bdev .nbd_ops "nbd".toList with
    src := some "nbd:/img:3".toList, dest := some "/mnt".toList, nbd_idx := 12 }

/-- A host like `Env.quiet` on which the partition nodes never show up. -/
def Env.no_partition : Env :=
  { Env.quiet with file_exists_poll := fun _ _ => false }

/-- The largest value of the C type `unsigned long` on Linux (64 bits). -/
def ULONG_MAX : Nat := 2 ^ 64 - 1

/-- C `isspace` in the C locale. -/
def isspace (c : Char) : Bool :=
  c == ' ' || c == '\t' || c == '\n' || c == '\x0b' || c == '\x0c' || c == '\r'

/-- C `isblank` in the C locale. -/
def isblank (c : Char) : Bool :=
  c == ' ' || c == '\t'

/-- C `isdigit`. -/
def isdigit (c : Char) : Bool :=
  decide ('0' ≤ c ∧ c ≤ '9')

/-- The value of a character as a digit of `strtoul`: 0 to 9 for the decimal
digits, 10 to 35 for the letters of either case. -/
def digit_val (c : Char) : Option Nat :=
  if '0' ≤ c ∧ c ≤ '9' then some (c.toNat - '0'.toNat)
  else if 'a' ≤ c ∧ c ≤ 'z' then some (c.toNat - 'a'.toNat + 10)
  else if 'A' ≤ c ∧ c ≤ 'Z' then some (c.toNat - 'A'.toNat + 10)
  else none

/-- The digit scan of `strtoul`: the value of the longest run of digits valid in
`base`, starting from `acc`, the number of digits taken and the text behind
them. -/
def scan_digits (base : Nat) : CStr → Nat → Nat → Nat × Nat × CStr
  | [], acc, cnt => (acc, cnt, [])
  | c :: t, acc, cnt =>
    match digit_val c with
    | some d =>
      if d < base then scan_digits base t (acc * base + d) (cnt + 1) else (acc, cnt, c :: t)
    | none => (acc, cnt, c :: t)

/-- The base `strtoul` chooses for base argument 0 and the text at which the
digits start: 16 behind `0x` or `0X` followed by a hexadecimal digit, 8 for a
leading `0`, and 10 otherwise. -/
def strtoul_base (s : CStr) : Nat × CStr :=
  match s with
  | c0 :: x :: h :: t =>
    if c0 = '0' ∧ (x = 'x' ∨ x = 'X') ∧
        (match digit_val h with
          | some d => decide (d < 16)
          | none => false) = true then (16, h :: t)
    else if c0 = '0' then (8, c0 :: x :: h :: t)
    else (10, c0 :: x :: h :: t)
  | c0 :: t => if c0 = '0' then (8, c0 :: t) else (10, c0 :: t)
  | [] => (10, [])

/-- The C library call `strtoul(s, &end, 0)` (ISO C 7.22.1.4): white space is
skipped, a sign is optional, the base is chosen by `strtoul_base`.  The result
is the value and the text `end` points to; `none` means that no conversion was
done, in which case C returns 0 and sets `end` to `s`.  A value that does not
fit is returned as `ULONG_MAX`; a minus sign negates modulo 2^64. -/
def strtoul0 (s : CStr) : Option (Nat × CStr) :=
  let s1 := s.dropWhile isspace
  let neg := match s1 with
    | c :: _ => decide (c = '-')
    | [] => false
  let s2 := match s1 with
    | c :: t => if c = '-' ∨ c = '+' then t else c :: t
    | [] => []
  let bs := strtoul_base s2
  let r := scan_digits bs.1 bs.2 0 0
  if r.2.1 = 0 then none
  else if r.1 > ULONG_MAX then some (ULONG_MAX, r.2.2)
  else if neg then some ((2 ^ 64 - r.1) % 2 ^ 64, r.2.2)
  else some (r.1, r.2.2)

/-- Function `get_fssize` (lxc_create.c:38-57); the products are taken in
`unsigned long`, modulo 2^64. -/
def get_fssize (s : CStr) : Nat :=
  match strtoul0 s with
  | none => 0
  | some (ret, e) =>
    match e.dropWhile isblank with
    | [] => ret
    | c :: _ =>
      if c = 'g' ∨ c = 'G' then ret * 1000000000 % 2 ^ 64
      else if c = 'm' ∨ c = 'M' then ret * 1000000 % 2 ^ 64
      else if c = 'k' ∨ c = 'K' then ret * 1000 % 2 ^ 64
      else ret

/-- The value of a string of decimal digits. -/
def decimal_value (ds : CStr) : Nat :=
  ds.foldl (fun acc c => acc * 10 + (c.toNat - '0'.toNat)) 0

/-- The multiplier the size suffixes stand for: 10^9 for g, 10^6 for m, 10^3
for k, in either case, and 1 for every other character. -/
def suffix_multiplier (c : Char) : Nat :=
  if c = 'g' ∨ c = 'G' then 1000000000
  else if c = 'm' ∨ c = 'M' then 1000000
  else if c = 'k' ∨ c = 'K' then 1000
  else 1

/-- The text behind leading white space and one optional sign. -/
def skip_space_sign (s : CStr) : CStr :=
  match s.dropWhile isspace with
  | c :: t => if c = '-' ∨ c = '+' then t else c :: t
  | [] => []

/-- Whether a text starts with a decimal digit. -/
def starts_with_digit (s : CStr) : Bool :=
  match s with
  | c :: _ => isdigit c
  | [] => false

/-- A string has no leading number when, behind white space and an optional
sign, it does not continue with a decimal digit. -/
def no_leading_number (s : CStr) : Bool :=
  !starts_with_digit (skip_space_sign s)

/-! ## Lock manager (lxclock.c) -/

/-- Modelled from the spec: the type `struct lxc_lock` of lxclock.h, which is
not among the sources (spec section 3: tagged variant of a semaphore lock and
a file lock). The members are those lxclock.c reads: `type`, `u.sem`,
`u.f.fname` and `u.f.fd`. The semaphore pointer is `none` for NULL and
`some n` for a semaphore whose value is `n`. -/
inductive lxc_lock where
  | LXC_LOCK_ANON_SEM (sem : Option Nat)
  | LXC_LOCK_FLOCK (fname : Option CStr) (fd : Int)
  deriving DecidableEq, Repr

/-- What a system call that may block does: return 0, return -1, or never
return. -/
inductive Blocking where
  | done
  | failed
  | never
  deriving DecidableEq, Repr

/-- The host as lxclock.c sees it: the process-wide mutex, the allocator and
the system calls. `errno` is not modelled. -/
structure LockEnv where
  /-- Value that `pthread_mutex_lock(&thread_mutex)` returns. -/
  pthread_mutex_lock : Int
  /-- Whether `malloc` succeeds. -/
  malloc_ok : Bool
  /-- Whether `sem_init` succeeds. -/
  sem_init_ok : Bool
  /-- Value that `mkdir_p(path, 0755)` returns. -/
  mkdir_p : CStr → Int
  /-- Whether `clock_gettime(CLOCK_REALTIME, &ts)` returns -1. -/
  clock_gettime_fails : Bool
  /-- Call `open(fname, O_RDWR|O_CREAT, S_IWUSR|S_IRUSR)`: `none` for -1,
  otherwise the new descriptor. -/
  sys_open : CStr → Option Nat
  /-- Call `flock(fd, LOCK_EX)`. -/
  flock_ex : Int → Blocking
  /-- Whether `flock(fd, LOCK_UN)` succeeds. -/
  flock_un_ok : Int → Bool
  /-- What a wait on a semaphore of value 0 does: `done` when another thread
  posts meanwhile, `failed` when it is interrupted or times out, `never` when
  nothing wakes it. -/
  sem_contended : Blocking
  /-- Whether `sem_post` succeeds on a semaphore of the given value. -/
  sem_post_ok : Nat → Bool

/-- The calls of lxclock.c that are visible outside the lock object. -/
inductive Action where
  | pthread_mutex_lock
  | pthread_mutex_unlock
  | mkdir_p (path : CStr)
  | sem_init
  | clock_gettime
  | sem_wait
  | sem_timedwait
  | sem_post
  | sem_close
  | sys_open (fname : CStr)
  | flock_ex (fd : Int)
  | flock_un (fd : Int)
  | close (fd : Int)
  deriving DecidableEq, Repr

/-- The blocking primitives: `flock(LOCK_EX)`, `sem_wait`, `sem_timedwait`. -/
def Action.is_blocking : Action → Bool
  | Action.flock_ex _ => true
  | Action.sem_wait => true
  | Action.sem_timedwait => true
  | _ => false

/-- Function `lxclock_name`: the text `<p>/locks/<n>`, after the directory
`<p>/locks` was created; NULL when an allocation, a format or `mkdir_p`
fails. The lengths are taken to fit an `int`. -/
def lxclock_name (E : LockEnv) (p n : CStr) : Option CStr × List Action :=
  let len := p.length + n.length + "/locks/".toList.length + 1
  if !E.malloc_ok then (none, [])
  else
    let r := snprintf len (p ++ "/locks".toList)
    if r.1 < 0 ∨ r.1 ≥ (len : Int) then (none, [])
    else if E.mkdir_p r.2 < 0 then (none, [Action.mkdir_p r.2])
    else
      let r2 := snprintf len (p ++ "/locks/".toList ++ n)
      if r2.1 < 0 ∨ r2.1 ≥ (len : Int) then (none, [Action.mkdir_p r.2])
      else (some r2.2, [Action.mkdir_p r.2])

/-- Function `lxc_new_unnamed_sem`: a fresh semaphore of value 1, NULL when
`malloc` or `sem_init` fails. -/
def lxc_new_unnamed_sem (E : LockEnv) : Option Nat × List Action :=
  if !E.malloc_ok then (none, [])
  else if !E.sem_init_ok then (none, [Action.sem_init])
  else (some 1, [Action.sem_init])

/-- Function `lxc_newlock(lxcpath, name)`: a semaphore lock when `name` is
NULL, otherwise a file lock on `<lxcpath>/locks/<name>` with descriptor -1. -/
def lxc_newlock (E : LockEnv) (lxcpath : CStr) (name : Option CStr) :
    Option lxc_lock × List Action :=
  if E.pthread_mutex_lock ≠ 0 then (none, [Action.pthread_mutex_lock])
  else if !E.malloc_ok then
    (none, [Action.pthread_mutex_lock, Action.pthread_mutex_unlock])
  else
    match name with
    | none =>
      let s := lxc_new_unnamed_sem E
      (some (lxc_lock.LXC_LOCK_ANON_SEM s.1),
        Action.pthread_mutex_lock :: s.2 ++ [Action.pthread_mutex_unlock])
    | some n =>
      let f := lxclock_name E lxcpath n
      match f.1 with
      | none => (none, Action.pthread_mutex_lock :: f.2 ++ [Action.pthread_mutex_unlock])
      | some fname =>
        (some (lxc_lock.LXC_LOCK_FLOCK (some fname) (-1)),
          Action.pthread_mutex_lock :: f.2 ++ [Action.pthread_mutex_unlock])

/-- POSIX `sem_wait` on a semaphore of value `n`: the outcome and the new
value. -/
def sem_wait (E : LockEnv) (n : Nat) : Blocking × Nat :=
  if n > 0 then (Blocking.done, n - 1) else (E.sem_contended, 0)

/-- POSIX `sem_timedwait` on a semaphore of value `n`: as `sem_wait`, but a
wait that nothing wakes ends with -1 at the deadline. -/
def sem_timedwait (E : LockEnv) (n : Nat) : Blocking × Nat :=
  if n > 0 then (Blocking.done, n - 1)
  else
    match E.sem_contended with
    | Blocking.done => (Blocking.done, 0)
    | _ => (Blocking.failed, 0)

/-- One run of `lxclock`: the value returned (`none` when the call never
returns), the lock afterwards and the calls made, in order. -/
structure LockRun where
  ret : Option Int
  lock : lxc_lock
  actions : List Action
  deriving DecidableEq, Repr

/-- One run of `lxcunlock`: the value returned, the lock afterwards and the
calls made, in order. -/
structure UnlockRun where
  ret : Int
  lock : lxc_lock
  actions : List Action
  deriving DecidableEq, Repr

/-- The end of `lxclock` behind a blocking primitive whose outcome is `b`:
`ret` is what the primitive returned, then the label `out` unlocks the mutex;
a primitive that never returns ends the trace, `pre` being the calls so far. -/
def lxclock_out (b : Blocking) (l : lxc_lock) (pre : List Action) : LockRun :=
  match b with
  | Blocking.done => ⟨some 0, l, pre ++ [Action.pthread_mutex_unlock]⟩
  | Blocking.failed => ⟨some (-1), l, pre ++ [Action.pthread_mutex_unlock]⟩
  | Blocking.never => ⟨none, l, pre⟩

/-- Function `lxclock(l, timeout)`. The result is `none` when the call is
undefined: a wait on a NULL semaphore. -/
def lxclock (E : LockEnv) (l : lxc_lock) (timeout : Int) : Option LockRun :=
  if E.pthread_mutex_lock ≠ 0 then
    some ⟨some E.pthread_mutex_lock, l, [Action.pthread_mutex_lock]⟩
  else
    match l with
    | lxc_lock.LXC_LOCK_ANON_SEM sem =>
      if timeout = 0 then
        match sem with
        | none => none
        | some n =>
          let w := sem_wait E n
          some (lxclock_out w.1 (lxc_lock.LXC_LOCK_ANON_SEM (some w.2))
            [Action.pthread_mutex_lock, Action.sem_wait])
      else if E.clock_gettime_fails then
        some ⟨some (-2), l,
          [Action.pthread_mutex_lock, Action.clock_gettime, Action.pthread_mutex_unlock]⟩
      else
        match sem with
        | none => none
        | some n =>
          let w := sem_timedwait E n
          some (lxclock_out w.1 (lxc_lock.LXC_LOCK_ANON_SEM (some w.2))
            [Action.pthread_mutex_lock, Action.clock_gettime, Action.sem_timedwait])
    | lxc_lock.LXC_LOCK_FLOCK fname fd =>
      if timeout ≠ 0 then
        some ⟨some (-2), l, [Action.pthread_mutex_lock, Action.pthread_mutex_unlock]⟩
      else
        match fname with
        | none =>
          some ⟨some (-2), l, [Action.pthread_mutex_lock, Action.pthread_mutex_unlock]⟩
        | some f =>
          if fd = -1 then
            match E.sys_open f with
            | none =>
              some ⟨some (-2), lxc_lock.LXC_LOCK_FLOCK fname (-1),
                [Action.pthread_mutex_lock, Action.sys_open f, Action.pthread_mutex_unlock]⟩
            | some d =>
              some (lxclock_out (E.flock_ex d) (lxc_lock.LXC_LOCK_FLOCK fname d)
                [Action.pthread_mutex_lock, Action.sys_open f, Action.flock_ex d])
          else
            some (lxclock_out (E.flock_ex fd) l
              [Action.pthread_mutex_lock, Action.flock_ex fd])

/-- Function `lxcunlock(l)`. -/
def lxcunlock (E : LockEnv) (l : lxc_lock) : UnlockRun :=
  if E.pthread_mutex_lock ≠ 0 then ⟨E.pthread_mutex_lock, l, [Action.pthread_mutex_lock]⟩
  else
    match l with
    | lxc_lock.LXC_LOCK_ANON_SEM none =>
      ⟨-2, l, [Action.pthread_mutex_lock, Action.pthread_mutex_unlock]⟩
    | lxc_lock.LXC_LOCK_ANON_SEM (some n) =>
      if E.sem_post_ok n then
        ⟨0, lxc_lock.LXC_LOCK_ANON_SEM (some (n + 1)),
          [Action.pthread_mutex_lock, Action.sem_post, Action.pthread_mutex_unlock]⟩
      else
        ⟨-1, l, [Action.pthread_mutex_lock, Action.sem_post, Action.pthread_mutex_unlock]⟩
    | lxc_lock.LXC_LOCK_FLOCK fname fd =>
      if fd ≠ -1 then
        ⟨if E.flock_un_ok fd then 0 else -1, lxc_lock.LXC_LOCK_FLOCK fname (-1),
          [Action.pthread_mutex_lock, Action.flock_un fd, Action.close fd,
            Action.pthread_mutex_unlock]⟩
      else ⟨-2, l, [Action.pthread_mutex_lock, Action.pthread_mutex_unlock]⟩

/-- Function `lxc_putlock(l)`: the lock afterwards and the calls made. -/
def lxc_putlock (E : LockEnv) (l : Option lxc_lock) : Option lxc_lock × List Action :=
  if E.pthread_mutex_lock ≠ 0 then (l, [Action.pthread_mutex_lock])
  else
    match l with
    | none => (none, [Action.pthread_mutex_lock, Action.pthread_mutex_unlock])
    | some (lxc_lock.LXC_LOCK_ANON_SEM sem) =>
      (l, Action.pthread_mutex_lock ::
        (if sem.isSome then [Action.sem_close] else []) ++ [Action.pthread_mutex_unlock])
    | some (lxc_lock.LXC_LOCK_FLOCK _ fd) =>
      (some (lxc_lock.LXC_LOCK_FLOCK none (-1)), Action.pthread_mutex_lock ::
        (if fd ≠ -1 then [Action.close fd] else []) ++ [Action.pthread_mutex_unlock])

/-- The sequence new_lock; acquire(0); release; acquire(0); release; destroy on
one host: the values the four middle calls return and the lock after each of
the six calls; `none` when no lock is made or an acquire does not return. -/
def lock_lifecycle (E : LockEnv) (lxcpath : CStr) (name : Option CStr) :
    Option (List Int × List lxc_lock) :=
  match (lxc_newlock E lxcpath name).1 with
  | none => none
  | some l0 =>
    match lxclock E l0 0 with
    | some ⟨some r1, l1, _⟩ =>
      let u2 := lxcunlock E l1
      match lxclock E u2.lock 0 with
      | some ⟨some r3, l3, _⟩ =>
        let u4 := lxcunlock E l3
        match (lxc_putlock E (some u4.lock)).1 with
        | some l5 => some ([r1, u2.ret, r3, u4.ret], [l0, l1, u2.lock, l3, u4.lock, l5])
        | none => none
      | _ => none
    | _ => none

/-- A host on which every call of the lock manager succeeds; a wait on a
semaphore of value 0 is never woken. -/
def LockEnv.ok : LockEnv where
  pthread_mutex_lock := 0
  malloc_ok := true
  sem_init_ok := true
  mkdir_p := fun _ => 0
  clock_gettime_fails := false
  sys_open := fun _ => some 3
  flock_ex := fun _ => Blocking.done
  flock_un_ok := fun _ => true
  sem_contended := Blocking.never
  sem_post_ok := fun _ => true

/-- The value a blocking system call returns: 0 on success, -1 on failure,
nothing when it never returns. -/
def Blocking.ret : Blocking → Option Int
  | Blocking.done => some 0
  | Blocking.failed => some (-1)
  | Blocking.never => none

/-! ## Loop backing file, argument check, occurrence count -/

/-- A regular file as an open descriptor sees it: the length of the file in
bytes and the offset of the descriptor. -/
structure OpenFile where
  length : Nat
  offset : Nat
  deriving DecidableEq, Repr

/-- POSIX `creat`: the file exists with length 0 and the offset is 0. -/
def posix_creat : OpenFile :=
  ⟨0, 0⟩

/-- POSIX `lseek(fd, off, SEEK_SET)`: the offset becomes `off`, also behind the
end of the file; the length stays. -/
def posix_lseek_set (f : OpenFile) (off : Nat) : OpenFile :=
  { f with offset := off }

/-- POSIX `write` of `n` bytes: the bytes are stored from the offset on, the
file ends behind the last byte stored unless it was longer, and the offset
moves behind the bytes stored. -/
def posix_write (f : OpenFile) (n : Nat) : OpenFile :=
  ⟨max f.length (f.offset + n), f.offset + n⟩

/-- Function `do_loop_create` (bdev.c:926-957) with the file it leaves behind:
the return value, and the path given to `creat` with the state of that file
(`none` when `creat` failed).  The `mkfs` child is taken to leave the length of
the file as it is. -/
def do_loop_create_file (env : Env) (path : CStr) (size : Nat) (fstype : CStr) :
    Int × Option (CStr × OpenFile) :=
  let fd := env.creat path
  if fd < 0 then (-1, none)
  else
    let f0 := posix_creat
    if env.lseek fd size < 0 then (-1, some (path, f0))
    else
      let f1 := posix_lseek_set f0 size
      if env.write_one fd ≠ 1 then (-1, some (path, f1))
      else
        let f2 := posix_write f1 1
        if env.close fd < 0 then (-1, some (path, f2))
        else if env.do_mkfs path fstype < 0 then (-1, some (path, f2))
        else (0, some (path, f2))

/-- The fields of `struct lxc_arguments` (arguments.h) that
`validate_bdev_args` reads.  The member `bdevtype` is not NULL there: `main`
puts `_unset` in the place of a missing type before the call
(lxc_create.c:160-161). -/
structure lxc_arguments where
  bdevtype : CStr
  fstype : Option CStr
  fssize : Nat
  lvname : Option CStr
  vgname : Option CStr
  zfsroot : Option CStr
  deriving DecidableEq, Repr

/-- Function `validate_bdev_args` (lxc_create.c:117-136). -/
def validate_bdev_args (a : lxc_arguments) : Bool :=
  if !strcmp_eq a.bdevtype "lvm".toList && (a.fstype.isSome || a.fssize != 0) then false
  else if !strcmp_eq a.bdevtype "lvm".toList && (a.lvname.isSome || a.vgname.isSome) then false
  else if !strcmp_eq a.bdevtype "zfs".toList && a.zfsroot.isSome then false
  else true

/-- The names of the registered back-ends, as the specification lists them. -/
def registered_names : List CStr :=
  ["zfs".toList, "lvm".toList, "rbd".toList, "btrfs".toList, "dir".toList, "aufs".toList,
    "overlayfs".toList, "loop".toList, "nbd".toList]

/-- The number of non-overlapping occurrences of `old` in a text, found from
left to right: the scan resumes behind each occurrence it meets.  `skip` is the
number of characters of the occurrence just met that are still to be passed
over. -/
def count_occurrences (old : CStr) : Nat → CStr → Nat
  | _, [] => 0
  | skip + 1, _ :: t => count_occurrences old skip t
  | 0, c :: t =>
    if old.isPrefixOf (c :: t) then 1 + count_occurrences old (old.length - 1) t
    else count_occurrences old 0 t

/-- The number of times the body of the first loop of `dir_new_path`
(bdev.c:228-231) runs on the text `p`; `none` means the fuel ran out. -/
def dir_new_path_count_iters (oldname : CStr) : Nat → CStr → Option Nat
  | 0, _ => none
  | fuel + 1, p =>
    match strstr p oldname with
    | none => some 0
    | some k =>
      (dir_new_path_count_iters oldname fuel (p.drop (k + oldname.length))).map (· + 1)

/-- The number of times the body of the second loop of `dir_new_path`
(bdev.c:243-248) runs on the text `src`; `none` means the fuel ran out. -/
def dir_new_path_copy_iters (oldname : CStr) : Nat → CStr → Option Nat
  | 0, _ => none
  | fuel + 1, src =>
    match strstr src oldname with
    | none => some 0
    | some k =>
      (dir_new_path_copy_iters oldname fuel (src.drop (k + oldname.length))).map (· + 1)

/-- A loop handle as `bdev_init` returns it for the source `loop:/img` and the
destination `/mnt`. -/
def loop_img_init : Option bdev :=
  bdev_init Env.quiet conf_empty (some "loop:/img".toList) (some "/mnt".toList) none

/-- Creation data for an ext4 filesystem of 2^30 bytes. -/
def specs_ext4_1g : bdev_specs :=
  { fstype := some "ext4".toList, fssize := 1073741824, dir := none, rbdname := none,
    rbdpool := none }

/-- A host like `LockEnv.ok` on which the lock file is locked by another holder
that does not let go: `flock(LOCK_EX)` never returns. -/
def LockEnv.contended : LockEnv :=
  { LockEnv.ok with flock_ex := fun _ => Blocking.never }

/-- An nbd handle at index 0 for the image `/data:2024/img`, a source without
partition suffix. -/
def nbd_data_2024 : bdev :=
  { fresh_bdev .nbd_ops "nbd".toList with
    src := some "nbd:/data:2024/img".toList, dest := some "/mnt".toList }

/-- An nbd handle at index 0 for partition 3 of the image `/a:5/img`. -/
def nbd_a5_img3 : bdev :=
  { fresh_bdev .nbd_ops "nbd".toList with
    src := some "nbd:/a:5/img:3".toList, dest := some "/mnt".toList }

/-! ## Registry and dispatch -/

theorem bdev_query_loop_find (env : Env) (src : CStr) (l : List bdev_type) :
    (bdev_query_loop env src l).1 = l.find? (fun b => decide (detect env b.ops src ≠ 0)) := by
  induction l with
  | nil => rfl
  | cons b rest ih =>
    by_cases h : detect env b.ops src = 0
    · simp [bdev_query_loop, List.find?, h, ih]
    · simp [bdev_query_loop, List.find?, h]

theorem bdev_query_loop_none (env : Env) (src : CStr) (l : List bdev_type) :
    (bdev_query_loop env src l).1 = none ↔ ∀ b ∈ l, detect env b.ops src = 0 := by
  rw [bdev_query_loop_find]
  simp [List.find?_eq_none]

theorem bdev_query_loop_some (env : Env) (src : CStr) (l : List bdev_type) (b : bdev_type)
    (h : (bdev_query_loop env src l).1 = some b) :
    ∃ pre post, l = pre ++ b :: post ∧ (∀ x ∈ pre, detect env x.ops src = 0) ∧
      detect env b.ops src ≠ 0 ∧
      (bdev_query_loop env src l).2 = (pre ++ [b]).map bdev_type.name := by
  induction l with
  | nil => simp [bdev_query_loop] at h
  | cons c rest ih =>
    by_cases hc : detect env c.ops src = 0
    · simp only [bdev_query_loop, hc, ne_eq, not_true_eq_false, if_false] at h ⊢
      obtain ⟨pre, post, h1, h2, h3, h4⟩ := ih h
      refine ⟨c :: pre, post, by simp [h1], ?_, h3, by simp [h4]⟩
      intro x hx
      rcases List.mem_cons.mp hx with rfl | hx
      · exact hc
      · exact h2 x hx
    · simp only [bdev_query_loop, hc, ne_eq, not_false_eq_true, if_true] at h ⊢
      cases h
      exact ⟨[], rest, rfl, by simp, hc, rfl⟩

theorem bdev_query_loop_all (env : Env) (src : CStr) (l : List bdev_type)
    (h : (bdev_query_loop env src l).1 = none) :
    (bdev_query_loop env src l).2 = l.map bdev_type.name := by
  induction l with
  | nil => rfl
  | cons c rest ih =>
    by_cases hc : detect env c.ops src = 0
    · simp only [bdev_query_loop, hc, ne_eq, not_true_eq_false, if_false] at h ⊢
      simp [ih h]
    · simp [bdev_query_loop, hc] at h

theorem bdev_query_loop_append (env : Env) (src : CStr) (pre post : List bdev_type)
    (b : bdev_type) (hpre : ∀ x ∈ pre, detect env x.ops src = 0)
    (hacc : detect env b.ops src ≠ 0) :
    (bdev_query_loop env src (pre ++ b :: post)).1 = some b := by
  induction pre with
  | nil => simp [bdev_query_loop, hacc]
  | cons c rest ih =>
    have hc : detect env c.ops src = 0 := hpre c (List.mem_cons_self c rest)
    have hr : ∀ x ∈ rest, detect env x.ops src = 0 :=
      fun x hx => hpre x (List.mem_cons_of_mem c hx)
    simp [bdev_query_loop, hc, ih hr]

theorem bdev_query_loop_mem (env : Env) (src : CStr) (l1 l2 : List bdev_type)
    (d : bdev_type) (hacc : detect env d.ops src ≠ 0) :
    ∃ q, (bdev_query_loop env src (l1 ++ d :: l2)).1 = some q ∧ q ∈ l1 ++ [d] := by
  induction l1 with
  | nil => exact ⟨d, by simp [bdev_query_loop, hacc], by simp⟩
  | cons c rest ih =>
    by_cases hc : detect env c.ops src = 0
    · obtain ⟨q, h1, h2⟩ := ih
      exact ⟨q, by simp [bdev_query_loop, hc, h1], by simp at h2 ⊢; tauto⟩
    · exact ⟨c, by simp [bdev_query_loop, hc], by simp⟩

/-- C1: `bdev_query` scans the table zfs, lvm, rbd, btrfs, dir, aufs, overlayfs,
loop, nbd in that order and returns the first entry whose detector answers
non-zero; it returns NULL exactly when every detector answers zero; the
detectors it calls are those of the entries up to and including the returned
one (all nine when it returns NULL), so none after the first accepting one. -/
theorem bdev_query_first_match (env : Env) (src : CStr) :
    bdevs.map bdev_type.name =
        ["zfs".toList, "lvm".toList, "rbd".toList, "btrfs".toList, "dir".toList,
         "aufs".toList, "overlayfs".toList, "loop".toList, "nbd".toList] ∧
      bdev_query env src = bdevs.find? (fun b => decide (detect env b.ops src ≠ 0)) ∧
      (bdev_query env src = none ↔ ∀ b ∈ bdevs, detect env b.ops src = 0) ∧
      (bdev_query env src = none →
        bdev_query_consulted env src = bdevs.map bdev_type.name) ∧
      (∀ b, bdev_query env src = some b →
        ∃ pre post, bdevs = pre ++ b :: post ∧ (∀ x ∈ pre, detect env x.ops src = 0) ∧
          detect env b.ops src ≠ 0 ∧
          bdev_query_consulted env src = (pre ++ [b]).map bdev_type.name) :=
  ⟨by decide, bdev_query_loop_find env src bdevs, bdev_query_loop_none env src bdevs,
    bdev_query_loop_all env src bdevs, fun b h => bdev_query_loop_some env src bdevs b h⟩

/-- C2, as stated, fails: the loop detector accepts the source `loop:d`, yet on
a host where `loop:d` is an existing directory `bdev_query` classifies it as
`dir`, because `dir` stands before `loop` in the table. -/
theorem bdev_query_loop_uri_classified_dir :
    (⟨"loop".toList, .loop_ops⟩ : bdev_type) ∈ bdevs ∧
      detect Env.loop_dir .loop_ops "loop:d".toList ≠ 0 ∧
      bdev_query Env.loop_dir "loop:d".toList = some ⟨"dir".toList, .dir_ops⟩ ∧
      bdev_query Env.loop_dir "loop:d".toList ≠ some ⟨"loop".toList, .loop_ops⟩ := by
  decide

/-- C2, amended: a back-end whose detector accepts the source is returned by
`bdev_query` when no entry before it in the table accepts the source; and since
`dir` precedes `loop` and `nbd`, a source that names an existing directory is
never classified as `loop` or `nbd`, whatever its URI tag. -/
theorem bdev_query_first_accepting (env : Env) (src : CStr) (b : bdev_type)
    (pre post : List bdev_type) (hb : bdevs = pre ++ b :: post)
    (hpre : ∀ x ∈ pre, detect env x.ops src = 0) (hacc : detect env b.ops src ≠ 0) :
    bdev_query env src = some b ∧
      (∀ s q, env.is_dir s = true → bdev_query env s = some q →
        q.name ≠ "loop".toList ∧ q.name ≠ "nbd".toList) := by
  constructor
  · unfold bdev_query
    rw [hb]
    exact bdev_query_loop_append env src pre post b hpre hacc
  · intro s q hdir hq
    have hd : detect env .dir_ops s ≠ 0 := by
      simp only [detect, dir_detect, hdir]
      split_ifs <;> decide
    obtain ⟨q1, hq1, hmem⟩ := bdev_query_loop_mem env s (bdevs.take 4)
      (bdevs.drop 5) ⟨"dir".toList, .dir_ops⟩ hd
    have hl : bdevs.take 4 ++ (⟨"dir".toList, .dir_ops⟩ : bdev_type) :: bdevs.drop 5 = bdevs := by
      decide
    rw [hl] at hq1
    unfold bdev_query at hq
    rw [hq] at hq1
    cases hq1
    have hall : ∀ x ∈ bdevs.take 4 ++ [(⟨"dir".toList, .dir_ops⟩ : bdev_type)],
        x.name ≠ "loop".toList ∧ x.name ≠ "nbd".toList := by decide
    exact hall q hmem

/-- Witness for `bdev_query_first_accepting`: on a quiet host the source
`loop:/img` is rejected by the seven entries before `loop` and accepted by `loop`. -/
theorem bdev_query_first_accepting_witness :
    bdevs = bdevs.take 7 ++ (⟨"loop".toList, .loop_ops⟩ : bdev_type) :: bdevs.drop 8 ∧
      (∀ x ∈ bdevs.take 7, detect Env.quiet x.ops "loop:/img".toList = 0) ∧
      detect Env.quiet .loop_ops "loop:/img".toList ≠ 0 ∧
      (bdev_query Env.quiet "loop:/img".toList = some ⟨"loop".toList, .loop_ops⟩ ∧
        (∀ s q, Env.quiet.is_dir s = true → bdev_query Env.quiet s = some q →
          q.name ≠ "loop".toList ∧ q.name ≠ "nbd".toList)) :=
  ⟨by decide, by decide, by decide,
    bdev_query_first_accepting Env.quiet "loop:/img".toList ⟨"loop".toList, .loop_ops⟩
      (bdevs.take 7) (bdevs.drop 8) (by decide) (by decide) (by decide)⟩

/-- C3: the capability flags of the nine registered back-ends, in table order,
are those of the authoritative table: zfs (yes, yes), lvm (yes, no),
rbd (no, no), btrfs (yes, yes), dir (no, yes), aufs (yes, yes),
overlayfs (yes, yes), loop (no, yes), nbd (yes, no). -/
theorem bdevs_capability_flags :
    bdevs.map (fun b => (b.name, b.ops.can_snapshot, b.ops.can_backup)) =
      [ ("zfs".toList, true, true),
        ("lvm".toList, true, false),
        ("rbd".toList, false, false),
        ("btrfs".toList, true, true),
        ("dir".toList, false, true),
        ("aufs".toList, true, true),
        ("overlayfs".toList, true, true),
        ("loop".toList, false, true),
        ("nbd".toList, true, false) ] := by
  decide

/-! ## clone_paths -/

theorem length_rootfs : "rootfs".toList.length = 6 := rfl

theorem length_rootdev : "rootdev".toList.length = 7 := rfl

theorem length_slash_rootfs : "/rootfs".toList.length = 7 := rfl

theorem length_slash_rootdev : "/rootdev".toList.length = 8 := rfl

theorem length_slash : "/".toList.length = 1 := rfl

theorem length_loop_tag : "loop:".toList.length = 5 := rfl

theorem snprintf_fits (n : Nat) (s : CStr) (h : s.length < n) :
    snprintf n s = ((s.length : Int), s) := by
  unfold snprintf
  rw [List.take_of_length_le (by omega)]

theorem snprintf_ok (n : Nat) (s : CStr) (h : s.length < n) :
    ¬ ((snprintf n s).1 < 0 ∨ (snprintf n s).1 ≥ (n : Int)) := by
  rw [snprintf_fits n s h]
  simp only [ge_iff_le, not_or, not_lt, not_le]
  omega

theorem rootfs_path_fits (lxcpath cname : CStr) :
    (lxcpath ++ "/".toList ++ cname ++ "/rootfs".toList).length <
      lxcpath.length + cname.length + "rootfs".toList.length + 3 := by
  simp only [List.length_append, length_slash, length_slash_rootfs, length_rootfs]
  omega

theorem dir_clonepaths_ok (orig new : bdev) (oldname cname oldpath lxcpath : CStr)
    (snap : Int) (newsize : Nat) (conf : lxc_conf) (h1 : snap = 0)
    (hsrc : orig.src.isNone = false) (hdst : orig.dest.isNone = false) :
    dir_clonepaths orig new oldname cname oldpath lxcpath snap newsize conf =
      (0, { new with
        src := some (lxcpath ++ "/".toList ++ cname ++ "/rootfs".toList),
        dest := some (lxcpath ++ "/".toList ++ cname ++ "/rootfs".toList) }) := by
  have hfit := rootfs_path_fits lxcpath cname
  have hok := snprintf_ok _ _ hfit
  unfold dir_clonepaths
  simp only [h1, hsrc, hdst, ne_eq, not_true_eq_false, if_false, Bool.or_self,
    Bool.false_eq_true]
  rw [if_neg hok, snprintf_fits _ _ hfit]

/-- C4, as stated, fails: nbd advertises `can_snapshot` and yet its
`clone_paths`, called with snap set on an original with source and destination,
fails (it returns `-ENOSYS`). -/
theorem nbd_clone_paths_snap_fails :
    (⟨"nbd".toList, .nbd_ops⟩ : bdev_type) ∈ bdevs ∧
      OpsTable.can_snapshot .nbd_ops = true ∧
      (clone_paths Env.quiet .nbd_ops (orig_c1 .nbd_ops "nbd".toList)
        (fresh_bdev .nbd_ops "nbd".toList) "c1".toList "c2".toList "/var/lib/lxc".toList
        "/var/lib/lxc".toList 1 0 conf_empty).1 < 0 := by
  decide

/-- C4, amended: for every registered back-end whose `can_snapshot` flag is
false (dir, loop, rbd), `clone_paths` called with snap set fails, whatever the
handles and the host; the converse does not hold, since the `clone_paths` of
nbd, whose flag is true, returns `-ENOSYS` on every call. -/
theorem clone_paths_snap_refused (env : Env) (b : bdev_type) (hb : b ∈ bdevs)
    (hs : b.ops.can_snapshot = false) (orig new : bdev)
    (oldname cname oldpath lxcpath : CStr) (snap : Int) (hsnap : snap ≠ 0) (newsize : Nat)
    (conf : lxc_conf) :
    (clone_paths env b.ops orig new oldname cname oldpath lxcpath snap newsize conf).1 < 0 ∧
      (clone_paths env .nbd_ops orig new oldname cname oldpath lxcpath snap newsize conf).1
        = -ENOSYS := by
  refine ⟨?_, rfl⟩
  simp only [bdevs, List.mem_cons, List.mem_singleton, List.not_mem_nil, or_false] at hb
  rcases hb with rfl | rfl | rfl | rfl | rfl | rfl | rfl | rfl | rfl <;>
    first
    | (exact absurd hs (by decide))
    | simp [clone_paths, dir_clonepaths, rbd_clonepaths, loop_clonepaths, hsnap]

/-- Witness for `clone_paths_snap_refused`: the dir back-end, snap = 1. -/
theorem clone_paths_snap_refused_witness :
    (⟨"dir".toList, .dir_ops⟩ : bdev_type) ∈ bdevs ∧
      OpsTable.can_snapshot .dir_ops = false ∧ (1 : Int) ≠ 0 ∧
      ((clone_paths Env.quiet .dir_ops (orig_c1 .dir_ops "dir".toList)
          (fresh_bdev .dir_ops "dir".toList) "c1".toList "c2".toList "/var/lib/lxc".toList
          "/var/lib/lxc".toList 1 0 conf_empty).1 < 0 ∧
        (clone_paths Env.quiet .nbd_ops (orig_c1 .dir_ops "dir".toList)
          (fresh_bdev .dir_ops "dir".toList) "c1".toList "c2".toList "/var/lib/lxc".toList
          "/var/lib/lxc".toList 1 0 conf_empty).1 = -ENOSYS) :=
  ⟨by decide, by decide, by decide,
    clone_paths_snap_refused Env.quiet ⟨"dir".toList, .dir_ops⟩ (by decide) (by decide)
      (orig_c1 .dir_ops "dir".toList) (fresh_bdev .dir_ops "dir".toList) "c1".toList
      "c2".toList "/var/lib/lxc".toList "/var/lib/lxc".toList 1 (by decide) 0 conf_empty⟩

/-- C8: `dir_clonepaths` fails exactly when snap is set or the original handle
lacks a source or a destination; otherwise it returns 0 and sets both the
source and the destination of the new handle to `<lxcpath>/<newname>/rootfs`,
whatever oldname, oldpath and the paths of the original are. -/
theorem dir_clonepaths_spec (orig new : bdev) (oldname cname oldpath lxcpath : CStr)
    (snap : Int) (newsize : Nat) (conf : lxc_conf) :
    ((dir_clonepaths orig new oldname cname oldpath lxcpath snap newsize conf).1 < 0 ↔
        (snap ≠ 0 ∨ orig.src = none ∨ orig.dest = none)) ∧
      (¬ (snap ≠ 0 ∨ orig.src = none ∨ orig.dest = none) →
        (dir_clonepaths orig new oldname cname oldpath lxcpath snap newsize conf).1 = 0 ∧
        (dir_clonepaths orig new oldname cname oldpath lxcpath snap newsize conf).2.src =
          some (lxcpath ++ "/".toList ++ cname ++ "/rootfs".toList) ∧
        (dir_clonepaths orig new oldname cname oldpath lxcpath snap newsize conf).2.dest =
          some (lxcpath ++ "/".toList ++ cname ++ "/rootfs".toList)) := by
  by_cases h1 : snap = 0
  · cases hsrc : orig.src with
    | none => simp [dir_clonepaths, h1, hsrc]
    | some a =>
      cases hdst : orig.dest with
      | none => simp [dir_clonepaths, h1, hdst]
      | some d =>
        rw [dir_clonepaths_ok orig new oldname cname oldpath lxcpath snap newsize conf h1
          (by simp [hsrc]) (by simp [hdst])]
        simp [h1]
  · simp [dir_clonepaths, h1]

/-- Witness for `dir_clonepaths_spec`: lxcpath `/var/lib/lxc` and new name `c2`
give `/var/lib/lxc/c2/rootfs` for the source and the destination. -/
theorem dir_clonepaths_spec_witness :
    (dir_clonepaths (orig_c1 .dir_ops "dir".toList) (fresh_bdev .dir_ops "dir".toList)
        "c1".toList "c2".toList "/var/lib/lxc".toList "/var/lib/lxc".toList 0 0 conf_empty).1
        = 0 ∧
      (dir_clonepaths (orig_c1 .dir_ops "dir".toList) (fresh_bdev .dir_ops "dir".toList)
        "c1".toList "c2".toList "/var/lib/lxc".toList "/var/lib/lxc".toList 0 0
        conf_empty).2.src = some "/var/lib/lxc/c2/rootfs".toList ∧
      (dir_clonepaths (orig_c1 .dir_ops "dir".toList) (fresh_bdev .dir_ops "dir".toList)
        "c1".toList "c2".toList "/var/lib/lxc".toList "/var/lib/lxc".toList 0 0
        conf_empty).2.dest = some "/var/lib/lxc/c2/rootfs".toList :=
  (dir_clonepaths_spec (orig_c1 .dir_ops "dir".toList) (fresh_bdev .dir_ops "dir".toList)
    "c1".toList "c2".toList "/var/lib/lxc".toList "/var/lib/lxc".toList 0 0 conf_empty).2
    (by decide)

theorem rootdev_path_fits (lxcpath cname : CStr) :
    (lxcpath ++ "/".toList ++ cname ++ "/rootdev".toList).length <
      lxcpath.length + cname.length + "rootdev".toList.length + 3 := by
  simp only [List.length_append, length_slash, length_slash_rootdev, length_rootdev]
  omega

theorem loop_src_fits (lxcpath cname : CStr) :
    ("loop:".toList ++ (lxcpath ++ "/".toList ++ cname ++ "/rootdev".toList)).length <
      lxcpath.length + cname.length + "rootdev".toList.length + 3 + 5 := by
  simp only [List.length_append, length_slash, length_slash_rootdev, length_rootdev,
    length_loop_tag]
  omega

theorem rootfs_path_fits_dev (lxcpath cname : CStr) :
    (lxcpath ++ "/".toList ++ cname ++ "/rootfs".toList).length <
      lxcpath.length + cname.length + "rootdev".toList.length + 3 := by
  simp only [List.length_append, length_slash, length_slash_rootfs, length_rootdev]
  omega

theorem loop_clonepaths_paths (env : Env) (orig new : bdev)
    (oldname cname oldpath lxcpath : CStr) (snap : Int) (newsize : Nat) (conf : lxc_conf)
    (hok : 0 ≤ (loop_clonepaths env orig new oldname cname oldpath lxcpath snap newsize
      conf).1) :
    (loop_clonepaths env orig new oldname cname oldpath lxcpath snap newsize conf).2.src =
        some ("loop:".toList ++ (lxcpath ++ "/".toList ++ cname ++ "/rootdev".toList)) ∧
      (loop_clonepaths env orig new oldname cname oldpath lxcpath snap newsize conf).2.dest =
        some (lxcpath ++ "/".toList ++ cname ++ "/rootfs".toList) := by
  have h1 := rootdev_path_fits lxcpath cname
  have h2 := loop_src_fits lxcpath cname
  have h3 := rootfs_path_fits_dev lxcpath cname
  have k1 := snprintf_ok _ _ h1
  have k3 := snprintf_ok _ _ h3
  unfold loop_clonepaths at hok ⊢
  by_cases hs : snap = 0
  · by_cases hn : (orig.dest.isNone || orig.src.isNone) = true
    · simp [hs, hn] at hok
    · simp only [hs, hn, ne_eq, not_true_eq_false, if_false, Bool.false_eq_true] at hok ⊢
      rw [if_neg k1] at hok ⊢
      rw [snprintf_fits _ _ h1] at hok ⊢
      have k2 := snprintf_ok _ _ h2
      simp only [] at hok ⊢
      rw [if_neg k2] at hok ⊢
      rw [if_neg k3] at hok ⊢
      rw [snprintf_fits _ _ h2, snprintf_fits _ _ h3]
      split_ifs <;> exact ⟨rfl, rfl⟩
  · simp [hs] at hok

/-- C5, as stated, fails: cloning the dir container `c1` under the new name
`c1-snap` succeeds and the new source `/var/lib/lxc/c1-snap/rootfs` contains
the new name, but it contains the old name `c1` as well. -/
theorem dir_clonepaths_keeps_oldname :
    (clone_paths Env.quiet .dir_ops (orig_c1 .dir_ops "dir".toList)
        (fresh_bdev .dir_ops "dir".toList) "c1".toList "c1-snap".toList
        "/var/lib/lxc".toList "/var/lib/lxc".toList 0 0 conf_empty).1 = 0 ∧
      (clone_paths Env.quiet .dir_ops (orig_c1 .dir_ops "dir".toList)
        (fresh_bdev .dir_ops "dir".toList) "c1".toList "c1-snap".toList
        "/var/lib/lxc".toList "/var/lib/lxc".toList 0 0 conf_empty).2.src =
        some "/var/lib/lxc/c1-snap/rootfs".toList ∧
      "c1".toList <:+: "/var/lib/lxc/c1-snap/rootfs".toList := by
  refine ⟨by decide, by decide, ?_⟩
  exact ⟨"/var/lib/lxc/".toList, "-snap/rootfs".toList, by decide⟩

/-- C5, amended: for the back-ends whose `clone_paths` is in bdev.c (dir, loop,
rbd, nbd; only dir and loop can succeed), whenever `clone_paths` succeeds the
source and the destination of the new handle both contain the new name; the
destination is `<lxcpath>/<newname>/rootfs` and the source is the same path for
dir and `loop:<lxcpath>/<newname>/rootdev` for loop, so that the old name is
absent from them only if it does not occur in that text. -/
theorem clone_paths_new_paths (env : Env) (ops : OpsTable)
    (hops : ops = .dir_ops ∨ ops = .loop_ops ∨ ops = .rbd_ops ∨ ops = .nbd_ops)
    (orig new : bdev) (oldname cname oldpath lxcpath : CStr) (snap : Int) (newsize : Nat)
    (conf : lxc_conf)
    (hok : 0 ≤ (clone_paths env ops orig new oldname cname oldpath lxcpath snap newsize
      conf).1) :
    ∃ s d,
      (clone_paths env ops orig new oldname cname oldpath lxcpath snap newsize conf).2.src
        = some s ∧
      (clone_paths env ops orig new oldname cname oldpath lxcpath snap newsize conf).2.dest
        = some d ∧
      cname <:+: s ∧ cname <:+: d ∧
      d = lxcpath ++ "/".toList ++ cname ++ "/rootfs".toList ∧
      s = (if ops = .loop_ops then
            "loop:".toList ++ (lxcpath ++ "/".toList ++ cname ++ "/rootdev".toList)
          else lxcpath ++ "/".toList ++ cname ++ "/rootfs".toList) := by
  rcases hops with rfl | rfl | rfl | rfl
  · simp only [clone_paths] at hok ⊢
    by_cases h1 : snap = 0
    · by_cases hn : (orig.dest.isNone || orig.src.isNone) = true
      · simp [dir_clonepaths, h1, hn] at hok
      · simp only [Bool.or_eq_true, not_or, Bool.not_eq_true] at hn
        rw [dir_clonepaths_ok orig new oldname cname oldpath lxcpath snap newsize conf h1
          hn.2 hn.1]
        exact ⟨_, _, rfl, rfl, ⟨lxcpath ++ "/".toList, "/rootfs".toList, rfl⟩,
          ⟨lxcpath ++ "/".toList, "/rootfs".toList, rfl⟩, rfl, by simp⟩
    · simp [dir_clonepaths, h1] at hok
  · simp only [clone_paths] at hok ⊢
    obtain ⟨hsrc, hdst⟩ := loop_clonepaths_paths env orig new oldname cname oldpath lxcpath
      snap newsize conf hok
    refine ⟨_, _, hsrc, hdst,
      ⟨"loop:".toList ++ (lxcpath ++ "/".toList), "/rootdev".toList, by simp⟩,
      ⟨lxcpath ++ "/".toList, "/rootfs".toList, rfl⟩, rfl, by simp⟩
  · simp [clone_paths, rbd_clonepaths] at hok
  · simp [clone_paths, nbd_clonepaths, ENOSYS] at hok

/-- Witness for `clone_paths_new_paths`: the loop back-end on a quiet host,
new name `c2` under `/var/lib/lxc`. -/
theorem clone_paths_new_paths_witness :
    0 ≤ (clone_paths Env.quiet .loop_ops (orig_c1 .loop_ops "loop".toList)
        (fresh_bdev .loop_ops "loop".toList) "c1".toList "c2".toList "/var/lib/lxc".toList
        "/var/lib/lxc".toList 0 0 conf_empty).1 ∧
      ∃ s d,
        (clone_paths Env.quiet .loop_ops (orig_c1 .loop_ops "loop".toList)
          (fresh_bdev .loop_ops "loop".toList) "c1".toList "c2".toList
          "/var/lib/lxc".toList "/var/lib/lxc".toList 0 0 conf_empty).2.src = some s ∧
        (clone_paths Env.quiet .loop_ops (orig_c1 .loop_ops "loop".toList)
          (fresh_bdev .loop_ops "loop".toList) "c1".toList "c2".toList
          "/var/lib/lxc".toList "/var/lib/lxc".toList 0 0 conf_empty).2.dest = some d ∧
        "c2".toList <:+: s ∧ "c2".toList <:+: d ∧
        d = "/var/lib/lxc".toList ++ "/".toList ++ "c2".toList ++ "/rootfs".toList ∧
        s = (if OpsTable.loop_ops = .loop_ops then
              "loop:".toList ++
                ("/var/lib/lxc".toList ++ "/".toList ++ "c2".toList ++ "/rootdev".toList)
            else "/var/lib/lxc".toList ++ "/".toList ++ "c2".toList ++ "/rootfs".toList) :=
  ⟨by decide,
    clone_paths_new_paths Env.quiet .loop_ops (by decide) (orig_c1 .loop_ops "loop".toList)
      (fresh_bdev .loop_ops "loop".toList) "c1".toList "c2".toList "/var/lib/lxc".toList
      "/var/lib/lxc".toList 0 0 conf_empty (by decide)⟩

/-! ## dir_new_path -/

theorem strncmp_eq_iff (src oldpath : CStr) :
    strncmp_eq src oldpath oldpath.length = true ↔ oldpath <+: src := by
  unfold strncmp_eq
  rw [ List.prefix_iff_eq_take, List.take_length, beq_iff_eq]
  exact eq_comm

theorem strstr_nil_some (needle : CStr) (k : Nat) (h : strstr [] needle = some k) :
    needle = [] := by
  cases needle with
  | nil => rfl
  | cons a t => simp [strstr, List.isPrefixOf] at h

theorem strstr_some_drop (hay needle : CStr) (k : Nat) (h : strstr hay needle = some k) :
    hay.drop k = needle ++ hay.drop (k + needle.length) := by
  induction hay generalizing k with
  | nil =>
    have := strstr_nil_some needle k h
    subst this
    simp
  | cons c t ih =>
    unfold strstr at h
    by_cases hp : needle.isPrefixOf (c :: t) = true
    · simp only [hp, if_true, Option.some.injEq] at h
      subst h
      have hp2 : needle <+: c :: t := List.isPrefixOf_iff_prefix.mp hp
      obtain ⟨r, hr⟩ := hp2
      rw [← hr]
      simp
    · simp only [hp, Bool.false_eq_true, if_false, Option.map_eq_some'] at h
      obtain ⟨k1, hk1, rfl⟩ := h
      have := ih k1 hk1
      simpa [Nat.add_right_comm k1 1 needle.length] using this

theorem replace_occurrences_skip (old new : CStr) (skip : Nat) (l : CStr) :
    replace_occurrences old new skip l = replace_occurrences old new 0 (l.drop skip) := by
  induction l generalizing skip with
  | nil => cases skip <;> simp [replace_occurrences]
  | cons c t ih =>
    cases skip with
    | zero => simp
    | succ s => simpa [replace_occurrences] using ih s

theorem replace_occurrences_none (old new : CStr) (l : CStr) (h : strstr l old = none) :
    replace_occurrences old new 0 l = l := by
  induction l with
  | nil => simp [replace_occurrences]
  | cons c t ih =>
    unfold strstr at h
    by_cases hp : old.isPrefixOf (c :: t) = true
    · simp [hp] at h
    · simp only [hp, Bool.false_eq_true, if_false, Option.map_eq_none'] at h
      simp [replace_occurrences, hp, ih h]

theorem replace_occurrences_some (old new : CStr) (hne : old ≠ []) (l : CStr) (k : Nat)
    (h : strstr l old = some k) :
    replace_occurrences old new 0 l =
      l.take k ++ new ++ replace_occurrences old new 0 (l.drop (k + old.length)) := by
  have hlen : 1 ≤ old.length := by
    cases old with
    | nil => exact absurd rfl hne
    | cons a t => simp
  induction l generalizing k with
  | nil => exact absurd (strstr_nil_some old k h) hne
  | cons c t ih =>
    unfold strstr at h
    by_cases hp : old.isPrefixOf (c :: t) = true
    · simp only [hp, if_true, Option.some.injEq] at h
      subst h
      simp only [replace_occurrences, hp, if_true, List.take_zero, List.nil_append, Nat.zero_add]
      rw [replace_occurrences_skip old new (old.length - 1) t]
      obtain ⟨m, hm⟩ : ∃ m, old.length = m + 1 := ⟨old.length - 1, by omega⟩
      simp [hm]
    · simp only [hp, Bool.false_eq_true, if_false, Option.map_eq_some'] at h
      obtain ⟨k1, hk1, rfl⟩ := h
      have := ih k1 hk1
      simp only [replace_occurrences, hp, Bool.false_eq_true, if_false, this]
      simp [Nat.add_right_comm k1 1 old.length]

theorem dir_new_path_copy_eq (oldname name : CStr) (hne : oldname ≠ []) (fuel : Nat)
    (src out : CStr) (hfuel : src.length < fuel) :
    dir_new_path_copy oldname name fuel src out =
      some (out ++ replace_occurrences oldname name 0 src) := by
  induction fuel generalizing src out with
  | zero => omega
  | succ f ih =>
    unfold dir_new_path_copy
    cases hs : strstr src oldname with
    | none => simp [replace_occurrences_none oldname name src hs]
    | some k =>
      have hpos : 1 ≤ src.length := by
        cases src with
        | nil => exact absurd (strstr_nil_some oldname k hs) hne
        | cons a t => simp
      have hlen : 1 ≤ oldname.length := by
        cases oldname with
        | nil => exact absurd rfl hne
        | cons a t => simp
      have hd : (src.drop (k + oldname.length)).length < f := by
        rw [List.length_drop]
        omega
      simp only []
      rw [ih _ _ hd, replace_occurrences_some oldname name hne src k hs]
      simp

theorem dir_new_path_count_some (oldname name : CStr) (hne : oldname ≠ []) (fuel : Nat)
    (p : CStr) (nlen : Int) (hfuel : p.length < fuel) :
    ∃ v, dir_new_path_count oldname name fuel p nlen = some v := by
  induction fuel generalizing p nlen with
  | zero => omega
  | succ f ih =>
    unfold dir_new_path_count
    cases hs : strstr p oldname with
    | none => exact ⟨nlen, rfl⟩
    | some k =>
      have hpos : 1 ≤ p.length := by
        cases p with
        | nil => exact absurd (strstr_nil_some oldname k hs) hne
        | cons a t => simp
      have hlen : 1 ≤ oldname.length := by
        cases oldname with
        | nil => exact absurd rfl hne
        | cons a t => simp
      have hd : (p.drop (k + oldname.length)).length < f := by
        rw [List.length_drop]
        omega
      exact ih _ _ hd

theorem dir_new_path_fuel_eq (fuel : Nat) (src oldname name oldpath lxcpath : CStr)
    (hne : oldname ≠ []) (hfuel : src.length < fuel) :
    (dir_new_path_fuel fuel src oldname name oldpath lxcpath).map Prod.snd =
      some (if oldpath <+: src then
              lxcpath ++ replace_occurrences oldname name 0 (src.drop oldpath.length)
            else replace_occurrences oldname name 0 src) := by
  unfold dir_new_path_fuel
  by_cases hp : oldpath <+: src
  · have hs : strncmp_eq src oldpath oldpath.length = true := (strncmp_eq_iff _ _).mpr hp
    have hd : (src.drop oldpath.length).length < fuel := by
      rw [List.length_drop]
      omega
    obtain ⟨v, hv⟩ := dir_new_path_count_some oldname name hne fuel (src.drop oldpath.length)
      ((src.length : Int) + 1 + ((lxcpath.length : Int) - (oldpath.length : Int))) hd
    simp only [hs, if_true, hv, hp, dir_new_path_copy_eq oldname name hne fuel _ _ hd]
    rfl
  · have hs : strncmp_eq src oldpath oldpath.length = false := by
      rw [← Bool.not_eq_true]
      exact fun h => hp ((strncmp_eq_iff _ _).mp h)
    obtain ⟨v, hv⟩ := dir_new_path_count_some oldname name hne fuel src
      ((src.length : Int) + 1) hfuel
    simp only [hs, Bool.false_eq_true, if_false, hv, hp,
      dir_new_path_copy_eq oldname name hne fuel _ _ hfuel]
    rfl

/-- The replacement on overlapping candidates: in `aaa` only the leftmost
occurrence of `aa` is replaced, and an occurrence created by the replacement
itself is not replaced again. -/
theorem replace_occurrences_examples :
    replace_occurrences "aa".toList "b".toList 0 "aaa".toList = "ba".toList ∧
      replace_occurrences "ab".toList "a".toList 0 "abb".toList = "ab".toList ∧
      replace_occurrences "c1".toList "c2".toList 0 "/c1/c1x/c".toList =
        "/c2/c2x/c".toList := by
  decide

theorem dir_new_path_eq (src oldname name oldpath lxcpath : CStr) (hne : oldname ≠ []) :
    dir_new_path src oldname name oldpath lxcpath =
      some (if oldpath <+: src then
              lxcpath ++ replace_occurrences oldname name 0 (src.drop oldpath.length)
            else replace_occurrences oldname name 0 src) :=
  dir_new_path_fuel_eq (src.length + 1) src oldname name oldpath lxcpath hne
    (Nat.lt_succ_self _)

/-- C6: for a non-empty oldname, `dir_new_path` returns `newpath ++ R(rest)` when
src is `oldpath ++ rest` and `R(src)` when src does not start with oldpath,
where `R` replaces the leftmost non-overlapping occurrences of oldname by
newname; the oldpath prefix itself is not scanned.  Any bound above
`strlen(src)` on the loop iterations gives this result. -/
theorem dir_new_path_rewrite (src oldname name oldpath lxcpath : CStr)
    (hne : oldname ≠ []) :
    (∀ rest, src = oldpath ++ rest →
        dir_new_path src oldname name oldpath lxcpath =
          some (lxcpath ++ replace_occurrences oldname name 0 rest)) ∧
      ((¬ ∃ rest, src = oldpath ++ rest) →
        dir_new_path src oldname name oldpath lxcpath =
          some (replace_occurrences oldname name 0 src)) ∧
      (∀ fuel, src.length < fuel →
        (dir_new_path_fuel fuel src oldname name oldpath lxcpath).map Prod.snd =
          dir_new_path src oldname name oldpath lxcpath) := by
  refine ⟨?_, ?_, ?_⟩
  · intro rest hrest
    have hp : oldpath <+: src := ⟨rest, hrest.symm⟩
    rw [dir_new_path_eq _ _ _ _ _ hne, if_pos hp, hrest, List.drop_left]
  · intro hno
    have hp : ¬ oldpath <+: src := fun ⟨rest, hrest⟩ => hno ⟨rest, hrest.symm⟩
    rw [dir_new_path_eq _ _ _ _ _ hne, if_neg hp]
  · intro fuel hfuel
    rw [dir_new_path_eq _ _ _ _ _ hne, dir_new_path_fuel_eq fuel _ _ _ _ _ hne hfuel]

/-- Witness for `dir_new_path_rewrite`: renaming `c1` to `c2` in
`/var/lib/lxc/c1/rootfs` under the unchanged path `/var/lib/lxc`. -/
theorem dir_new_path_rewrite_witness :
    "c1".toList ≠ [] ∧
      "/var/lib/lxc/c1/rootfs".toList = "/var/lib/lxc".toList ++ "/c1/rootfs".toList ∧
      replace_occurrences "c1".toList "c2".toList 0 "/c1/rootfs".toList = "/c2/rootfs".toList ∧
      dir_new_path "/var/lib/lxc/c1/rootfs".toList "c1".toList "c2".toList
        "/var/lib/lxc".toList "/var/lib/lxc".toList =
        some ("/var/lib/lxc".toList ++
          replace_occurrences "c1".toList "c2".toList 0 "/c1/rootfs".toList) :=
  ⟨by decide, by decide, by decide,
    (dir_new_path_rewrite "/var/lib/lxc/c1/rootfs".toList "c1".toList "c2".toList
      "/var/lib/lxc".toList "/var/lib/lxc".toList (by decide)).1 "/c1/rootfs".toList
      (by decide)⟩

theorem replace_occurrences_same (n : CStr) (hne : n ≠ []) (fuel : Nat) (l : CStr)
    (hfuel : l.length < fuel) : replace_occurrences n n 0 l = l := by
  induction fuel generalizing l with
  | zero => omega
  | succ f ih =>
    cases hs : strstr l n with
    | none => exact replace_occurrences_none n n l hs
    | some k =>
      have hpos : 1 ≤ l.length := by
        cases l with
        | nil => exact absurd (strstr_nil_some n k hs) hne
        | cons a t => simp
      have hlen : 1 ≤ n.length := by
        cases n with
        | nil => exact absurd rfl hne
        | cons a t => simp
      have hd : (l.drop (k + n.length)).length < f := by
        rw [List.length_drop]
        omega
      rw [replace_occurrences_some n n hne l k hs, ih _ hd, List.append_assoc,
        ← strstr_some_drop l n k hs, List.take_append_drop]

/-- C7, as stated, fails: with oldname = newname = `c`, oldpath `/a` and newpath
`/a/b`, the path `/a/x` is rewritten to `/a/b/x`, and rewriting that result once
more gives `/a/b/b/x`. -/
theorem dir_new_path_not_idempotent :
    "c".toList ≠ [] ∧
      dir_new_path "/a/x".toList "c".toList "c".toList "/a".toList "/a/b".toList =
        some "/a/b/x".toList ∧
      dir_new_path "/a/b/x".toList "c".toList "c".toList "/a".toList "/a/b".toList =
        some "/a/b/b/x".toList ∧
      "/a/b/b/x".toList ≠ "/a/b/x".toList := by
  decide

/-- C7, amended: with oldname = newname = n, n non-empty, `dir_new_path` returns a
result, and applying it to that result gives the same result again exactly when
oldpath = newpath or the first result does not start with oldpath; so it is
idempotent whenever, in addition, oldpath = newpath. -/
theorem dir_new_path_same_name (src oldpath newpath n : CStr) (hne : n ≠ []) :
    ∃ r1 r2, dir_new_path src n n oldpath newpath = some r1 ∧
      dir_new_path r1 n n oldpath newpath = some r2 ∧
      (r2 = r1 ↔ (oldpath = newpath ∨ ¬ oldpath <+: r1)) := by
  have hid : ∀ l : CStr, replace_occurrences n n 0 l = l :=
    fun l => replace_occurrences_same n hne (l.length + 1) l (Nat.lt_succ_self _)
  refine ⟨_, _, dir_new_path_eq src n n oldpath newpath hne,
    dir_new_path_eq _ n n oldpath newpath hne, ?_⟩
  simp only [hid]
  generalize (if oldpath <+: src then newpath ++ List.drop oldpath.length src else src) = r1
  by_cases hp : oldpath <+: r1
  · rw [if_pos hp]
    obtain ⟨t, ht⟩ := hp
    subst ht
    rw [List.drop_left]
    constructor
    · intro h
      exact Or.inl (List.append_cancel_right h).symm
    · intro h
      rcases h with h | h
      · rw [h]
      · exact absurd ⟨t, rfl⟩ h
  · rw [if_neg hp]
    exact ⟨fun _ => Or.inr hp, fun _ => rfl⟩

/-- Witness for `dir_new_path_same_name`: the clone_paths scenario with
oldpath = newpath = `/var/lib/lxc` and the name `c1` kept. -/
theorem dir_new_path_same_name_witness :
    "c1".toList ≠ [] ∧
      ∃ r1 r2, dir_new_path "/var/lib/lxc/c1/rootfs".toList "c1".toList "c1".toList
          "/var/lib/lxc".toList "/var/lib/lxc".toList = some r1 ∧
        dir_new_path r1 "c1".toList "c1".toList "/var/lib/lxc".toList
          "/var/lib/lxc".toList = some r2 ∧
        (r2 = r1 ↔ ("/var/lib/lxc".toList = "/var/lib/lxc".toList ∨
          ¬ "/var/lib/lxc".toList <+: r1)) :=
  ⟨by decide,
    dir_new_path_same_name "/var/lib/lxc/c1/rootfs".toList "/var/lib/lxc".toList
      "/var/lib/lxc".toList "c1".toList (by decide)⟩

/-! ## bdev_copy -/

theorem bdev_copy_finish_events (env : Env) (orig new : bdev) (bt : Option CStr)
    (snap : Bool) (rdep : Int) (ev : List Event) (r : CopyResult)
    (h : bdev_copy_finish env orig new bt snap rdep ev = some r) :
    r.needs_rdep = some rdep ∧
      r.events.filter Event.is_alloc_or_clone = ev.filter Event.is_alloc_or_clone := by
  unfold bdev_copy_finish at h
  simp only [] at h
  split_ifs at h <;> cases h <;>
    simp [List.filter_append, List.filter, Event.is_alloc_or_clone]

theorem bdev_copy_dest_some (env : Env) (orig0 : bdev) (oldpath oldname : CStr) :
    ∃ o ev, bdev_copy_dest env orig0 oldpath oldname = some (o, ev) ∧
      o.type = orig0.type ∧ o.ops = orig0.ops ∧ o.src = orig0.src ∧
      ev.filter Event.is_alloc_or_clone = [] := by
  unfold bdev_copy_dest
  cases hd : orig0.dest with
  | some d => exact ⟨orig0, [], rfl, rfl, rfl, rfl, rfl⟩
  | none =>
    have hfit : (oldpath ++ "/".toList ++ oldname ++ "/rootfs".toList).length <
        oldpath.length + oldname.length + "/rootfs".toList.length + 2 := by
      simp only [List.length_append, length_slash, length_slash_rootfs]
      omega
    have hok := snprintf_ok _ _ hfit
    simp only []
    rw [if_neg hok]
    split_ifs
    · exact ⟨_, _, rfl, rfl, rfl, rfl, rfl⟩
    · exact ⟨_, _, rfl, rfl, rfl, rfl, rfl⟩

theorem bdev_copy_snap_congr (a b c : Bool) (bt : Option CStr) (o o0 : bdev)
    (h : o.ops = o0.ops) : bdev_copy_snap a b c bt o = bdev_copy_snap a b c bt o0 := by
  unfold bdev_copy_snap
  rw [h]

theorem bdev_copy_bdevtype_congr (a b : Bool) (bt : Option CStr) (o o0 : bdev)
    (h : o.type = o0.type) : bdev_copy_bdevtype a b bt o = bdev_copy_bdevtype a b bt o0 := by
  unfold bdev_copy_bdevtype
  rw [h]

theorem unpriv_snap_allowed_congr (t : Option CStr) (a b : Bool) (o o0 : bdev)
    (h : o.type = o0.type) : unpriv_snap_allowed o t a b = unpriv_snap_allowed o0 t a b := by
  unfold unpriv_snap_allowed
  rw [h]

theorem bdev_copy_rdep_congr (env : Env) (t : Option CStr) (a : Bool) (o o0 : bdev)
    (h : o.type = o0.type) (hs : o.src = o0.src) :
    bdev_copy_rdep env o t a = bdev_copy_rdep env o0 t a := by
  unfold bdev_copy_rdep
  rw [h, hs]

theorem bdev_copy_newtype_congr (bt : Option CStr) (o o0 : bdev) (h : o.type = o0.type) :
    bdev_copy_newtype bt o = bdev_copy_newtype bt o0 := by
  unfold bdev_copy_newtype
  rw [h]

theorem bdev_copy_clone_events (env : Env) (c0 : lxc_container) (orig : bdev)
    (cname lxcpath : CStr) (bt : Option CStr) (snap : Bool) (newsize : Nat) (rdep : Int)
    (ev0 : List Event) (r : CopyResult)
    (h : bdev_copy_clone env c0 orig cname lxcpath bt snap newsize rdep ev0 = some r) :
    r.needs_rdep = some rdep ∧
      ∃ tail, r.events.filter Event.is_alloc_or_clone =
          ev0.filter Event.is_alloc_or_clone ++
            Event.bdev_get (bdev_copy_newtype bt orig) :: tail ∧
        (tail = [] ∨ ∃ ops, tail = [Event.clone_paths ops (if snap then 1 else 0)]) := by
  unfold bdev_copy_clone at h
  simp only [] at h
  cases hg : bdev_get (bdev_copy_newtype bt orig) with
  | none =>
    rw [hg] at h
    cases h
    exact ⟨rfl, [], by simp [List.filter_append, List.filter, Event.is_alloc_or_clone],
      Or.inl rfl⟩
  | some new0 =>
    rw [hg] at h
    simp only [] at h
    by_cases hc : (clone_paths env new0.ops orig new0 c0.name cname c0.config_path lxcpath
        (if snap = true then 1 else 0) newsize c0.conf).1 < 0
    · rw [if_pos hc] at h
      cases h
      exact ⟨rfl, [Event.clone_paths new0.ops (if snap then 1 else 0)],
        by simp [List.filter_append, List.filter, Event.is_alloc_or_clone], Or.inr ⟨_, rfl⟩⟩
    · rw [if_neg hc] at h
      obtain ⟨hrd, hevs⟩ := bdev_copy_finish_events _ _ _ _ _ _ _ _ h
      exact ⟨hrd, [Event.clone_paths new0.ops (if snap then 1 else 0)], by
        rw [hevs]
        simp [List.filter_append, List.filter, Event.is_alloc_or_clone], Or.inr ⟨_, rfl⟩⟩

/-- The function `bdev_copy` up to the privilege check, once the rootfs path contains the
container name and the original handle `orig0` has been built. -/
theorem bdev_copy_unfold (env : Env) (c0 : lxc_container) (cname lxcpath : CStr)
    (bdevtype : Option CStr) (flags : Nat) (bdevdata : Option CStr) (newsize : Nat)
    (src : CStr) (orig0 : bdev)
    (h1 : c0.conf.rootfs_path = some src)
    (h2 : strstr src c0.name ≠ none)
    (h3 : bdev_init env c0.conf (some src) none none = some orig0) :
    ∃ o ev0, o.type = orig0.type ∧ ev0.filter Event.is_alloc_or_clone = [] ∧
      bdev_copy env c0 cname lxcpath bdevtype flags bdevdata newsize =
        if (env.am_unpriv && !unpriv_snap_allowed orig0
            (bdev_copy_bdevtype (has_flag flags env.LXC_CLONE_KEEPBDEVTYPE)
              (bdev_copy_snap (has_flag flags env.LXC_CLONE_MAYBE_SNAPSHOT)
                (has_flag flags env.LXC_CLONE_KEEPBDEVTYPE)
                (has_flag flags env.LXC_CLONE_SNAPSHOT) bdevtype orig0) bdevtype orig0)
            (bdev_copy_snap (has_flag flags env.LXC_CLONE_MAYBE_SNAPSHOT)
              (has_flag flags env.LXC_CLONE_KEEPBDEVTYPE)
              (has_flag flags env.LXC_CLONE_SNAPSHOT) bdevtype orig0)
            (has_flag flags env.LXC_CLONE_MAYBE_SNAPSHOT)) = true
        then some ⟨none, none, ev0⟩
        else bdev_copy_clone env c0 o cname lxcpath
          (bdev_copy_bdevtype (has_flag flags env.LXC_CLONE_KEEPBDEVTYPE)
            (bdev_copy_snap (has_flag flags env.LXC_CLONE_MAYBE_SNAPSHOT)
              (has_flag flags env.LXC_CLONE_KEEPBDEVTYPE)
              (has_flag flags env.LXC_CLONE_SNAPSHOT) bdevtype orig0) bdevtype orig0)
          (bdev_copy_snap (has_flag flags env.LXC_CLONE_MAYBE_SNAPSHOT)
            (has_flag flags env.LXC_CLONE_KEEPBDEVTYPE)
            (has_flag flags env.LXC_CLONE_SNAPSHOT) bdevtype orig0)
          newsize
          (bdev_copy_rdep env orig0
            (bdev_copy_bdevtype (has_flag flags env.LXC_CLONE_KEEPBDEVTYPE)
              (bdev_copy_snap (has_flag flags env.LXC_CLONE_MAYBE_SNAPSHOT)
                (has_flag flags env.LXC_CLONE_KEEPBDEVTYPE)
                (has_flag flags env.LXC_CLONE_SNAPSHOT) bdevtype orig0) bdevtype orig0)
            (bdev_copy_snap (has_flag flags env.LXC_CLONE_MAYBE_SNAPSHOT)
              (has_flag flags env.LXC_CLONE_KEEPBDEVTYPE)
              (has_flag flags env.LXC_CLONE_SNAPSHOT) bdevtype orig0))
          ev0 := by
  obtain ⟨o, ev0, hdest, ht, ho, hs, hev⟩ :=
    bdev_copy_dest_some env orig0 c0.config_path c0.name
  refine ⟨o, ev0, ht, hev, ?_⟩
  unfold bdev_copy
  simp only [h1, h3, hdest, if_neg h2]
  rw [bdev_copy_snap_congr _ _ _ _ o orig0 ho]
  rw [bdev_copy_bdevtype_congr _ _ _ o orig0 ht]
  rw [unpriv_snap_allowed_congr _ _ _ o orig0 ht]
  rw [bdev_copy_rdep_congr env _ _ o orig0 ht hs]
  rfl

theorem bdev_copy_snap_eq (maybe_snap keep snapshot : Bool) (bt : Option CStr) (o : bdev) :
    bdev_copy_snap maybe_snap keep snapshot bt o =
      effective_snap snapshot maybe_snap keep bt o.ops.can_snapshot := by
  unfold bdev_copy_snap effective_snap
  cases maybe_snap <;> cases keep <;> cases bt <;> cases o.ops.can_snapshot <;> simp

theorem bdev_copy_newtype_eq (keep snap : Bool) (bt : Option CStr) (o : bdev) :
    bdev_copy_newtype (bdev_copy_bdevtype keep snap bt o) o =
      effective_type keep snap bt o.type := by
  unfold bdev_copy_newtype bdev_copy_bdevtype effective_type strcmp_eq
  cases keep <;> cases snap <;> cases bt <;> simp
  split_ifs <;> rfl

theorem unpriv_snap_allowed_iff (o : bdev) (bt : Option CStr) (a b : Bool) :
    unpriv_snap_allowed o bt a b = true ↔ bdev_copy_newtype bt o ∈ unpriv_types := by
  unfold unpriv_snap_allowed bdev_copy_newtype unpriv_types strcmp_eq
  cases bt <;> simp [or_assoc]

/-- C9: whenever `bdev_copy` gets as far as requesting the new handle, the type
it passes to `bdev_get` and the snap argument it passes to `clone_paths` are the
effective ones: snap is the SNAPSHOT flag, demoted to false when MAYBE_SNAPSHOT
and KEEP_BDEVTYPE are set, no type is requested and the original cannot
snapshot; the type is overlayfs when no type is requested, KEEP_BDEVTYPE is not
set, snap is still true and the original is dir, and in every other case the
requested type or, if none, the type of the original. -/
theorem bdev_copy_effective_flags (env : Env) (c0 : lxc_container) (cname lxcpath : CStr)
    (bdevtype : Option CStr) (flags : Nat) (bdevdata : Option CStr) (newsize : Nat)
    (src : CStr) (orig0 : bdev) (r : CopyResult)
    (h1 : c0.conf.rootfs_path = some src)
    (h3 : bdev_init env c0.conf (some src) none none = some orig0)
    (hr : bdev_copy env c0 cname lxcpath bdevtype flags bdevdata newsize = some r)
    (hpast : r.events.filter Event.is_alloc_or_clone ≠ []) :
    ∃ tail, r.events.filter Event.is_alloc_or_clone =
        Event.bdev_get
          (effective_type (has_flag flags env.LXC_CLONE_KEEPBDEVTYPE)
            (effective_snap (has_flag flags env.LXC_CLONE_SNAPSHOT)
              (has_flag flags env.LXC_CLONE_MAYBE_SNAPSHOT)
              (has_flag flags env.LXC_CLONE_KEEPBDEVTYPE) bdevtype orig0.ops.can_snapshot)
            bdevtype orig0.type) :: tail ∧
      (tail = [] ∨ ∃ ops, tail = [Event.clone_paths ops
        (if effective_snap (has_flag flags env.LXC_CLONE_SNAPSHOT)
              (has_flag flags env.LXC_CLONE_MAYBE_SNAPSHOT)
              (has_flag flags env.LXC_CLONE_KEEPBDEVTYPE) bdevtype orig0.ops.can_snapshot
         then 1 else 0)]) := by
  have h2 : strstr src c0.name ≠ none := by
    intro hn
    unfold bdev_copy at hr
    simp only [h1, hn, if_true] at hr
    cases hr
    exact hpast rfl
  obtain ⟨o, ev0, ht, hev, heq⟩ := bdev_copy_unfold env c0 cname lxcpath bdevtype flags
    bdevdata newsize src orig0 h1 h2 h3
  rw [heq] at hr
  split_ifs at hr with hden
  · cases hr
    exact absurd hev hpast
  · obtain ⟨_, tail, hf, htail⟩ := bdev_copy_clone_events _ _ _ _ _ _ _ _ _ _ _ hr
    rw [hev, bdev_copy_newtype_congr _ o orig0 ht, bdev_copy_snap_eq,
      bdev_copy_newtype_eq] at hf
    rw [bdev_copy_snap_eq] at htail
    exact ⟨tail, hf, htail⟩

/-- Witness for `bdev_copy_effective_flags`: cloning the dir container `c1` as
`c2` with the SNAPSHOT flag (4) and no requested type allocates an overlayfs
handle and calls its `clone_paths` with snap = 1. -/
theorem bdev_copy_effective_flags_witness :
    container_c1.conf.rootfs_path = some "/var/lib/lxc/c1/rootfs".toList ∧
      bdev_init Env.dir_host container_c1.conf (some "/var/lib/lxc/c1/rootfs".toList) none
        none = some { orig_c1 .dir_ops "dir".toList with dest := none } ∧
      bdev_copy Env.dir_host container_c1 "c2".toList "/var/lib/lxc".toList none 4 none 0 =
        some ⟨some (fresh_bdev .ovl_ops "overlayfs".toList), some 1,
          [Event.bdev_get "overlayfs".toList, Event.clone_paths .ovl_ops 1]⟩ ∧
      ∃ tail, [Event.bdev_get "overlayfs".toList, Event.clone_paths .ovl_ops 1].filter
          Event.is_alloc_or_clone =
          Event.bdev_get
            (effective_type (has_flag 4 Env.dir_host.LXC_CLONE_KEEPBDEVTYPE)
              (effective_snap (has_flag 4 Env.dir_host.LXC_CLONE_SNAPSHOT)
                (has_flag 4 Env.dir_host.LXC_CLONE_MAYBE_SNAPSHOT)
                (has_flag 4 Env.dir_host.LXC_CLONE_KEEPBDEVTYPE) none
                OpsTable.dir_ops.can_snapshot)
              none "dir".toList) :: tail ∧
        (tail = [] ∨ ∃ ops, tail = [Event.clone_paths ops
          (if effective_snap (has_flag 4 Env.dir_host.LXC_CLONE_SNAPSHOT)
                (has_flag 4 Env.dir_host.LXC_CLONE_MAYBE_SNAPSHOT)
                (has_flag 4 Env.dir_host.LXC_CLONE_KEEPBDEVTYPE) none
                OpsTable.dir_ops.can_snapshot
           then 1 else 0)]) :=
  ⟨by decide, by decide, by decide,
    bdev_copy_effective_flags Env.dir_host container_c1 "c2".toList "/var/lib/lxc".toList
      none 4 none 0 "/var/lib/lxc/c1/rootfs".toList
      { orig_c1 .dir_ops "dir".toList with dest := none }
      ⟨some (fresh_bdev .ovl_ops "overlayfs".toList), some 1,
        [Event.bdev_get "overlayfs".toList, Event.clone_paths .ovl_ops 1]⟩
      (by decide) (by decide) (by decide) (by decide)⟩

/-- C10, as stated, fails: an unprivileged caller copies the lvm container `c1`
to a new container of the requested type dir; the privilege check passes
although the original is lvm, a dir handle is allocated and its `clone_paths`
is invoked. -/
theorem bdev_copy_unpriv_lvm_original_passes :
    Env.unpriv_lvm.am_unpriv = true ∧
      (bdev_init Env.unpriv_lvm container_lvm_c1.conf (some "/dev/lxc/c1".toList) none
        none).map bdev.type = some "lvm".toList ∧
      bdev_copy Env.unpriv_lvm container_lvm_c1 "c2".toList "/var/lib/lxc".toList
        (some "dir".toList) 0 none 0 =
        some ⟨some { fresh_bdev .dir_ops "dir".toList with
                src := some "/var/lib/lxc/c2/rootfs".toList,
                dest := some "/var/lib/lxc/c2/rootfs".toList },
          some 0,
          [Event.bdev_get "dir".toList, Event.clone_paths .dir_ops 0,
            Event.chown_mapped_root (some "/var/lib/lxc/c2/rootfs".toList), Event.fork]⟩ := by
  decide

/-- C10, amended: when running unprivileged, `bdev_copy` passes the privilege
check exactly when the effective new type (the requested or promoted type or,
if there is none, the type of the original) is one of dir, aufs, overlayfs,
btrfs, loop; the type of the original is not examined when a type is requested.
When the check fails `bdev_copy` returns NULL without storing `*needs_rdep`,
before any handle is allocated or `clone_paths` is invoked; when it passes, the
next step is the allocation of a handle of the effective type. -/
theorem bdev_copy_unpriv_check (env : Env) (c0 : lxc_container) (cname lxcpath : CStr)
    (bdevtype : Option CStr) (flags : Nat) (bdevdata : Option CStr) (newsize : Nat)
    (src : CStr) (orig0 : bdev)
    (hu : env.am_unpriv = true)
    (h1 : c0.conf.rootfs_path = some src)
    (h2 : strstr src c0.name ≠ none)
    (h3 : bdev_init env c0.conf (some src) none none = some orig0) :
    (effective_type (has_flag flags env.LXC_CLONE_KEEPBDEVTYPE)
          (effective_snap (has_flag flags env.LXC_CLONE_SNAPSHOT)
            (has_flag flags env.LXC_CLONE_MAYBE_SNAPSHOT)
            (has_flag flags env.LXC_CLONE_KEEPBDEVTYPE) bdevtype orig0.ops.can_snapshot)
          bdevtype orig0.type ∉ unpriv_types →
        ∃ ev, bdev_copy env c0 cname lxcpath bdevtype flags bdevdata newsize =
            some ⟨none, none, ev⟩ ∧ ev.filter Event.is_alloc_or_clone = []) ∧
      (effective_type (has_flag flags env.LXC_CLONE_KEEPBDEVTYPE)
          (effective_snap (has_flag flags env.LXC_CLONE_SNAPSHOT)
            (has_flag flags env.LXC_CLONE_MAYBE_SNAPSHOT)
            (has_flag flags env.LXC_CLONE_KEEPBDEVTYPE) bdevtype orig0.ops.can_snapshot)
          bdevtype orig0.type ∈ unpriv_types →
        ∀ r, bdev_copy env c0 cname lxcpath bdevtype flags bdevdata newsize = some r →
          ∃ tail, r.events.filter Event.is_alloc_or_clone =
            Event.bdev_get
              (effective_type (has_flag flags env.LXC_CLONE_KEEPBDEVTYPE)
                (effective_snap (has_flag flags env.LXC_CLONE_SNAPSHOT)
                  (has_flag flags env.LXC_CLONE_MAYBE_SNAPSHOT)
                  (has_flag flags env.LXC_CLONE_KEEPBDEVTYPE) bdevtype
                  orig0.ops.can_snapshot)
                bdevtype orig0.type) :: tail) := by
  obtain ⟨o, ev0, ht, hev, heq⟩ := bdev_copy_unfold env c0 cname lxcpath bdevtype flags
    bdevdata newsize src orig0 h1 h2 h3
  rw [heq]
  rw [← bdev_copy_snap_eq, ← bdev_copy_newtype_eq]
  constructor
  · intro hnot
    have hall : unpriv_snap_allowed orig0
        (bdev_copy_bdevtype (has_flag flags env.LXC_CLONE_KEEPBDEVTYPE)
          (bdev_copy_snap (has_flag flags env.LXC_CLONE_MAYBE_SNAPSHOT)
            (has_flag flags env.LXC_CLONE_KEEPBDEVTYPE)
            (has_flag flags env.LXC_CLONE_SNAPSHOT) bdevtype orig0) bdevtype orig0)
        (bdev_copy_snap (has_flag flags env.LXC_CLONE_MAYBE_SNAPSHOT)
          (has_flag flags env.LXC_CLONE_KEEPBDEVTYPE)
          (has_flag flags env.LXC_CLONE_SNAPSHOT) bdevtype orig0)
        (has_flag flags env.LXC_CLONE_MAYBE_SNAPSHOT) = false := by
      rw [← Bool.not_eq_true]
      exact fun h => hnot ((unpriv_snap_allowed_iff _ _ _ _).mp h)
    rw [hall, hu]
    exact ⟨ev0, rfl, hev⟩
  · intro hin r hr
    have hall := (unpriv_snap_allowed_iff orig0 _
      (bdev_copy_snap (has_flag flags env.LXC_CLONE_MAYBE_SNAPSHOT)
          (has_flag flags env.LXC_CLONE_KEEPBDEVTYPE)
          (has_flag flags env.LXC_CLONE_SNAPSHOT) bdevtype orig0)
      (has_flag flags env.LXC_CLONE_MAYBE_SNAPSHOT)).mpr hin
    rw [hall, hu] at hr
    simp only [Bool.not_true, Bool.and_false, Bool.false_eq_true, if_false] at hr
    obtain ⟨_, tail, hf, _⟩ := bdev_copy_clone_events _ _ _ _ _ _ _ _ _ _ _ hr
    rw [hev, bdev_copy_newtype_congr _ o orig0 ht] at hf
    exact ⟨tail, hf⟩

/-- Witness for `bdev_copy_unpriv_check`: an unprivileged snapshot (flag 4) of
the lvm container `c1` with no requested type is refused with no call made. -/
theorem bdev_copy_unpriv_check_witness :
    Env.unpriv_lvm.am_unpriv = true ∧
      container_lvm_c1.conf.rootfs_path = some "/dev/lxc/c1".toList ∧
      strstr "/dev/lxc/c1".toList container_lvm_c1.name ≠ none ∧
      bdev_init Env.unpriv_lvm container_lvm_c1.conf (some "/dev/lxc/c1".toList) none none =
        some { fresh_bdev .lvm_ops "lvm".toList with src := some "/dev/lxc/c1".toList } ∧
      ∃ ev, bdev_copy Env.unpriv_lvm container_lvm_c1 "c2".toList "/var/lib/lxc".toList
          none 4 none 0 = some ⟨none, none, ev⟩ ∧ ev.filter Event.is_alloc_or_clone = [] :=
  ⟨by decide, by decide, by decide, by decide,
    (bdev_copy_unpriv_check Env.unpriv_lvm container_lvm_c1 "c2".toList
      "/var/lib/lxc".toList none 4 none 0 "/dev/lxc/c1".toList
      { fresh_bdev .lvm_ops "lvm".toList with src := some "/dev/lxc/c1".toList }
      (by decide) (by decide) (by decide) (by decide)).1 (by decide)⟩

theorem bdev_copy_rdep_eq (env : Env) (keep snap : Bool) (bt : Option CStr) (o : bdev) :
    bdev_copy_rdep env o (bdev_copy_bdevtype keep snap bt o) snap =
      if (o.type = "dir".toList ∧
            (effective_type keep snap bt o.type = "aufs".toList ∨
              effective_type keep snap bt o.type = "overlayfs".toList)) ∨
          (snap = true ∧ o.type = "lvm".toList ∧ env.lvm_is_thin_volume o.src = 0)
      then 1 else 0 := by
  unfold bdev_copy_rdep bdev_copy_bdevtype effective_type strcmp_eq
  simp only [show "dir".toList = ['d', 'i', 'r'] from rfl,
    show "aufs".toList = ['a', 'u', 'f', 's'] from rfl,
    show "overlayfs".toList = ['o', 'v', 'e', 'r', 'l', 'a', 'y', 'f', 's'] from rfl,
    show "lvm".toList = ['l', 'v', 'm'] from rfl]
  generalize o.type = ty
  generalize env.lvm_is_thin_volume o.src = thin
  by_cases hd : ty = ['d', 'i', 'r']
  · subst hd
    cases bt with
    | some t =>
      by_cases ht : t = ['a', 'u', 'f', 's'] ∨ t = ['o', 'v', 'e', 'r', 'l', 'a', 'y', 'f', 's']
      · rcases ht with ht | ht <;> simp [ht]
      · simp only [not_or] at ht
        simp [ht.1, ht.2]
    | none => cases keep <;> cases snap <;> simp
  · cases bt with
    | some t => cases snap <;> simp [hd]
    | none => cases keep <;> cases snap <;> simp [hd]

/-- C11: whenever `bdev_copy` gets past the privilege check (the caller is
privileged or the effective new type is permitted), the value it stores in
`*needs_rdep` is 1 if the original is dir and the effective new type is aufs or
overlayfs, or if the effective snap flag is true and the original is an lvm
volume for which `lvm_is_thin_volume` answers 0, and 0 otherwise. -/
theorem bdev_copy_needs_rdep (env : Env) (c0 : lxc_container) (cname lxcpath : CStr)
    (bdevtype : Option CStr) (flags : Nat) (bdevdata : Option CStr) (newsize : Nat)
    (src : CStr) (orig0 : bdev) (r : CopyResult)
    (h1 : c0.conf.rootfs_path = some src)
    (h2 : strstr src c0.name ≠ none)
    (h3 : bdev_init env c0.conf (some src) none none = some orig0)
    (hpass : env.am_unpriv = false ∨
      effective_type (has_flag flags env.LXC_CLONE_KEEPBDEVTYPE)
        (effective_snap (has_flag flags env.LXC_CLONE_SNAPSHOT)
          (has_flag flags env.LXC_CLONE_MAYBE_SNAPSHOT)
          (has_flag flags env.LXC_CLONE_KEEPBDEVTYPE) bdevtype orig0.ops.can_snapshot)
        bdevtype orig0.type ∈ unpriv_types)
    (hr : bdev_copy env c0 cname lxcpath bdevtype flags bdevdata newsize = some r) :
    r.needs_rdep = some
      (if (orig0.type = "dir".toList ∧
            (effective_type (has_flag flags env.LXC_CLONE_KEEPBDEVTYPE)
                (effective_snap (has_flag flags env.LXC_CLONE_SNAPSHOT)
                  (has_flag flags env.LXC_CLONE_MAYBE_SNAPSHOT)
                  (has_flag flags env.LXC_CLONE_KEEPBDEVTYPE) bdevtype
                  orig0.ops.can_snapshot)
                bdevtype orig0.type = "aufs".toList ∨
              effective_type (has_flag flags env.LXC_CLONE_KEEPBDEVTYPE)
                (effective_snap (has_flag flags env.LXC_CLONE_SNAPSHOT)
                  (has_flag flags env.LXC_CLONE_MAYBE_SNAPSHOT)
                  (has_flag flags env.LXC_CLONE_KEEPBDEVTYPE) bdevtype
                  orig0.ops.can_snapshot)
                bdevtype orig0.type = "overlayfs".toList)) ∨
          (effective_snap (has_flag flags env.LXC_CLONE_SNAPSHOT)
              (has_flag flags env.LXC_CLONE_MAYBE_SNAPSHOT)
              (has_flag flags env.LXC_CLONE_KEEPBDEVTYPE) bdevtype orig0.ops.can_snapshot
              = true ∧
            orig0.type = "lvm".toList ∧ env.lvm_is_thin_volume orig0.src = 0)
       then 1 else 0) := by
  obtain ⟨o, ev0, ht, hev, heq⟩ := bdev_copy_unfold env c0 cname lxcpath bdevtype flags
    bdevdata newsize src orig0 h1 h2 h3
  rw [heq] at hr
  rw [← bdev_copy_snap_eq, ← bdev_copy_newtype_eq] at hpass
  have hnot : ¬ ((env.am_unpriv && !unpriv_snap_allowed orig0
      (bdev_copy_bdevtype (has_flag flags env.LXC_CLONE_KEEPBDEVTYPE)
        (bdev_copy_snap (has_flag flags env.LXC_CLONE_MAYBE_SNAPSHOT)
          (has_flag flags env.LXC_CLONE_KEEPBDEVTYPE)
          (has_flag flags env.LXC_CLONE_SNAPSHOT) bdevtype orig0) bdevtype orig0)
      (bdev_copy_snap (has_flag flags env.LXC_CLONE_MAYBE_SNAPSHOT)
        (has_flag flags env.LXC_CLONE_KEEPBDEVTYPE)
        (has_flag flags env.LXC_CLONE_SNAPSHOT) bdevtype orig0)
      (has_flag flags env.LXC_CLONE_MAYBE_SNAPSHOT)) = true) := by
    rcases hpass with hp | hp
    · simp [hp]
    · have := (unpriv_snap_allowed_iff orig0 _
        (bdev_copy_snap (has_flag flags env.LXC_CLONE_MAYBE_SNAPSHOT)
          (has_flag flags env.LXC_CLONE_KEEPBDEVTYPE)
          (has_flag flags env.LXC_CLONE_SNAPSHOT) bdevtype orig0)
        (has_flag flags env.LXC_CLONE_MAYBE_SNAPSHOT)).mpr hp
      simp [this]
  rw [if_neg hnot] at hr
  obtain ⟨hrd, _⟩ := bdev_copy_clone_events _ _ _ _ _ _ _ _ _ _ _ hr
  rw [hrd, bdev_copy_rdep_eq, bdev_copy_snap_eq]

/-- Witness for `bdev_copy_needs_rdep`: the privileged snapshot clone of the
dir container `c1` gets the type overlayfs and stores 1. -/
theorem bdev_copy_needs_rdep_witness :
    container_c1.conf.rootfs_path = some "/var/lib/lxc/c1/rootfs".toList ∧
      strstr "/var/lib/lxc/c1/rootfs".toList container_c1.name ≠ none ∧
      bdev_init Env.dir_host container_c1.conf (some "/var/lib/lxc/c1/rootfs".toList) none
        none = some { orig_c1 .dir_ops "dir".toList with dest := none } ∧
      Env.dir_host.am_unpriv = false ∧
      bdev_copy Env.dir_host container_c1 "c2".toList "/var/lib/lxc".toList none 4 none 0 =
        some ⟨some (fresh_bdev .ovl_ops "overlayfs".toList), some 1,
          [Event.bdev_get "overlayfs".toList, Event.clone_paths .ovl_ops 1]⟩ ∧
      (some 1 : Option Int) = some
        (if ("dir".toList = "dir".toList ∧
              (effective_type (has_flag 4 Env.dir_host.LXC_CLONE_KEEPBDEVTYPE)
                  (effective_snap (has_flag 4 Env.dir_host.LXC_CLONE_SNAPSHOT)
                    (has_flag 4 Env.dir_host.LXC_CLONE_MAYBE_SNAPSHOT)
                    (has_flag 4 Env.dir_host.LXC_CLONE_KEEPBDEVTYPE) none
                    OpsTable.dir_ops.can_snapshot)
                  none "dir".toList = "aufs".toList ∨
                effective_type (has_flag 4 Env.dir_host.LXC_CLONE_KEEPBDEVTYPE)
                  (effective_snap (has_flag 4 Env.dir_host.LXC_CLONE_SNAPSHOT)
                    (has_flag 4 Env.dir_host.LXC_CLONE_MAYBE_SNAPSHOT)
                    (has_flag 4 Env.dir_host.LXC_CLONE_KEEPBDEVTYPE) none
                    OpsTable.dir_ops.can_snapshot)
                  none "dir".toList = "overlayfs".toList)) ∨
            (effective_snap (has_flag 4 Env.dir_host.LXC_CLONE_SNAPSHOT)
                (has_flag 4 Env.dir_host.LXC_CLONE_MAYBE_SNAPSHOT)
                (has_flag 4 Env.dir_host.LXC_CLONE_KEEPBDEVTYPE) none
                OpsTable.dir_ops.can_snapshot = true ∧
              "dir".toList = "lvm".toList ∧
              Env.dir_host.lvm_is_thin_volume (some "/var/lib/lxc/c1/rootfs".toList) = 0)
         then 1 else 0) :=
  ⟨by decide, by decide, by decide, by decide, by decide,
    bdev_copy_needs_rdep Env.dir_host container_c1 "c2".toList "/var/lib/lxc".toList
      none 4 none 0 "/var/lib/lxc/c1/rootfs".toList
      { orig_c1 .dir_ops "dir".toList with dest := none }
      ⟨some (fresh_bdev .ovl_ops "overlayfs".toList), some 1,
        [Event.bdev_get "overlayfs".toList, Event.clone_paths .ovl_ops 1]⟩
      (by decide) (by decide) (by decide) (Or.inl (by decide)) (by decide)⟩

/-! ## bdev_create -/

theorem bdev_get_some_mem (type : CStr) (b : bdev) (h : bdev_get type = some b) :
    type ∈ registered_names := by
  unfold bdev_get at h
  cases hf : bdevs.find? (fun e => strcmp_eq e.name type) with
  | none =>
    rw [hf] at h
    cases h
  | some e =>
    have hm : e ∈ bdevs := List.mem_of_find?_eq_some hf
    have hp := List.find?_some hf
    have he : e.name = type := by simpa [strcmp_eq] using hp
    have hn : e.name ∈ bdevs.map (fun x => x.name) := List.mem_map_of_mem _ hm
    rw [he] at hn
    exact hn

theorem split_commas_cons_take (s : CStr) :
    split_commas s = s.takeWhile (fun c => c != ',') ::
      (match s.dropWhile (fun c => c != ',') with
        | [] => []
        | _ :: r => split_commas r) := by
  induction s with
  | nil => rfl
  | cons c t ih =>
    by_cases hc : c = ','
    · subst hc
      simp [split_commas, List.takeWhile, List.dropWhile]
    · have h1 : (c != ',') = true := by simpa using hc
      rw [split_commas, if_neg hc, ih, List.takeWhile_cons, List.dropWhile_cons]
      simp only [h1, if_true]

theorem split_commas_filter_dropWhile (s : CStr) :
    (split_commas (s.dropWhile (fun c => c == ','))).filter (fun t => decide (t ≠ [])) =
      (split_commas s).filter (fun t => decide (t ≠ [])) := by
  induction s with
  | nil => rfl
  | cons c t ih =>
    by_cases hc : c = ','
    · subst hc
      simp only [List.dropWhile_cons, beq_self_eq_true, if_true, ih]
      simp [split_commas, List.filter]
    · have h1 : (c == ',') = false := by simpa using hc
      simp only [List.dropWhile_cons, h1, Bool.false_eq_true, if_false]

theorem do_bdev_create_unregistered (env : Env) (dest t cname : CStr)
    (specs : Option bdev_specs) (h : bdev_get t = none) :
    do_bdev_create env dest t cname specs = some none := by
  unfold do_bdev_create
  rw [h]

theorem bdev_get_comma (t : CStr) (h : ',' ∈ t) : bdev_get t = none := by
  unfold bdev_get
  cases hf : bdevs.find? (fun b => strcmp_eq b.name t) with
  | none => rfl
  | some b =>
    exfalso
    have hm : b ∈ bdevs := List.mem_of_find?_eq_some hf
    have hp := List.find?_some hf
    have hname : b.name = t := by simpa [strcmp_eq] using hp
    have hall : ∀ x ∈ bdevs, ',' ∉ x.name := by decide
    exact hall b hm (hname ▸ h)

theorem do_bdev_create_eq_attempt (env : Env) (dest t cname : CStr)
    (specs : Option bdev_specs) :
    do_bdev_create env dest t cname specs = attempt env dest t cname specs := by
  unfold do_bdev_create attempt bdev_get strcmp_eq
  cases bdevs.find? (fun e => e.name == t) with
  | none => rfl
  | some e =>
    simp only [fresh_bdev]
    cases create env e.ops ⟨e.ops, e.name, none, none, none, 0, 0⟩ dest cname specs with
    | none => rfl
    | some r =>
      simp only []
      by_cases h : r.1 < 0
      · rw [if_pos h, if_neg (not_le.mpr h)]
      · rw [if_neg h, if_pos (not_lt.mp h)]

theorem first_success_filter (env : Env) (dest cname : CStr) (specs : Option bdev_specs)
    (l : List CStr) :
    first_success env dest cname specs (l.filter (fun t => decide (t ≠ []))) =
      first_success env dest cname specs l := by
  have hnil : attempt env dest [] cname specs = some none := by
    rw [← do_bdev_create_eq_attempt]
    exact do_bdev_create_unregistered env dest [] cname specs (by decide)
  induction l with
  | nil => rfl
  | cons t rest ih =>
    by_cases ht : t = []
    · subst ht
      simp only [List.filter, ne_eq, not_true_eq_false, decide_False, first_success, hnil]
      exact ih
    · simp only [List.filter, ne_eq, ht, not_false_eq_true, decide_True, first_success]
      rw [ih]

theorem bdev_create_tokens_eq (env : Env) (dest cname : CStr) (specs : Option bdev_specs)
    (fuel : Nat) (s : CStr) (hfuel : s.length < fuel) :
    bdev_create_tokens env dest cname specs fuel s =
      first_success env dest cname specs
        ((split_commas s).filter (fun t => decide (t ≠ []))) := by
  induction fuel generalizing s with
  | zero => omega
  | succ f ih =>
    rw [← split_commas_filter_dropWhile]
    unfold bdev_create_tokens strtok_r
    simp only [do_bdev_create_eq_attempt]
    have hlen : (s.dropWhile (fun c => c == ',')).length ≤ s.length :=
      (List.dropWhile_sublist _).length_le
    cases hs1 : s.dropWhile (fun c => c == ',') with
    | nil => simp [split_commas, List.filter, first_success]
    | cons c t =>
      rw [hs1] at hlen
      have hc : c ≠ ',' := by
        intro hc
        have := List.head_dropWhile_not (fun c => c == ',') s
          (by rw [hs1]; exact List.cons_ne_nil _ _)
        simp [hs1, hc] at this
      have h1 : (c != ',') = true := by simpa using hc
      simp only [List.cons_ne_nil, if_false]
      rw [split_commas_cons_take (c :: t)]
      have htok : List.takeWhile (fun c => c != ',') (c :: t) ≠ [] := by
        rw [List.takeWhile_cons]
        simp [h1]
      simp only [List.filter, ne_eq, htok, not_false_eq_true, decide_True, first_success]
      have hdl : (List.dropWhile (fun c => c != ',') (c :: t)).length ≤ (c :: t).length :=
        (List.dropWhile_sublist _).length_le
      cases hd : List.dropWhile (fun c => c != ',') (c :: t) with
      | nil =>
        have hend : bdev_create_tokens env dest cname specs f ([] : CStr) = some none := by
          cases f <;> simp [bdev_create_tokens, strtok_r]
        simp only [List.drop_nil, hend, List.filter_nil, first_success]
      | cons x r =>
        rw [hd] at hdl
        simp only [List.length_cons] at hdl hlen
        have hr : r.length < f := by omega
        simp only [List.drop_succ_cons, List.drop_zero, ih r hr]

theorem bdev_create_best_eq (env : Env) (dest cname : CStr) (specs : Option bdev_specs)
    (l : List CStr) :
    bdev_create_best env dest cname specs l = first_success env dest cname specs l := by
  induction l with
  | nil => rfl
  | cons t rest ih => simp only [bdev_create_best, first_success, do_bdev_create_eq_attempt, ih]

theorem first_success_single (env : Env) (dest cname t : CStr) (specs : Option bdev_specs) :
    first_success env dest cname specs [t] = do_bdev_create env dest t cname specs := by
  rw [do_bdev_create_eq_attempt]
  simp only [first_success]
  cases attempt env dest t cname specs with
  | none => rfl
  | some r => cases r <;> rfl

theorem do_bdev_create_registered (env : Env) (dest t cname : CStr)
    (specs : Option bdev_specs) (b : bdev) (r : Int × bdev) (hb : bdev_get t = some b)
    (hc : create env b.ops b dest cname specs = some r) :
    do_bdev_create env dest t cname specs = some (if r.1 < 0 then none else some r.2) := by
  unfold do_bdev_create
  rw [hb]
  simp only [hc]
  split_ifs <;> rfl

/-- C12: `bdev_create` returns the handle of the first successful attempt over
the list [dir] when type is NULL, [btrfs, zfs, lvm, dir, rbd] when type is
`best`, the comma-separated tokens from left to right when type contains a
comma, and [type] otherwise; it returns NULL when no attempt succeeds.  An
attempt is stated without `do_bdev_create`: a name outside the registry fails,
a registered name succeeds exactly when the create operation of its back-end,
run on a fresh handle, does not return a negative value, and the handle is the
one create leaves.  `do_bdev_create` is such an attempt.  The token loop never
needs more than `strlen(type) + 1` calls of `strtok_r`.  On a host where every
call succeeds the type `nbd,dir` gives the dir handle, since nbd cannot create,
and `nbd,nosuch` gives NULL. -/
theorem bdev_create_first_success (env : Env) (dest : CStr) (type : Option CStr)
    (cname : CStr) (specs : Option bdev_specs) :
    bdev_create env dest type cname specs =
        first_success env dest cname specs (attempt_list type) ∧
      (∀ t, bdev_get t = none → do_bdev_create env dest t cname specs = some none) ∧
      (∀ t, t ∉ registered_names → do_bdev_create env dest t cname specs = some none) ∧
      (∀ t b r, bdev_get t = some b → create env b.ops b dest cname specs = some r →
        do_bdev_create env dest t cname specs = some (if r.1 < 0 then none else some r.2)) ∧
      (∀ t fuel, t.length < fuel →
        bdev_create_tokens env dest cname specs fuel t =
          bdev_create_tokens env dest cname specs (t.length + 1) t) ∧
      bdev_create Env.quiet "/var/lib/lxc/c1/rootfs".toList (some "nbd,dir".toList)
          "c1".toList none =
        some (some { fresh_bdev .dir_ops "dir".toList with
          src := some "/var/lib/lxc/c1/rootfs".toList
          dest := some "/var/lib/lxc/c1/rootfs".toList }) ∧
      bdev_create Env.quiet "/var/lib/lxc/c1/rootfs".toList (some "nbd,nosuch".toList)
          "c1".toList none = some none := by
  refine ⟨?_, fun t h => do_bdev_create_unregistered env dest t cname specs h, ?_,
    fun t b r hb hc => do_bdev_create_registered env dest t cname specs b r hb hc, ?_,
    by decide, by decide⟩
  rotate_left
  · intro t ht
    cases hg : bdev_get t with
    | none => exact do_bdev_create_unregistered env dest t cname specs hg
    | some b => exact absurd (bdev_get_some_mem t b hg) ht
  rotate_left
  · unfold bdev_create attempt_list
    cases type with
    | none => exact (first_success_single env dest cname _ specs).symm
    | some t =>
      simp only [strcmp_eq, beq_iff_eq]
      by_cases hb : t = "best".toList
      · rw [if_pos hb, if_pos hb]
        exact bdev_create_best_eq env dest cname specs best_options
      · rw [if_neg hb, if_neg hb]
        by_cases hc : ',' ∈ t
        · rw [if_pos hc, if_pos hc, bdev_create_tokens_eq env dest cname specs _ t
            (Nat.lt_succ_self _), first_success_filter,
            do_bdev_create_unregistered env dest t cname specs (bdev_get_comma t hc)]
          cases first_success env dest cname specs (split_commas t) with
          | none => rfl
          | some r => cases r <;> rfl
        · rw [if_neg hc, if_neg hc]
          exact (first_success_single env dest cname t specs).symm
  · intro t fuel hfuel
    rw [bdev_create_tokens_eq env dest cname specs fuel t hfuel,
      bdev_create_tokens_eq env dest cname specs _ t (Nat.lt_succ_self _)]

/-! ## mount and umount -/

theorem mount_op_cases (env : Env) (name : CStr) (b : bdev) (r : MountResult)
    (h : mount_op env name b = some r) :
    (name = "dir".toList ∧ r = dir_mount env b) ∨ (name = "loop".toList ∧ r = loop_mount env b) ∨
      (name = "rbd".toList ∧ r = rbd_mount env b) ∨ (name = "nbd".toList ∧ r = nbd_mount env b) := by
  unfold mount_op at h
  split_ifs at h with h1 h2 h3 h4
  · exact Or.inl ⟨h1, (Option.some.inj h).symm⟩
  · exact Or.inr (Or.inl ⟨h2, (Option.some.inj h).symm⟩)
  · exact Or.inr (Or.inr (Or.inl ⟨h3, (Option.some.inj h).symm⟩))
  · exact Or.inr (Or.inr (Or.inr ⟨h4, (Option.some.inj h).symm⟩))

theorem umount_op_cases (env : Env) (name : CStr) (b : bdev) (r : MountResult)
    (h : umount_op env name b = some r) :
    (name = "dir".toList ∧ r = dir_umount env b) ∨
      (name = "loop".toList ∧ r = loop_umount env b) ∨
      (name = "rbd".toList ∧ r = rbd_umount env b) ∨
      (name = "nbd".toList ∧ r = nbd_umount env b) := by
  unfold umount_op at h
  split_ifs at h with h1 h2 h3 h4
  · exact Or.inl ⟨h1, (Option.some.inj h).symm⟩
  · exact Or.inr (Or.inl ⟨h2, (Option.some.inj h).symm⟩)
  · exact Or.inr (Or.inr (Or.inl ⟨h3, (Option.some.inj h).symm⟩))
  · exact Or.inr (Or.inr (Or.inr ⟨h4, (Option.some.inj h).symm⟩))

theorem bad_shape_cases (name : CStr) (b : bdev)
    (h : b.type ≠ name ∨ b.src = none ∨ b.dest = none) :
    strcmp_eq b.type name = false ∨ b.src = none ∨ b.dest = none := by
  rcases h with h | h | h
  · exact Or.inl (by simpa [strcmp_eq] using h)
  · exact Or.inr (Or.inl h)
  · exact Or.inr (Or.inr h)

theorem dir_mount_bad (env : Env) (b : bdev)
    (h : strcmp_eq b.type "dir".toList = false ∨ b.src = none ∨ b.dest = none) :
    dir_mount env b = ⟨-22, b, []⟩ := by
  unfold dir_mount
  rcases h with h | h | h
  · simp only [h, Bool.not_false, if_true]
  · cases hd : b.dest <;> simp only [h, ite_self]
  · cases hd : b.src <;> simp only [h, ite_self]

theorem dir_umount_bad (env : Env) (b : bdev)
    (h : strcmp_eq b.type "dir".toList = false ∨ b.src = none ∨ b.dest = none) :
    dir_umount env b = ⟨-22, b, []⟩ := by
  unfold dir_umount
  rcases h with h | h | h
  · simp only [h, Bool.not_false, if_true]
  · cases hd : b.dest <;> simp only [h, ite_self]
  · cases hd : b.src <;> simp only [h, ite_self]

theorem rbd_mount_bad (env : Env) (b : bdev)
    (h : strcmp_eq b.type "rbd".toList = false ∨ b.src = none ∨ b.dest = none) :
    rbd_mount env b = ⟨-22, b, []⟩ := by
  unfold rbd_mount
  rcases h with h | h | h
  · simp only [h, Bool.not_false, if_true]
  · cases hd : b.dest <;> simp only [h, ite_self]
  · cases hd : b.src <;> simp only [h, ite_self]

theorem rbd_umount_bad (env : Env) (b : bdev)
    (h : strcmp_eq b.type "rbd".toList = false ∨ b.src = none ∨ b.dest = none) :
    rbd_umount env b = ⟨-22, b, []⟩ := by
  unfold rbd_umount
  rcases h with h | h | h
  · simp only [h, Bool.not_false, if_true]
  · cases hd : b.dest <;> simp only [h, ite_self]
  · cases hd : b.src <;> simp only [h, ite_self]

theorem loop_mount_bad (env : Env) (b : bdev)
    (h : strcmp_eq b.type "loop".toList = false ∨ b.src = none ∨ b.dest = none) :
    loop_mount env b = ⟨-22, b, []⟩ := by
  unfold loop_mount
  rcases h with h | h | h
  · simp only [h, Bool.not_false, if_true]
  · cases hd : b.dest <;> simp only [h, ite_self]
  · cases hd : b.src <;> simp only [h, ite_self]

theorem loop_umount_bad (env : Env) (b : bdev)
    (h : strcmp_eq b.type "loop".toList = false ∨ b.src = none ∨ b.dest = none) :
    loop_umount env b = ⟨-22, b, []⟩ := by
  unfold loop_umount
  rcases h with h | h | h
  · simp only [h, Bool.not_false, if_true]
  · cases hd : b.dest <;> simp only [h, ite_self]
  · cases hd : b.src <;> simp only [h, ite_self]

theorem nbd_mount_bad (env : Env) (b : bdev)
    (h : strcmp_eq b.type "nbd".toList = false ∨ b.src = none ∨ b.dest = none) :
    nbd_mount env b = ⟨-22, b, []⟩ := by
  unfold nbd_mount
  rcases h with h | h | h
  · simp only [h, Bool.not_false, if_true]
  · cases hd : b.dest <;> simp only [h, ite_self]
  · cases hd : b.src <;> simp only [h, ite_self]

theorem nbd_umount_bad (env : Env) (b : bdev)
    (h : strcmp_eq b.type "nbd".toList = false ∨ b.src = none ∨ b.dest = none) :
    nbd_umount env b = ⟨-22, b, []⟩ := by
  unfold nbd_umount
  rcases h with h | h | h
  · simp only [h, Bool.not_false, if_true]
  · cases hd : b.dest <;> simp only [h, ite_self]
  · cases hd : b.src <;> simp only [h, ite_self]

/-- C13: for dir, loop, rbd and nbd, mount and umount applied to a handle whose
type name differs from the name of the back-end, or whose source or destination
is missing, return -22 (-EINVAL), make no call to the system at all and leave
the handle as it was. -/
theorem mount_umount_bad_shape (env : Env) (name : CStr) (b : bdev) (r : MountResult)
    (hop : mount_op env name b = some r ∨ umount_op env name b = some r)
    (hshape : b.type ≠ name ∨ b.src = none ∨ b.dest = none) :
    r.ret = -22 ∧ r.calls = [] ∧ r.bdev = b := by
  have hs := bad_shape_cases name b hshape
  have hres : r = ⟨-22, b, []⟩ := by
    rcases hop with hop | hop
    · rcases mount_op_cases env name b r hop with ⟨hn, hr⟩ | ⟨hn, hr⟩ | ⟨hn, hr⟩ | ⟨hn, hr⟩
      · rw [hr, dir_mount_bad env b (hn ▸ hs)]
      · rw [hr, loop_mount_bad env b (hn ▸ hs)]
      · rw [hr, rbd_mount_bad env b (hn ▸ hs)]
      · rw [hr, nbd_mount_bad env b (hn ▸ hs)]
    · rcases umount_op_cases env name b r hop with ⟨hn, hr⟩ | ⟨hn, hr⟩ | ⟨hn, hr⟩ | ⟨hn, hr⟩
      · rw [hr, dir_umount_bad env b (hn ▸ hs)]
      · rw [hr, loop_umount_bad env b (hn ▸ hs)]
      · rw [hr, rbd_umount_bad env b (hn ▸ hs)]
      · rw [hr, nbd_umount_bad env b (hn ▸ hs)]
  rw [hres]
  exact ⟨rfl, rfl, rfl⟩

/-- Witness for `mount_umount_bad_shape`: the loop mount of a loop handle without
source. -/
theorem mount_umount_bad_shape_witness :
    (mount_op Env.quiet "loop".toList (fresh_bdev .loop_ops "loop".toList) =
          some ⟨-22, fresh_bdev .loop_ops "loop".toList, []⟩ ∨
        umount_op Env.quiet "loop".toList (fresh_bdev .loop_ops "loop".toList) =
          some ⟨-22, fresh_bdev .loop_ops "loop".toList, []⟩) ∧
      ((fresh_bdev .loop_ops "loop".toList).type ≠ "loop".toList ∨
        (fresh_bdev .loop_ops "loop".toList).src = none ∨
        (fresh_bdev .loop_ops "loop".toList).dest = none) ∧
      ((⟨-22, fresh_bdev .loop_ops "loop".toList, []⟩ : MountResult).ret = -22 ∧
        (⟨-22, fresh_bdev .loop_ops "loop".toList, []⟩ : MountResult).calls = [] ∧
        (⟨-22, fresh_bdev .loop_ops "loop".toList, []⟩ : MountResult).bdev =
          fresh_bdev .loop_ops "loop".toList) :=
  ⟨Or.inl (by decide), Or.inr (Or.inl (by decide)),
    mount_umount_bad_shape Env.quiet "loop".toList (fresh_bdev .loop_ops "loop".toList)
      ⟨-22, fresh_bdev .loop_ops "loop".toList, []⟩ (Or.inl (by decide))
      (Or.inr (Or.inl (by decide)))⟩

theorem sys_ret_cases (ok : Bool) : sys_ret ok = 0 ∨ sys_ret ok = -1 := by
  cases ok <;> simp [sys_ret]

theorem mount_unknown_fs_cases (env : Env) (rootfs target : CStr) (options : Option CStr) :
    mount_unknown_fs env rootfs target options = 0 ∨
      mount_unknown_fs env rootfs target options = -1 := by
  unfold mount_unknown_fs
  simp only [mount_unknown_fs_files]
  split_ifs <;> simp

theorem snprintf_nonneg (n : Nat) (s : CStr) : 0 ≤ (snprintf n s).1 := by
  unfold snprintf
  exact Int.natCast_nonneg _

theorem dir_mount_good (env : Env) (b : bdev) (s d : CStr)
    (ht : strcmp_eq b.type "dir".toList = true) (hs : b.src = some s) (hd : b.dest = some d) :
    ((dir_mount env b).ret = -22 ↔ (env.parse_mntopts b.mntopts).1 < 0) ∧
      ((dir_mount env b).ret = -22 ∨ (dir_mount env b).ret = 0 ∨ (dir_mount env b).ret = -1) := by
  unfold dir_mount
  simp only [ht, hs, hd, Bool.not_true, Bool.false_eq_true, if_false]
  by_cases hp : (env.parse_mntopts b.mntopts).1 < 0
  · simp only [hp, if_true, true_or, and_self, iff_true]
  · simp only [hp, if_false, iff_false]
    rcases sys_ret_cases (env.sys_mount s d "bind".toList
      (MS_BIND ||| MS_REC ||| (env.parse_mntopts b.mntopts).2.1)
      (env.parse_mntopts b.mntopts).2.2) with h | h <;> rw [h] <;> decide

theorem rbd_mount_good (env : Env) (b : bdev) (s d : CStr)
    (ht : strcmp_eq b.type "rbd".toList = true) (hs : b.src = some s) (hd : b.dest = some d) :
    (rbd_mount env b).ret = 0 ∨ (rbd_mount env b).ret = -1 := by
  unfold rbd_mount
  simp only [ht, hs, hd, Bool.not_true, Bool.false_eq_true, if_false]
  split_ifs
  · exact Or.inr rfl
  · exact mount_unknown_fs_cases env s d b.mntopts

theorem loop_mount_good (env : Env) (b : bdev) (s d : CStr)
    (ht : strcmp_eq b.type "loop".toList = true) (hs : b.src = some s)
    (hd : b.dest = some d) :
    ((loop_mount env b).ret = -22 ↔ (find_free_loopdev env).1 < 0) ∧
      ((loop_mount env b).ret = -22 ∨ (loop_mount env b).ret = 0 ∨
        (loop_mount env b).ret = -1) := by
  unfold loop_mount
  simp only [ht, hs, hd, Bool.not_true, Bool.false_eq_true, if_false]
  by_cases hf : (find_free_loopdev env).1 < 0
  · simp only [hf, if_true, true_or, and_self, iff_true]
  · simp only [hf, if_false, iff_false]
    rcases mount_unknown_fs_cases env (find_free_loopdev env).2.2 d b.mntopts with h | h <;>
      split_ifs <;> simp_all

theorem nbd_mount_good (env : Env) (b : bdev) (s d : CStr)
    (ht : strcmp_eq b.type "nbd".toList = true) (hs : b.src = some s) (hd : b.dest = some d) :
    ((nbd_mount env b).ret = -22 ↔ b.nbd_idx < 0) ∧
      ((nbd_mount env b).ret < 0 → (nbd_mount env b).ret = -22 ∨
        (nbd_mount env b).ret = -1 ∨ (nbd_mount env b).ret = -2) := by
  unfold nbd_mount
  simp only [ht, hs, hd, Bool.not_true, Bool.false_eq_true, if_false]
  by_cases hi : b.nbd_idx < 0
  · simp only [hi, if_true, true_or, and_self, iff_true, implies_true]
  · simp only [hi, if_false, iff_false]
    have hR : 0 ≤ (if nbd_get_partition s ≠ 0 then
        snprintf 50 ("/dev/nbd".toList ++ fmt_d b.nbd_idx ++ "p".toList ++
          fmt_d (nbd_get_partition s))
      else snprintf 50 ("/dev/nbd".toList ++ fmt_d b.nbd_idx)).1 := by
      split_ifs <;> exact snprintf_nonneg _ _
    generalize (if nbd_get_partition s ≠ 0 then
        snprintf 50 ("/dev/nbd".toList ++ fmt_d b.nbd_idx ++ "p".toList ++
          fmt_d (nbd_get_partition s))
      else snprintf 50 ("/dev/nbd".toList ++ fmt_d b.nbd_idx)) = R at hR ⊢
    have hM := mount_unknown_fs_cases env R.2 d b.mntopts
    generalize mount_unknown_fs env R.2 d b.mntopts = M at hM ⊢
    generalize (if nbd_get_partition s ≠ 0 then wait_for_partition env R.2
      else (true, [])) = W
    by_cases h1 : R.1 < 0 ∨ R.1 ≥ 50
    · rw [if_pos h1]
      dsimp only
      constructor <;> intro <;> omega
    · rw [if_neg h1]
      by_cases h2 : (!W.1) = true
      · rw [if_pos h2]
        dsimp only
        constructor <;> intro <;> omega
      · rw [if_neg h2]
        dsimp only
        constructor <;> intro <;> omega

/-- C14, as stated, fails: the loop mount of a well-shaped loop handle on a host
without a free loop device returns -22, the code of a wrong handle shape. -/
theorem loop_mount_no_loopdev_einval :
    loop_img.type = "loop".toList ∧ loop_img.src ≠ none ∧ loop_img.dest ≠ none ∧
      (find_free_loopdev Env.no_loopdev).1 < 0 ∧
      mount_op Env.no_loopdev "loop".toList loop_img =
        some ⟨-22, loop_img, [SysCall.find_free_loopdev]⟩ := by
  decide

/-- C14, amended: for dir, loop, rbd and nbd, mount returns -22 exactly when the
handle has a wrong shape (type name mismatched, source or destination missing),
or the mount options do not parse (dir), or no free loop device is found (loop),
or the nbd index is negative (nbd); every other failure is reported as -1
(failing system call, unmapped rbd device, no filesystem type found) or as -2
(nbd partition node missing), so that a caller can tell these from -22. -/
theorem mount_einval_causes (env : Env) (name : CStr) (b : bdev) (r : MountResult)
    (hr : mount_op env name b = some r) :
    (r.ret = -22 ↔
        ((b.type ≠ name ∨ b.src = none ∨ b.dest = none) ∨
          (name = "dir".toList ∧ (env.parse_mntopts b.mntopts).1 < 0) ∨
          (name = "loop".toList ∧ (find_free_loopdev env).1 < 0) ∨
          (name = "nbd".toList ∧ b.nbd_idx < 0))) ∧
      (r.ret < 0 → r.ret = -22 ∨ r.ret = -1 ∨ r.ret = -2) := by
  have hdl : "dir".toList ≠ "loop".toList := by decide
  have hdn : "dir".toList ≠ "nbd".toList := by decide
  have hld : "loop".toList ≠ "dir".toList := by decide
  have hln : "loop".toList ≠ "nbd".toList := by decide
  have hrd : "rbd".toList ≠ "dir".toList := by decide
  have hrl : "rbd".toList ≠ "loop".toList := by decide
  have hrn : "rbd".toList ≠ "nbd".toList := by decide
  have hnd : "nbd".toList ≠ "dir".toList := by decide
  have hnl : "nbd".toList ≠ "loop".toList := by decide
  by_cases hshape : b.type ≠ name ∨ b.src = none ∨ b.dest = none
  · have hs := bad_shape_cases name b hshape
    have hres : r = ⟨-22, b, []⟩ := by
      rcases mount_op_cases env name b r hr with ⟨hn, hr⟩ | ⟨hn, hr⟩ | ⟨hn, hr⟩ | ⟨hn, hr⟩
      · rw [hr, dir_mount_bad env b (hn ▸ hs)]
      · rw [hr, loop_mount_bad env b (hn ▸ hs)]
      · rw [hr, rbd_mount_bad env b (hn ▸ hs)]
      · rw [hr, nbd_mount_bad env b (hn ▸ hs)]
    rw [hres]
    exact ⟨⟨fun _ => Or.inl hshape, fun _ => rfl⟩, fun _ => Or.inl rfl⟩
  · have hnb := hshape
    simp only [not_or, not_not] at hshape
    obtain ⟨htn, hsrc, hdst⟩ := hshape
    obtain ⟨s, hs⟩ := Option.ne_none_iff_exists'.mp hsrc
    obtain ⟨d, hd⟩ := Option.ne_none_iff_exists'.mp hdst
    have ht : strcmp_eq b.type name = true := by simpa [strcmp_eq] using htn
    rcases mount_op_cases env name b r hr with ⟨hn, he⟩ | ⟨hn, he⟩ | ⟨hn, he⟩ | ⟨hn, he⟩
    · subst hn
      subst he
      obtain ⟨h1, h2⟩ := dir_mount_good env b s d ht hs hd
      refine ⟨?_, fun _ => by omega⟩
      rw [h1]
      constructor
      · intro h
        exact Or.inr (Or.inl ⟨rfl, h⟩)
      · rintro (hb | ⟨_, h⟩ | ⟨h, _⟩ | ⟨h, _⟩)
        · exact absurd hb hnb
        · exact h
        · exact absurd h hdl
        · exact absurd h hdn
    · subst hn
      subst he
      obtain ⟨h1, h2⟩ := loop_mount_good env b s d ht hs hd
      refine ⟨?_, fun _ => by omega⟩
      rw [h1]
      constructor
      · intro h
        exact Or.inr (Or.inr (Or.inl ⟨rfl, h⟩))
      · rintro (hb | ⟨h, _⟩ | ⟨_, h⟩ | ⟨h, _⟩)
        · exact absurd hb hnb
        · exact absurd h hld
        · exact h
        · exact absurd h hln
    · subst hn
      subst he
      have h2 := rbd_mount_good env b s d ht hs hd
      refine ⟨?_, fun _ => by omega⟩
      constructor
      · intro h
        omega
      · rintro (hb | ⟨h, _⟩ | ⟨h, _⟩ | ⟨h, _⟩)
        · exact absurd hb hnb
        · exact absurd h hrd
        · exact absurd h hrl
        · exact absurd h hrn
    · subst hn
      subst he
      obtain ⟨h1, h2⟩ := nbd_mount_good env b s d ht hs hd
      refine ⟨?_, h2⟩
      rw [h1]
      constructor
      · intro h
        exact Or.inr (Or.inr (Or.inr ⟨rfl, h⟩))
      · rintro (hb | ⟨h, _⟩ | ⟨h, _⟩ | ⟨_, h⟩)
        · exact absurd hb hnb
        · exact absurd h hnd
        · exact absurd h hnl
        · exact h

/-- Witness for `mount_einval_causes`: the loop mount on a host without free
loop device. -/
theorem mount_einval_causes_witness :
    mount_op Env.no_loopdev "loop".toList loop_img =
        some ⟨-22, loop_img, [SysCall.find_free_loopdev]⟩ ∧
      (((⟨-22, loop_img, [SysCall.find_free_loopdev]⟩ : MountResult).ret = -22 ↔
          ((loop_img.type ≠ "loop".toList ∨ loop_img.src = none ∨ loop_img.dest = none) ∨
            ("loop".toList = "dir".toList ∧
              (Env.no_loopdev.parse_mntopts loop_img.mntopts).1 < 0) ∨
            ("loop".toList = "loop".toList ∧ (find_free_loopdev Env.no_loopdev).1 < 0) ∨
            ("loop".toList = "nbd".toList ∧ loop_img.nbd_idx < 0))) ∧
        ((⟨-22, loop_img, [SysCall.find_free_loopdev]⟩ : MountResult).ret < 0 →
          (⟨-22, loop_img, [SysCall.find_free_loopdev]⟩ : MountResult).ret = -22 ∨
          (⟨-22, loop_img, [SysCall.find_free_loopdev]⟩ : MountResult).ret = -1 ∨
          (⟨-22, loop_img, [SysCall.find_free_loopdev]⟩ : MountResult).ret = -2)) :=
  ⟨by decide,
    mount_einval_causes Env.no_loopdev "loop".toList loop_img
      ⟨-22, loop_img, [SysCall.find_free_loopdev]⟩ (by decide)⟩

/-! ## nbd -/

theorem strchr_append_of_not_mem (s t : CStr) (c : Char) (h : c ∉ s) :
    strchr (s ++ c :: t) c = some (c :: t) := by
  induction s with
  | nil => simp [strchr]
  | cons a r ih =>
    have ha : a ≠ c := fun e => h (e ▸ List.mem_cons_self a r)
    have hr : c ∉ r := fun m => h (List.mem_cons_of_mem a m)
    rw [List.cons_append]
    simp only [strchr, ha, if_false]
    exact ih hr

theorem strchr_none_of_not_mem (s : CStr) (c : Char) (h : c ∉ s) : strchr s c = none := by
  induction s with
  | nil => rfl
  | cons a r ih =>
    have ha : a ≠ c := fun e => h (e ▸ List.mem_cons_self a r)
    have hr : c ∉ r := fun m => h (List.mem_cons_of_mem a m)
    simp only [strchr, ha, if_false, ih hr]

theorem nbd_get_partition_no_suffix (img : CStr) (himg : ':' ∉ img) :
    nbd_get_partition ("nbd:".toList ++ img) = 0 := by
  have h1 : strchr ("nbd:".toList ++ img) ':' = some (':' :: img) :=
    strchr_append_of_not_mem "nbd".toList img ':' (by decide)
  unfold nbd_get_partition
  rw [h1]
  simp only [List.drop_succ_cons, List.drop_zero, strchr_none_of_not_mem img ':' himg]

theorem nbd_get_partition_suffix (img tail : CStr) (himg : ':' ∉ img) :
    nbd_get_partition ("nbd:".toList ++ img ++ ':' :: tail) =
      match tail with
      | [] => 0
      | c :: _ => if c < '1' ∨ c > '9' then 0 else (c.toNat : Int) - ('0'.toNat : Int) := by
  have h1 : strchr ("nbd:".toList ++ img ++ ':' :: tail) ':' =
      some (':' :: (img ++ ':' :: tail)) := by
    have := strchr_append_of_not_mem "nbd".toList (img ++ ':' :: tail) ':' (by decide)
    simpa using this
  unfold nbd_get_partition
  rw [h1]
  simp only [List.drop_succ_cons, List.drop_zero,
    strchr_append_of_not_mem img tail ':' himg]
  cases tail <;> rfl

/-- C19, evaluated: the probe returns the digit for the tails `1` to `9`,
returns 0 for the tails `0` and `A` and when there is no second colon, and
returns 1 for the tail `10`, which it was to reject. -/
theorem nbd_get_partition_accepts_10 :
    nbd_get_partition "nbd:/img:10".toList = 1 ∧
      nbd_get_partition "nbd:/img:1".toList = 1 ∧
      nbd_get_partition "nbd:/img:9".toList = 9 ∧
      nbd_get_partition "nbd:/img:0".toList = 0 ∧
      nbd_get_partition "nbd:/img:A".toList = 0 ∧
      nbd_get_partition "nbd:/img".toList = 0 := by
  decide

theorem toDigitsCore_length (fuel : Nat) :
    ∀ (n k : Nat) (ds : List Char), 1 ≤ k → n < 10 ^ k →
      (Nat.toDigitsCore 10 fuel n ds).length ≤ k + ds.length := by
  induction fuel with
  | zero =>
    intro n k ds _ _
    simp [Nat.toDigitsCore]
  | succ f ih =>
    intro n k ds hk hn
    unfold Nat.toDigitsCore
    simp only []
    by_cases h0 : n / 10 = 0
    · simp only [h0, if_true, List.length_cons]
      omega
    · simp only [h0, if_false]
      have hk2 : 2 ≤ k := by
        by_contra hlt
        have hk1 : k = 1 := by omega
        subst hk1
        have : n / 10 = 0 := Nat.div_eq_of_lt (by simpa using hn)
        exact h0 this
      have hdiv : n / 10 < 10 ^ (k - 1) := by
        apply Nat.div_lt_of_lt_mul
        have : 10 * 10 ^ (k - 1) = 10 ^ k := by
          rw [← Nat.pow_succ']
          congr 1
          omega
        omega
      have := ih (n / 10) (k - 1) (Nat.digitChar (n % 10) :: ds) (by omega) hdiv
      simp only [List.length_cons] at this
      omega

theorem fmt_d_length (i : Int) (h0 : 0 ≤ i) (h : i < 2 ^ 31) : (fmt_d i).length ≤ 10 := by
  unfold fmt_d
  rw [if_neg (by omega)]
  have hn : i.toNat < 10 ^ 10 := by
    have : (i.toNat : Int) = i := Int.toNat_of_nonneg h0
    have h2 : (i.toNat : Int) < 2 ^ 31 := by omega
    have h3 : i.toNat < 2 ^ 31 := by exact_mod_cast h2
    omega
  have := toDigitsCore_length (i.toNat + 1) i.toNat 10 [] (by omega) hn
  simpa [Nat.toDigits] using this

theorem fmt_d_partition (N : Char) (hN : N ∈ "123456789".toList) :
    ¬ (N < '1' ∨ N > '9') ∧ (N.toNat : Int) - ('0'.toNat : Int) ≠ 0 ∧
      fmt_d ((N.toNat : Int) - ('0'.toNat : Int)) = [N] := by
  have hall : ∀ c ∈ "123456789".toList, ¬ (c < '1' ∨ c > '9') ∧
      (c.toNat : Int) - ('0'.toNat : Int) ≠ 0 ∧
      fmt_d ((c.toNat : Int) - ('0'.toNat : Int)) = [c] := by decide
  exact hall N hN

theorem wait_for_partition_from_calls (env : Env) (path : CStr) (n count : Nat) :
    ∀ c ∈ (wait_for_partition_from env path n count).2,
      c = SysCall.file_exists path ∨ c = SysCall.sleep := by
  induction n generalizing count with
  | zero => simp [wait_for_partition_from]
  | succ m ih =>
    unfold wait_for_partition_from
    split_ifs
    · simp
    · intro c hc
      simp only [List.mem_cons] at hc
      rcases hc with hc | hc | hc
      · exact Or.inl hc
      · exact Or.inr hc
      · exact ih (count + 1) c hc

theorem wait_for_partition_from_true (env : Env) (path : CStr) (n count : Nat) :
    (wait_for_partition_from env path n count).1 = true ↔
      ∃ k, k < n ∧ env.file_exists_poll path (count + k) = true := by
  induction n generalizing count with
  | zero => simp [wait_for_partition_from]
  | succ m ih =>
    unfold wait_for_partition_from
    by_cases hp : env.file_exists_poll path count = true
    · simp only [hp, if_true, true_iff]
      exact ⟨0, Nat.succ_pos m, by simpa using hp⟩
    · simp only [hp, Bool.false_eq_true, if_false, ih (count + 1)]
      constructor
      · rintro ⟨k, hk, hpk⟩
        exact ⟨k + 1, by omega, by rw [← hpk]; congr 1; omega⟩
      · rintro ⟨k, hk, hpk⟩
        cases k with
        | zero => exact absurd (by simpa using hpk) hp
        | succ j => exact ⟨j, by omega, by rw [← hpk]; congr 1; omega⟩

theorem nbd_path_fits (i : Int) (h0 : 0 ≤ i) (h : i < 2 ^ 31) :
    ("/dev/nbd".toList ++ fmt_d i).length < 50 := by
  have := fmt_d_length i h0 h
  simp only [List.length_append, show "/dev/nbd".toList.length = 8 from rfl]
  omega

theorem nbd_part_path_fits (i : Int) (h0 : 0 ≤ i) (h : i < 2 ^ 31) (N : Char) :
    ("/dev/nbd".toList ++ fmt_d i ++ "p".toList ++ [N]).length < 50 := by
  have := fmt_d_length i h0 h
  simp only [List.length_append, show "/dev/nbd".toList.length = 8 from rfl,
    show "p".toList.length = 1 from rfl, List.length_singleton]
  omega

/-- Where `nbd_mount` does what is asked of it: for an nbd handle with type
name, source and destination in place and
an index i that fits a C int: with i < 0 the mount returns -22 and calls
nothing; with i >= 0 and a source `nbd:<image>` it mounts `/dev/nbd<i>` through
`mount_unknown_fs`; with i >= 0 and a source `nbd:<image>:<N>`, N in 1..9, it
polls for `/dev/nbd<i>p<N>` at most five times, mounts that device once a poll
finds it, and returns -2 without calling `mount_unknown_fs` when all five polls
fail.  The image name is free of colons, as in the source grammar. -/
theorem nbd_mount_device (env : Env) (b : bdev) (src dest img : CStr)
    (htype : b.type = "nbd".toList) (hsrc : b.src = some src) (hdest : b.dest = some dest)
    (himg : ':' ∉ img) (hint : b.nbd_idx < 2 ^ 31) :
    (b.nbd_idx < 0 → nbd_mount env b = ⟨-22, b, []⟩) ∧
      (0 ≤ b.nbd_idx → src = "nbd:".toList ++ img →
        nbd_mount env b =
          ⟨mount_unknown_fs env ("/dev/nbd".toList ++ fmt_d b.nbd_idx) dest b.mntopts, b,
            [SysCall.mount_unknown_fs ("/dev/nbd".toList ++ fmt_d b.nbd_idx) dest]⟩) ∧
      (∀ N ∈ "123456789".toList, 0 ≤ b.nbd_idx →
        src = "nbd:".toList ++ img ++ [':', N] →
        ((∃ k, k < 5 ∧ env.file_exists_poll
              ("/dev/nbd".toList ++ fmt_d b.nbd_idx ++ "p".toList ++ [N]) k = true) →
          (nbd_mount env b).ret =
              mount_unknown_fs env ("/dev/nbd".toList ++ fmt_d b.nbd_idx ++ "p".toList ++ [N])
                dest b.mntopts ∧
            (nbd_mount env b).bdev = b ∧
            ∃ polls, (nbd_mount env b).calls = polls ++
                [SysCall.mount_unknown_fs
                  ("/dev/nbd".toList ++ fmt_d b.nbd_idx ++ "p".toList ++ [N]) dest] ∧
              ∀ c ∈ polls, c = SysCall.file_exists
                ("/dev/nbd".toList ++ fmt_d b.nbd_idx ++ "p".toList ++ [N]) ∨
                c = SysCall.sleep) ∧
        ((∀ k, k < 5 → env.file_exists_poll
              ("/dev/nbd".toList ++ fmt_d b.nbd_idx ++ "p".toList ++ [N]) k = false) →
          (nbd_mount env b).ret = -2 ∧ (nbd_mount env b).bdev = b ∧
            ∀ c ∈ (nbd_mount env b).calls, c = SysCall.file_exists
                ("/dev/nbd".toList ++ fmt_d b.nbd_idx ++ "p".toList ++ [N]) ∨
                c = SysCall.sleep)) := by
  have ht : strcmp_eq b.type "nbd".toList = true := by simp [strcmp_eq, htype]
  refine ⟨?_, ?_, ?_⟩
  · intro hneg
    unfold nbd_mount
    simp only [ht, hsrc, hdest, Bool.not_true, Bool.false_eq_true, if_false, hneg, if_true]
  · intro h0 hs
    have hfit := nbd_path_fits b.nbd_idx h0 hint
    have hok : ¬ ((snprintf 50 ("/dev/nbd".toList ++ fmt_d b.nbd_idx)).1 < 0 ∨
        (snprintf 50 ("/dev/nbd".toList ++ fmt_d b.nbd_idx)).1 ≥ (50 : Int)) := by
      exact_mod_cast snprintf_ok _ _ hfit
    have hpart : nbd_get_partition src = 0 := by
      rw [hs]
      exact nbd_get_partition_no_suffix img himg
    unfold nbd_mount
    simp only [ht, hsrc, hdest, Bool.not_true, Bool.false_eq_true, if_false,
      not_lt.mpr h0, hpart, ne_eq, not_true_eq_false]
    rw [if_neg hok, snprintf_fits _ _ hfit]
    rfl
  · intro N hN h0 hs
    obtain ⟨hrange, hne, hfmt⟩ := fmt_d_partition N hN
    have hfit := nbd_part_path_fits b.nbd_idx h0 hint N
    have hok : ¬ ((snprintf 50
          ("/dev/nbd".toList ++ fmt_d b.nbd_idx ++ "p".toList ++ [N])).1 < 0 ∨
        (snprintf 50 ("/dev/nbd".toList ++ fmt_d b.nbd_idx ++ "p".toList ++ [N])).1 ≥
          (50 : Int)) := by
      exact_mod_cast snprintf_ok _ _ hfit
    have hpart : nbd_get_partition src = (N.toNat : Int) - ('0'.toNat : Int) := by
      rw [hs, nbd_get_partition_suffix img [N] himg]
      simp only [hrange, if_false]
    have hcalls := wait_for_partition_from_calls env
      ("/dev/nbd".toList ++ fmt_d b.nbd_idx ++ "p".toList ++ [N]) 5 0
    have htrue := wait_for_partition_from_true env
      ("/dev/nbd".toList ++ fmt_d b.nbd_idx ++ "p".toList ++ [N]) 5 0
    have hunf : nbd_mount env b =
        if !(wait_for_partition env
            ("/dev/nbd".toList ++ fmt_d b.nbd_idx ++ "p".toList ++ [N])).1 then
          ⟨-2, b, (wait_for_partition env
            ("/dev/nbd".toList ++ fmt_d b.nbd_idx ++ "p".toList ++ [N])).2⟩
        else
          ⟨mount_unknown_fs env ("/dev/nbd".toList ++ fmt_d b.nbd_idx ++ "p".toList ++ [N])
              dest b.mntopts, b,
            (wait_for_partition env
              ("/dev/nbd".toList ++ fmt_d b.nbd_idx ++ "p".toList ++ [N])).2 ++
              [SysCall.mount_unknown_fs
                ("/dev/nbd".toList ++ fmt_d b.nbd_idx ++ "p".toList ++ [N]) dest]⟩ := by
      unfold nbd_mount
      simp only [ht, hsrc, hdest, Bool.not_true, Bool.false_eq_true, if_false,
        not_lt.mpr h0, hpart, ne_eq, hne, not_false_eq_true, if_true, hfmt]
      rw [if_neg hok, snprintf_fits _ _ hfit]
    rw [hunf]
    unfold wait_for_partition
    constructor
    · intro hex
      have hw : (wait_for_partition_from env
          ("/dev/nbd".toList ++ fmt_d b.nbd_idx ++ "p".toList ++ [N]) 5 0).1 = true := by
        rw [htrue]
        obtain ⟨k, hk, hp⟩ := hex
        exact ⟨k, hk, by simpa using hp⟩
      simp only [hw, Bool.not_true, Bool.false_eq_true, if_false, true_and]
      exact ⟨_, rfl, hcalls⟩
    · intro hall
      have hw : (wait_for_partition_from env
          ("/dev/nbd".toList ++ fmt_d b.nbd_idx ++ "p".toList ++ [N]) 5 0).1 = false := by
        rw [← Bool.not_eq_true, htrue]
        rintro ⟨k, hk, hp⟩
        have := hall k hk
        simp only [Nat.zero_add] at hp
        rw [this] at hp
        exact Bool.false_ne_true hp
      simp only [hw, Bool.not_false, if_true, true_and]
      exact hcalls

/-- Witness for `nbd_mount_device`: partition 3 of `/img` at index 12 on a host
where the node `/dev/nbd12p3` never shows up. -/
theorem nbd_mount_device_witness :
    nbd_img_p3.type = "nbd".toList ∧ nbd_img_p3.src = some "nbd:/img:3".toList ∧
      nbd_img_p3.dest = some "/mnt".toList ∧ ':' ∉ "/img".toList ∧
      nbd_img_p3.nbd_idx < 2 ^ 31 ∧ '3' ∈ "123456789".toList ∧ 0 ≤ nbd_img_p3.nbd_idx ∧
      "nbd:/img:3".toList = "nbd:".toList ++ "/img".toList ++ [':', '3'] ∧
      (∀ k, k < 5 → Env.no_partition.file_exists_poll
        ("/dev/nbd".toList ++ fmt_d nbd_img_p3.nbd_idx ++ "p".toList ++ ['3']) k = false) ∧
      ((nbd_mount Env.no_partition nbd_img_p3).ret = -2 ∧
        (nbd_mount Env.no_partition nbd_img_p3).bdev = nbd_img_p3 ∧
        ∀ c ∈ (nbd_mount Env.no_partition nbd_img_p3).calls,
          c = SysCall.file_exists
            ("/dev/nbd".toList ++ fmt_d nbd_img_p3.nbd_idx ++ "p".toList ++ ['3']) ∨
          c = SysCall.sleep) :=
  ⟨by decide, by decide, by decide, by decide, by decide, by decide, by decide, by decide,
    fun _ _ => rfl,
    ((nbd_mount_device Env.no_partition nbd_img_p3 "nbd:/img:3".toList "/mnt".toList
      "/img".toList (by decide) (by decide) (by decide) (by decide) (by decide)).2.2
      '3' (by decide) (by decide) (by decide)).2 (fun _ _ => rfl)⟩

/-- C20, evaluated: on a host where every call succeeds and with index 0, the
source `nbd:/data:2024/img`, which has no partition suffix, is mounted from
`/dev/nbd0p2` and not from `/dev/nbd0`, and the source `nbd:/a:5/img:3`, which
ends in the partition identifier 3, is mounted from `/dev/nbd0p5` and not from
`/dev/nbd0p3`: the partition is taken from the character behind the second
colon of the source, not from its end. -/
theorem nbd_mount_second_colon :
    nbd_data_2024.nbd_idx = 0 ∧
      nbd_get_partition "nbd:/data:2024/img".toList = 2 ∧
      nbd_mount Env.quiet nbd_data_2024 =
        ⟨0, nbd_data_2024,
          [SysCall.file_exists "/dev/nbd0p2".toList,
            SysCall.mount_unknown_fs "/dev/nbd0p2".toList "/mnt".toList]⟩ ∧
      nbd_get_partition "nbd:/a:5/img:3".toList = 5 ∧
      nbd_mount Env.quiet nbd_a5_img3 =
        ⟨0, nbd_a5_img3,
          [SysCall.file_exists "/dev/nbd0p5".toList,
            SysCall.mount_unknown_fs "/dev/nbd0p5".toList "/mnt".toList]⟩ := by
  decide

/-! ## get_fssize -/

theorem digit_val_of_isdigit (c : Char) (h : isdigit c = true) :
    digit_val c = some (c.toNat - '0'.toNat) ∧ c.toNat - '0'.toNat < 10 := by
  have hc : '0' ≤ c ∧ c ≤ '9' := by simpa [isdigit] using h
  have a : c.toNat ≤ '9'.toNat := hc.2
  have e1 : '9'.toNat = 57 := rfl
  have e0 : '0'.toNat = 48 := rfl
  refine ⟨by simp only [digit_val, hc, and_self, if_true], ?_⟩
  omega

theorem digit_val_of_not_isdigit (c : Char) (h : isdigit c = false) :
    digit_val c = none ∨ ∃ d, digit_val c = some d ∧ 10 ≤ d := by
  have hc : ¬ ('0' ≤ c ∧ c ≤ '9') := by simpa [isdigit] using h
  unfold digit_val
  rw [if_neg hc]
  split_ifs
  · exact Or.inr ⟨_, rfl, Nat.le_add_left _ _⟩
  · exact Or.inr ⟨_, rfl, Nat.le_add_left _ _⟩
  · exact Or.inl rfl

theorem scan_digits_stop (base : Nat) (hb : base ≤ 10) (rest : CStr) (acc cnt : Nat)
    (hrest : ∀ c t, rest = c :: t → isdigit c = false) :
    scan_digits base rest acc cnt = (acc, cnt, rest) := by
  cases rest with
  | nil => rfl
  | cons c t =>
    unfold scan_digits
    rcases digit_val_of_not_isdigit c (hrest c t rfl) with h | ⟨d, h, hd⟩
    · rw [h]
    · rw [h]
      simp only []
      rw [if_neg (by omega)]

theorem scan_digits_decimal (ds rest : CStr) (acc cnt : Nat)
    (hdig : ∀ c ∈ ds, isdigit c = true)
    (hrest : ∀ c t, rest = c :: t → isdigit c = false) :
    scan_digits 10 (ds ++ rest) acc cnt =
      (ds.foldl (fun a c => a * 10 + (c.toNat - '0'.toNat)) acc, cnt + ds.length, rest) := by
  induction ds generalizing acc cnt with
  | nil => simpa using scan_digits_stop 10 (Nat.le_refl _) rest acc cnt hrest
  | cons c t ih =>
    obtain ⟨hv, hlt⟩ := digit_val_of_isdigit c (hdig c (List.mem_cons_self c t))
    have ht : ∀ x ∈ t, isdigit x = true := fun x hx => hdig x (List.mem_cons_of_mem c hx)
    rw [List.cons_append]
    unfold scan_digits
    rw [hv]
    simp only []
    rw [if_pos hlt, ih _ _ ht]
    simp only [List.foldl_cons, List.length_cons, Prod.mk.injEq, true_and, and_true]
    omega

theorem strtoul_base_decimal (c : Char) (t : CStr) (h0 : c ≠ '0') :
    strtoul_base (c :: t) = (10, c :: t) := by
  unfold strtoul_base
  cases t with
  | nil => simp only [h0, if_false]
  | cons x r =>
    cases r with
    | nil => simp only [h0, if_false]
    | cons y r2 => simp only [h0, false_and, if_false]

theorem isdigit_not_space_sign (c : Char) (h : isdigit c = true) :
    isspace c = false ∧ c ≠ '-' ∧ c ≠ '+' := by
  have hc : '0' ≤ c ∧ c ≤ '9' := by simpa [isdigit] using h
  have a : '0'.toNat ≤ c.toNat := hc.1
  have e0 : '0'.toNat = 48 := rfl
  have hne : ∀ d : Char, d.toNat < 48 → c ≠ d := by
    intro d hd e
    rw [e] at a
    omega
  refine ⟨?_, hne '-' (by decide), hne '+' (by decide)⟩
  unfold isspace
  simp only [Bool.or_eq_false_iff, beq_eq_false_iff_ne, ne_eq]
  exact ⟨⟨⟨⟨⟨hne ' ' (by decide), hne '\t' (by decide)⟩, hne '\n' (by decide)⟩,
    hne '\x0b' (by decide)⟩, hne '\x0c' (by decide)⟩, hne '\r' (by decide)⟩

theorem strtoul0_decimal (ds rest : CStr) (hne : ds ≠ [])
    (hdig : ∀ c ∈ ds, isdigit c = true) (hlead : ds.head? ≠ some '0')
    (hrest : ∀ c t, rest = c :: t → isdigit c = false) :
    strtoul0 (ds ++ rest) = some (min (decimal_value ds) ULONG_MAX, rest) := by
  cases ds with
  | nil => exact absurd rfl hne
  | cons c t =>
    have hc := hdig c (List.mem_cons_self c t)
    obtain ⟨hsp, hm, hp⟩ := isdigit_not_space_sign c hc
    have h0 : c ≠ '0' := by
      intro e
      apply hlead
      simp [e]
    have hscan := scan_digits_decimal (c :: t) rest 0 0 hdig hrest
    rw [List.cons_append] at hscan
    unfold strtoul0
    simp only [List.cons_append, List.dropWhile_cons, hsp, Bool.false_eq_true, if_false, hm,
      hp, or_self, decide_False, strtoul_base_decimal c (t ++ rest) h0, hscan]
    have hlen : ¬ (0 + (c :: t).length = 0) := by simp
    rw [if_neg hlen]
    unfold decimal_value
    by_cases hbig : List.foldl (fun a c => a * 10 + (c.toNat - '0'.toNat)) 0 (c :: t) >
        ULONG_MAX
    · rw [if_pos hbig, Nat.min_eq_right (Nat.le_of_lt hbig)]
    · rw [if_neg hbig, Nat.min_eq_left (Nat.le_of_not_gt hbig)]

theorem starts_with_digit_false (s : CStr) (h : starts_with_digit s = false) :
    ∀ c t, s = c :: t → isdigit c = false := by
  intro c t e
  subst e
  exact h

theorem strtoul0_no_number (s : CStr) (h0 : no_leading_number s = true) :
    strtoul0 s = none := by
  have h := starts_with_digit_false (skip_space_sign s)
    (by simpa [no_leading_number] using h0)
  unfold skip_space_sign at h
  unfold strtoul0
  cases hs1 : s.dropWhile isspace with
  | nil => simp [strtoul_base, scan_digits]
  | cons c t =>
    rw [hs1] at h
    simp only [] at h ⊢
    have key : ∀ (u : CStr), (∀ c t, u = c :: t → isdigit c = false) →
        (scan_digits (strtoul_base u).1 (strtoul_base u).2 0 0).2.1 = 0 := by
      intro u hu
      cases u with
      | nil => simp [strtoul_base, scan_digits]
      | cons a r =>
        have ha := hu a r rfl
        have ha0 : a ≠ '0' := by
          intro e
          rw [e] at ha
          exact absurd ha (by decide)
        rw [strtoul_base_decimal a r ha0]
        simp only []
        rw [scan_digits_stop 10 (Nat.le_refl _) (a :: r) 0 0 hu]
    rw [if_pos (key _ h)]

/-- C18, as stated, fails: the suffix of `1 g` is a blank followed by `g`, not one
of the six suffix letters, and yet the result is 1000000000 and not 1; and the
decimal number 2^64 is not returned as itself but as `ULONG_MAX`. -/
theorem get_fssize_blank_suffix :
    get_fssize "1 g".toList = 1000000000 ∧ get_fssize "1gb".toList = 1000000000 ∧
      get_fssize "18446744073709551616".toList = 18446744073709551615 := by
  decide

/-- C18, amended: for a decimal number without leading zero, of value n, followed
by a text that does not continue the number, `get_fssize` takes n, or
`ULONG_MAX` when n does not fit `unsigned long`, skips blanks behind the number
and multiplies by 10^9, 10^6 or 10^3 (modulo 2^64) when the first character
behind the blanks is g or G, m or M, k or K; with any other character there, or
none, the value is returned unchanged.  A string without leading number,
the empty string included, gives 0. -/
theorem get_fssize_decimal (ds rest : CStr) (hne : ds ≠ [])
    (hdig : ∀ c ∈ ds, isdigit c = true) (hlead : ds.head? ≠ some '0')
    (hrest : starts_with_digit rest = false) :
    get_fssize (ds ++ rest) =
        (match rest.dropWhile isblank with
          | [] => min (decimal_value ds) ULONG_MAX
          | c :: _ => min (decimal_value ds) ULONG_MAX * suffix_multiplier c % 2 ^ 64) ∧
      (∀ s, no_leading_number s = true → get_fssize s = 0) ∧
      no_leading_number [] = true := by
  refine ⟨?_, ?_, ?_⟩
  · unfold get_fssize
    rw [strtoul0_decimal ds rest hne hdig hlead (starts_with_digit_false rest hrest)]
    simp only []
    have hlt : min (decimal_value ds) ULONG_MAX < 2 ^ 64 := by
      have : min (decimal_value ds) ULONG_MAX ≤ ULONG_MAX := Nat.min_le_right _ _
      unfold ULONG_MAX at this ⊢
      omega
    cases rest.dropWhile isblank with
    | nil => rfl
    | cons c t =>
      simp only [suffix_multiplier]
      split_ifs
      · rfl
      · rfl
      · rfl
      · rw [Nat.mul_one, Nat.mod_eq_of_lt hlt]
  · intro s hs
    unfold get_fssize
    rw [strtoul0_no_number s hs]
  · rfl

/-- Witness for `get_fssize_decimal`: the inputs `1g`, `1024k`, `1t` and the empty
string. -/
theorem get_fssize_decimal_witness :
    "1024".toList ≠ [] ∧ (∀ c ∈ "1024".toList, isdigit c = true) ∧
      "1024".toList.head? ≠ some '0' ∧
      starts_with_digit "k".toList = false ∧
      get_fssize ("1024".toList ++ "k".toList) = 1024000 ∧
      get_fssize "1g".toList = 1000000000 ∧ get_fssize "1t".toList = 1 ∧
      get_fssize "".toList = 0 ∧
      (get_fssize ("1024".toList ++ "k".toList) =
          (match "k".toList.dropWhile isblank with
            | [] => min (decimal_value "1024".toList) ULONG_MAX
            | c :: _ =>
              min (decimal_value "1024".toList) ULONG_MAX * suffix_multiplier c % 2 ^ 64) ∧
        (∀ s, no_leading_number s = true → get_fssize s = 0) ∧
        no_leading_number [] = true) :=
  ⟨by decide, by decide, by decide, by decide, by decide, by decide, by decide, by decide,
    get_fssize_decimal "1024".toList "k".toList (by decide) (by decide) (by decide)
      (by decide)⟩

/-! ## Lock manager -/

theorem lxclock_mutex_fails (E : LockEnv) (l : lxc_lock) (timeout : Int)
    (hm : E.pthread_mutex_lock ≠ 0) :
    lxclock E l timeout = some ⟨some E.pthread_mutex_lock, l, [Action.pthread_mutex_lock]⟩ := by
  simp only [lxclock, hm, ne_eq, not_false_eq_true, if_true]

theorem lxclock_flock_timeout (E : LockEnv) (fname : Option CStr) (fd timeout : Int)
    (hm : E.pthread_mutex_lock = 0) (ht : timeout ≠ 0) :
    lxclock E (lxc_lock.LXC_LOCK_FLOCK fname fd) timeout =
      some ⟨some (-2), lxc_lock.LXC_LOCK_FLOCK fname fd,
        [Action.pthread_mutex_lock, Action.pthread_mutex_unlock]⟩ := by
  simp [lxclock, hm, ht]

theorem lxclock_flock_noname (E : LockEnv) (fd : Int) (hm : E.pthread_mutex_lock = 0) :
    lxclock E (lxc_lock.LXC_LOCK_FLOCK none fd) 0 =
      some ⟨some (-2), lxc_lock.LXC_LOCK_FLOCK none fd,
        [Action.pthread_mutex_lock, Action.pthread_mutex_unlock]⟩ := by
  simp [lxclock, hm]

theorem lxclock_flock_open_fails (E : LockEnv) (f : CStr) (hm : E.pthread_mutex_lock = 0)
    (ho : E.sys_open f = none) :
    lxclock E (lxc_lock.LXC_LOCK_FLOCK (some f) (-1)) 0 =
      some ⟨some (-2), lxc_lock.LXC_LOCK_FLOCK (some f) (-1),
        [Action.pthread_mutex_lock, Action.sys_open f, Action.pthread_mutex_unlock]⟩ := by
  simp [lxclock, hm, ho]

theorem lxclock_flock_open (E : LockEnv) (f : CStr) (d : Nat)
    (hm : E.pthread_mutex_lock = 0) (ho : E.sys_open f = some d) :
    lxclock E (lxc_lock.LXC_LOCK_FLOCK (some f) (-1)) 0 =
      some (lxclock_out (E.flock_ex d) (lxc_lock.LXC_LOCK_FLOCK (some f) d)
        [Action.pthread_mutex_lock, Action.sys_open f, Action.flock_ex d]) := by
  simp [lxclock, hm, ho]

theorem lxclock_flock_held (E : LockEnv) (f : CStr) (fd : Int)
    (hm : E.pthread_mutex_lock = 0) (hfd : fd ≠ -1) :
    lxclock E (lxc_lock.LXC_LOCK_FLOCK (some f) fd) 0 =
      some (lxclock_out (E.flock_ex fd) (lxc_lock.LXC_LOCK_FLOCK (some f) fd)
        [Action.pthread_mutex_lock, Action.flock_ex fd]) := by
  simp [lxclock, hm, hfd]

theorem lxclock_sem_wait (E : LockEnv) (n : Nat) (hm : E.pthread_mutex_lock = 0) :
    lxclock E (lxc_lock.LXC_LOCK_ANON_SEM (some n)) 0 =
      some (lxclock_out (sem_wait E n).1 (lxc_lock.LXC_LOCK_ANON_SEM (some (sem_wait E n).2))
        [Action.pthread_mutex_lock, Action.sem_wait]) := by
  simp [lxclock, hm]

theorem lxclock_sem_clock (E : LockEnv) (sem : Option Nat) (timeout : Int)
    (hm : E.pthread_mutex_lock = 0) (ht : timeout ≠ 0) (hc : E.clock_gettime_fails = true) :
    lxclock E (lxc_lock.LXC_LOCK_ANON_SEM sem) timeout =
      some ⟨some (-2), lxc_lock.LXC_LOCK_ANON_SEM sem,
        [Action.pthread_mutex_lock, Action.clock_gettime, Action.pthread_mutex_unlock]⟩ := by
  simp [lxclock, hm, ht, hc]

theorem lxclock_sem_timedwait (E : LockEnv) (n : Nat) (timeout : Int)
    (hm : E.pthread_mutex_lock = 0) (ht : timeout ≠ 0) (hc : E.clock_gettime_fails = false) :
    lxclock E (lxc_lock.LXC_LOCK_ANON_SEM (some n)) timeout =
      some (lxclock_out (sem_timedwait E n).1
        (lxc_lock.LXC_LOCK_ANON_SEM (some (sem_timedwait E n).2))
        [Action.pthread_mutex_lock, Action.clock_gettime, Action.sem_timedwait]) := by
  simp [lxclock, hm, ht, hc]

theorem lxclock_sem_null (E : LockEnv) (timeout : Int) (hm : E.pthread_mutex_lock = 0)
    (h : timeout = 0 ∨ E.clock_gettime_fails = false) :
    lxclock E (lxc_lock.LXC_LOCK_ANON_SEM none) timeout = none := by
  rcases h with h | h
  · simp [lxclock, hm, h]
  · by_cases ht : timeout = 0
    · simp [lxclock, hm, ht]
    · simp [lxclock, hm, ht, h]

theorem lxcunlock_flock_open (E : LockEnv) (fname : Option CStr) (fd : Int)
    (hm : E.pthread_mutex_lock = 0) (hfd : fd ≠ -1) :
    lxcunlock E (lxc_lock.LXC_LOCK_FLOCK fname fd) =
      ⟨if E.flock_un_ok fd then 0 else -1, lxc_lock.LXC_LOCK_FLOCK fname (-1),
        [Action.pthread_mutex_lock, Action.flock_un fd, Action.close fd,
          Action.pthread_mutex_unlock]⟩ := by
  simp [lxcunlock, hm, hfd]

theorem lxcunlock_sem_post (E : LockEnv) (n : Nat) (hm : E.pthread_mutex_lock = 0) :
    (lxcunlock E (lxc_lock.LXC_LOCK_ANON_SEM (some n))).ret =
        (if E.sem_post_ok n then 0 else -1) ∧
      (lxcunlock E (lxc_lock.LXC_LOCK_ANON_SEM (some n))).lock =
        lxc_lock.LXC_LOCK_ANON_SEM (some (if E.sem_post_ok n then n + 1 else n)) := by
  simp only [lxcunlock, hm]
  cases E.sem_post_ok n <;> simp

theorem lxclock_name_ok (E : LockEnv) (p n : CStr) (hmalloc : E.malloc_ok = true)
    (hmk : 0 ≤ E.mkdir_p (p ++ "/locks".toList)) :
    lxclock_name E p n =
      (some (p ++ "/locks/".toList ++ n), [Action.mkdir_p (p ++ "/locks".toList)]) := by
  have h1 : (p ++ "/locks".toList).length < p.length + n.length + "/locks/".toList.length + 1 := by
    have a : "/locks".toList.length = 6 := rfl
    have b : "/locks/".toList.length = 7 := rfl
    simp only [List.length_append, a, b]
    omega
  have h2 : (p ++ "/locks/".toList ++ n).length <
      p.length + n.length + "/locks/".toList.length + 1 := by
    simp only [List.length_append]
    omega
  have hmk2 : ¬ E.mkdir_p (p ++ "/locks".toList) < 0 := not_lt.mpr hmk
  unfold lxclock_name
  simp only [hmalloc, Bool.not_true, Bool.false_eq_true, if_false]
  rw [if_neg (snprintf_ok _ _ h1), snprintf_fits _ _ h1]
  simp only [hmk2, if_false]
  rw [if_neg (snprintf_ok _ _ h2), snprintf_fits _ _ h2]

theorem lxc_newlock_flock (E : LockEnv) (p n : CStr) (hm : E.pthread_mutex_lock = 0)
    (hmalloc : E.malloc_ok = true) (hmk : 0 ≤ E.mkdir_p (p ++ "/locks".toList)) :
    (lxc_newlock E p (some n)).1 =
      some (lxc_lock.LXC_LOCK_FLOCK (some (p ++ "/locks/".toList ++ n)) (-1)) := by
  unfold lxc_newlock
  simp only [hm, hmalloc, lxclock_name_ok E p n hmalloc hmk, ne_eq, not_true_eq_false,
    if_false, Bool.not_true, Bool.false_eq_true]

theorem lxc_newlock_sem (E : LockEnv) (p : CStr) (hm : E.pthread_mutex_lock = 0)
    (hmalloc : E.malloc_ok = true) (hinit : E.sem_init_ok = true) :
    (lxc_newlock E p none).1 = some (lxc_lock.LXC_LOCK_ANON_SEM (some 1)) := by
  unfold lxc_newlock lxc_new_unnamed_sem
  simp only [hm, hmalloc, hinit, ne_eq, not_true_eq_false, if_false, Bool.not_true,
    Bool.false_eq_true]

/-- C16: on a host whose calls succeed, the sequence new_lock; acquire(0);
release; acquire(0); release; destroy returns 0 from every acquire and release
for the file lock and for the semaphore lock; the descriptor of the file lock
is -1 after new_lock, the opened descriptor after each acquire, -1 after each
release and -1 after destroy. -/
theorem lock_lifecycle_no_fail (E : LockEnv) (lxcpath name : CStr) (d : Nat)
    (hm : E.pthread_mutex_lock = 0) (hmalloc : E.malloc_ok = true)
    (hinit : E.sem_init_ok = true) (hmk : 0 ≤ E.mkdir_p (lxcpath ++ "/locks".toList))
    (hopen : E.sys_open (lxcpath ++ "/locks/".toList ++ name) = some d)
    (hex : E.flock_ex d = Blocking.done) (hun : E.flock_un_ok d = true)
    (hpost : ∀ n, E.sem_post_ok n = true) :
    lock_lifecycle E lxcpath (some name) =
        some ([0, 0, 0, 0],
          [lxc_lock.LXC_LOCK_FLOCK (some (lxcpath ++ "/locks/".toList ++ name)) (-1),
            lxc_lock.LXC_LOCK_FLOCK (some (lxcpath ++ "/locks/".toList ++ name)) d,
            lxc_lock.LXC_LOCK_FLOCK (some (lxcpath ++ "/locks/".toList ++ name)) (-1),
            lxc_lock.LXC_LOCK_FLOCK (some (lxcpath ++ "/locks/".toList ++ name)) d,
            lxc_lock.LXC_LOCK_FLOCK (some (lxcpath ++ "/locks/".toList ++ name)) (-1),
            lxc_lock.LXC_LOCK_FLOCK none (-1)]) ∧
      (d : Int) ≠ -1 ∧
      lock_lifecycle E lxcpath none =
        some ([0, 0, 0, 0],
          [lxc_lock.LXC_LOCK_ANON_SEM (some 1), lxc_lock.LXC_LOCK_ANON_SEM (some 0),
            lxc_lock.LXC_LOCK_ANON_SEM (some 1), lxc_lock.LXC_LOCK_ANON_SEM (some 0),
            lxc_lock.LXC_LOCK_ANON_SEM (some 1), lxc_lock.LXC_LOCK_ANON_SEM (some 1)]) := by
  have hd : (d : Int) ≠ -1 := by omega
  refine ⟨?_, hd, ?_⟩
  · unfold lock_lifecycle
    rw [lxc_newlock_flock E lxcpath name hm hmalloc hmk]
    simp only [lxclock_flock_open E _ d hm hopen, hex, lxclock_out,
      lxcunlock_flock_open E _ (d : Int) hm hd, hun, if_true]
    simp [lxc_putlock, hm]
  · unfold lock_lifecycle
    rw [lxc_newlock_sem E lxcpath hm hmalloc hinit]
    have p0 := lxcunlock_sem_post E 0 hm
    rw [hpost 0] at p0
    simp only [if_true] at p0
    simp only [lxclock_sem_wait E _ hm, sem_wait, lxclock_out, Nat.lt_irrefl, Nat.sub_self,
      gt_iff_lt, Nat.lt_one_iff, Nat.zero_lt_one, if_true, p0.1, p0.2, zero_add]
    simp [lxc_putlock, hm]

/-- Witness for `lock_lifecycle_no_fail`: container c1 under /var/lib/lxc. -/
theorem lock_lifecycle_no_fail_witness :
    LockEnv.ok.pthread_mutex_lock = 0 ∧ LockEnv.ok.malloc_ok = true ∧
      LockEnv.ok.sem_init_ok = true ∧
      0 ≤ LockEnv.ok.mkdir_p ("/var/lib/lxc".toList ++ "/locks".toList) ∧
      LockEnv.ok.sys_open ("/var/lib/lxc".toList ++ "/locks/".toList ++ "c1".toList) = some 3 ∧
      LockEnv.ok.flock_ex (3 : Nat) = Blocking.done ∧
      LockEnv.ok.flock_un_ok (3 : Nat) = true ∧ (∀ n, LockEnv.ok.sem_post_ok n = true) ∧
      lock_lifecycle LockEnv.ok "/var/lib/lxc".toList (some "c1".toList) =
        some ([0, 0, 0, 0],
          [lxc_lock.LXC_LOCK_FLOCK (some "/var/lib/lxc/locks/c1".toList) (-1),
            lxc_lock.LXC_LOCK_FLOCK (some "/var/lib/lxc/locks/c1".toList) 3,
            lxc_lock.LXC_LOCK_FLOCK (some "/var/lib/lxc/locks/c1".toList) (-1),
            lxc_lock.LXC_LOCK_FLOCK (some "/var/lib/lxc/locks/c1".toList) 3,
            lxc_lock.LXC_LOCK_FLOCK (some "/var/lib/lxc/locks/c1".toList) (-1),
            lxc_lock.LXC_LOCK_FLOCK none (-1)]) :=
  ⟨rfl, rfl, rfl, by decide, rfl, rfl, rfl, fun _ => rfl,
    (lock_lifecycle_no_fail LockEnv.ok "/var/lib/lxc".toList "c1".toList 3 rfl rfl rfl
      (by decide) rfl rfl rfl (fun _ => rfl)).1⟩

theorem no_blocking_split (xs pre post : List Action) (a : Action)
    (hxs : ∀ x ∈ xs, x.is_blocking = false) (h : xs = pre ++ a :: post) :
    a.is_blocking = false := by
  apply hxs
  rw [h]
  simp

theorem split_at_blocking (mid tail pre post : List Action) (a b : Action)
    (hmid : ∀ x ∈ mid, x.is_blocking = false) (htail : ∀ x ∈ tail, x.is_blocking = false)
    (ha : a.is_blocking = true) (h : mid ++ b :: tail = pre ++ a :: post) :
    pre = mid ∧ a = b ∧ post = tail := by
  induction mid generalizing pre with
  | nil =>
    cases pre with
    | nil =>
      simp only [List.nil_append, List.cons.injEq] at h
      exact ⟨rfl, h.1.symm, h.2.symm⟩
    | cons x pre2 =>
      simp only [List.nil_append, List.cons_append, List.cons.injEq] at h
      have hf := no_blocking_split tail pre2 post a htail h.2
      rw [ha] at hf
      cases hf
  | cons m mid2 ih =>
    cases pre with
    | nil =>
      simp only [List.nil_append, List.cons_append, List.cons.injEq] at h
      have hf := hmid m (List.mem_cons_self _ _)
      rw [h.1, ha] at hf
      cases hf
    | cons x pre2 =>
      simp only [List.cons_append, List.cons.injEq] at h
      have r := ih pre2 (fun y hy => hmid y (List.mem_cons_of_mem _ hy)) h.2
      exact ⟨by rw [r.1, h.1], r.2⟩

theorem lxclock_out_split (bl : Blocking) (l : lxc_lock) (mid pre post : List Action)
    (a b : Action) (hmid : ∀ x ∈ mid, x.is_blocking = false) (ha : a.is_blocking = true)
    (h : (lxclock_out bl l (mid ++ [b])).actions = pre ++ a :: post) :
    pre = mid ∧ a = b ∧
      (post = [Action.pthread_mutex_unlock] ∧ (lxclock_out bl l (mid ++ [b])).ret ≠ none ∨
        post = [] ∧ (lxclock_out bl l (mid ++ [b])).ret = none) := by
  have hu : ∀ x ∈ [Action.pthread_mutex_unlock], x.is_blocking = false := by
    intro x hx
    rw [List.mem_singleton] at hx
    rw [hx]
    rfl
  cases bl with
  | done =>
    have h2 : mid ++ b :: [Action.pthread_mutex_unlock] = pre ++ a :: post := by
      rw [← h]
      simp [lxclock_out]
    have r := split_at_blocking mid _ pre post a b hmid hu ha h2
    exact ⟨r.1, r.2.1, Or.inl ⟨r.2.2, by simp [lxclock_out]⟩⟩
  | failed =>
    have h2 : mid ++ b :: [Action.pthread_mutex_unlock] = pre ++ a :: post := by
      rw [← h]
      simp [lxclock_out]
    have r := split_at_blocking mid _ pre post a b hmid hu ha h2
    exact ⟨r.1, r.2.1, Or.inl ⟨r.2.2, by simp [lxclock_out]⟩⟩
  | never =>
    have h2 : mid ++ b :: [] = pre ++ a :: post := by
      rw [← h]
      simp [lxclock_out]
    have r := split_at_blocking mid [] pre post a b hmid (fun _ hx => by cases hx) ha h2
    exact ⟨r.1, r.2.1, Or.inr ⟨r.2.2, by simp [lxclock_out]⟩⟩

/-- C17, evaluated: the acquire of a file lock that another holder keeps
locked takes the mutex, opens the file and enters flock(LOCK_EX), which does not
return: the mutex stays locked, where it was to be released before the wait.
The release by the holder starts with `pthread_mutex_lock` on that same mutex
and reaches flock(LOCK_UN) only behind it.  Also on a host where every call
succeeds flock(LOCK_EX), sem_wait and sem_timedwait run between the mutex lock
and the mutex unlock, and a wait on a semaphore of value 0 that is never woken
leaves the mutex locked. -/
theorem lxclock_blocks_under_mutex :
    (lxclock LockEnv.contended
        (lxc_lock.LXC_LOCK_FLOCK (some "/var/lib/lxc/locks/c1".toList) (-1)) 0).map
        (fun r => (r.ret, r.actions)) =
        some (none, [Action.pthread_mutex_lock,
          Action.sys_open "/var/lib/lxc/locks/c1".toList, Action.flock_ex 3]) ∧
      (lxcunlock LockEnv.contended
        (lxc_lock.LXC_LOCK_FLOCK (some "/var/lib/lxc/locks/c1".toList) 3)).actions =
        [Action.pthread_mutex_lock, Action.flock_un 3, Action.close 3,
          Action.pthread_mutex_unlock] ∧
      (lxclock LockEnv.ok (lxc_lock.LXC_LOCK_FLOCK (some "/var/lib/lxc/locks/c1".toList) (-1))
        0).map LockRun.actions =
        some [Action.pthread_mutex_lock, Action.sys_open "/var/lib/lxc/locks/c1".toList,
          Action.flock_ex 3, Action.pthread_mutex_unlock] ∧
      (lxclock LockEnv.ok (lxc_lock.LXC_LOCK_ANON_SEM (some 1)) 0).map LockRun.actions =
        some [Action.pthread_mutex_lock, Action.sem_wait, Action.pthread_mutex_unlock] ∧
      (lxclock LockEnv.ok (lxc_lock.LXC_LOCK_ANON_SEM (some 1)) 5).map LockRun.actions =
        some [Action.pthread_mutex_lock, Action.clock_gettime, Action.sem_timedwait,
          Action.pthread_mutex_unlock] ∧
      (lxclock LockEnv.ok (lxc_lock.LXC_LOCK_ANON_SEM (some 0)) 0).map
          (fun r => (r.ret, r.actions)) =
        some (none, [Action.pthread_mutex_lock, Action.sem_wait]) := by
  decide

/-- The mutex is held across the wait in every run of `lxclock`, not only in
the runs evaluated above: in the sequence of actions of one acquire call, every
blocking call (flock(LOCK_EX), sem_wait or sem_timedwait) comes after the
successful mutex lock with no mutex unlock before it, and the mutex unlock is
the single action after it when the blocking call returns; no action follows
when it never returns. -/
theorem lxclock_blocking_holds_mutex (E : LockEnv) (l : lxc_lock) (timeout : Int)
    (r : LockRun) (pre post : List Action) (a : Action)
    (h : lxclock E l timeout = some r) (hd : r.actions = pre ++ a :: post)
    (ha : a.is_blocking = true) :
    E.pthread_mutex_lock = 0 ∧ pre.head? = some Action.pthread_mutex_lock ∧
      Action.pthread_mutex_unlock ∉ pre ∧
      (post = [Action.pthread_mutex_unlock] ∧ r.ret ≠ none ∨ post = [] ∧ r.ret = none) := by
  have contra : ∀ xs : List Action, (∀ x ∈ xs, x.is_blocking = false) → r.actions = xs →
      False := by
    intro xs hxs e
    have hf := no_blocking_split xs pre post a hxs (e ▸ hd)
    rw [ha] at hf
    cases hf
  by_cases hm : E.pthread_mutex_lock = 0
  swap
  · rw [lxclock_mutex_fails E l timeout hm] at h
    cases h
    exact (contra [Action.pthread_mutex_lock] (by decide) rfl).elim
  refine ⟨hm, ?_⟩
  have fin : ∀ (bl : Blocking) (l2 : lxc_lock) (mid : List Action) (b : Action),
      (∀ x ∈ mid, x.is_blocking = false) → mid.head? = some Action.pthread_mutex_lock →
      Action.pthread_mutex_unlock ∉ mid → r = lxclock_out bl l2 (mid ++ [b]) →
      pre.head? = some Action.pthread_mutex_lock ∧ Action.pthread_mutex_unlock ∉ pre ∧
      (post = [Action.pthread_mutex_unlock] ∧ r.ret ≠ none ∨ post = [] ∧ r.ret = none) := by
    intro bl l2 mid b hmid hhead hun e
    subst e
    have s := lxclock_out_split bl l2 mid pre post a b hmid ha hd
    rw [s.1]
    exact ⟨hhead, hun, s.2.2⟩
  cases l with
  | LXC_LOCK_ANON_SEM sem =>
    by_cases ht : timeout = 0
    · subst ht
      cases sem with
      | none =>
        rw [lxclock_sem_null E 0 hm (Or.inl rfl)] at h
        cases h
      | some n =>
        rw [lxclock_sem_wait E n hm] at h
        exact fin _ _ [Action.pthread_mutex_lock] Action.sem_wait (by decide) rfl (by decide)
          (Option.some.inj h).symm
    · cases hc : E.clock_gettime_fails with
      | true =>
        rw [lxclock_sem_clock E sem timeout hm ht hc] at h
        cases h
        exact (contra [Action.pthread_mutex_lock, Action.clock_gettime,
          Action.pthread_mutex_unlock] (by decide) rfl).elim
      | false =>
        cases sem with
        | none =>
          rw [lxclock_sem_null E timeout hm (Or.inr hc)] at h
          cases h
        | some n =>
          rw [lxclock_sem_timedwait E n timeout hm ht hc] at h
          exact fin _ _ [Action.pthread_mutex_lock, Action.clock_gettime]
            Action.sem_timedwait (by decide) rfl (by decide) (Option.some.inj h).symm
  | LXC_LOCK_FLOCK fname fd =>
    by_cases ht : timeout = 0
    · subst ht
      cases fname with
      | none =>
        rw [lxclock_flock_noname E fd hm] at h
        cases h
        exact (contra [Action.pthread_mutex_lock, Action.pthread_mutex_unlock]
          (by decide) rfl).elim
      | some f =>
        have hopen : ∀ x ∈ [Action.pthread_mutex_lock, Action.sys_open f],
            x.is_blocking = false := by
          intro x hx
          simp only [List.mem_cons, List.mem_singleton, List.not_mem_nil, or_false] at hx
          rcases hx with hx | hx <;> rw [hx] <;> rfl
        by_cases hfd : fd = -1
        · subst hfd
          cases ho : E.sys_open f with
          | none =>
            rw [lxclock_flock_open_fails E f hm ho] at h
            cases h
            refine (contra _ ?_ rfl).elim
            intro x hx
            simp only [List.mem_cons, List.mem_singleton, List.not_mem_nil, or_false] at hx
            rcases hx with hx | hx | hx <;> rw [hx] <;> rfl
          | some d =>
            rw [lxclock_flock_open E f d hm ho] at h
            exact fin _ _ [Action.pthread_mutex_lock, Action.sys_open f] (Action.flock_ex d)
              hopen rfl (by simp) (Option.some.inj h).symm
        · rw [lxclock_flock_held E f fd hm hfd] at h
          exact fin _ _ [Action.pthread_mutex_lock] (Action.flock_ex fd) (by decide) rfl
            (by decide) (Option.some.inj h).symm
    · rw [lxclock_flock_timeout E fname fd timeout hm ht] at h
      cases h
      exact (contra [Action.pthread_mutex_lock, Action.pthread_mutex_unlock]
        (by decide) rfl).elim

/-- Witness for `lxclock_blocking_holds_mutex`: the acquire of the file lock of
container c1, split at its flock(LOCK_EX). -/
theorem lxclock_blocking_holds_mutex_witness :
    lxclock LockEnv.ok (lxc_lock.LXC_LOCK_FLOCK (some "/var/lib/lxc/locks/c1".toList) (-1)) 0 =
        some ⟨some 0, lxc_lock.LXC_LOCK_FLOCK (some "/var/lib/lxc/locks/c1".toList) 3,
          [Action.pthread_mutex_lock, Action.sys_open "/var/lib/lxc/locks/c1".toList,
            Action.flock_ex 3, Action.pthread_mutex_unlock]⟩ ∧
      (Action.flock_ex 3).is_blocking = true ∧
      (LockEnv.ok.pthread_mutex_lock = 0 ∧
        [Action.pthread_mutex_lock, Action.sys_open "/var/lib/lxc/locks/c1".toList].head? =
          some Action.pthread_mutex_lock ∧
        Action.pthread_mutex_unlock ∉
          [Action.pthread_mutex_lock, Action.sys_open "/var/lib/lxc/locks/c1".toList] ∧
        ([Action.pthread_mutex_unlock] = [Action.pthread_mutex_unlock] ∧
            (some 0 : Option Int) ≠ none ∨
          [Action.pthread_mutex_unlock] = ([] : List Action) ∧ (some 0 : Option Int) = none)) :=
  ⟨by decide, rfl,
    lxclock_blocking_holds_mutex LockEnv.ok
      (lxc_lock.LXC_LOCK_FLOCK (some "/var/lib/lxc/locks/c1".toList) (-1)) 0
      ⟨some 0, lxc_lock.LXC_LOCK_FLOCK (some "/var/lib/lxc/locks/c1".toList) 3,
        [Action.pthread_mutex_lock, Action.sys_open "/var/lib/lxc/locks/c1".toList,
          Action.flock_ex 3, Action.pthread_mutex_unlock]⟩
      [Action.pthread_mutex_lock, Action.sys_open "/var/lib/lxc/locks/c1".toList]
      [Action.pthread_mutex_unlock] (Action.flock_ex 3) (by decide) rfl rfl⟩

/-! ## loop create -/

theorem do_loop_create_file_fst (env : Env) (path : CStr) (size : Nat) (fstype : CStr) :
    (do_loop_create_file env path size fstype).1 = do_loop_create env path size fstype := by
  unfold do_loop_create_file do_loop_create
  simp only []
  split_ifs <;> rfl

theorem do_loop_create_file_ok (env : Env) (path : CStr) (size : Nat) (fstype : CStr)
    (h : do_loop_create env path size fstype = 0) :
    do_loop_create_file env path size fstype = (0, some (path, ⟨size + 1, size + 1⟩)) := by
  unfold do_loop_create at h
  unfold do_loop_create_file
  simp only [] at h ⊢
  split_ifs at h ⊢
  simp [posix_write, posix_lseek_set, posix_creat]

theorem loop_srcdev_length (dest : CStr) (hlen : 2 ≤ dest.length) :
    (dest.take (dest.length - 2) ++ "dev".toList).length = dest.length + 1 := by
  have a : "dev".toList.length = 3 := rfl
  rw [List.length_append, List.length_take, a]
  omega

theorem loop_create_some (env : Env) (b : bdev) (dest n : CStr) (sp : bdev_specs)
    (hlen : 2 ≤ dest.length) :
    loop_create env b dest n (some sp) =
      some (if env.mkdir_p (some dest) < 0 then -1
            else do_loop_create env (dest.take (dest.length - 2) ++ "dev".toList)
              (if sp.fssize = 0 then DEFAULT_FS_SIZE else sp.fssize)
              (sp.fstype.getD DEFAULT_FSTYPE),
        { b with
          src := some ("loop:".toList ++ (dest.take (dest.length - 2) ++ "dev".toList))
          dest := some dest }) := by
  have h1 : dest.length < dest.length + 2 := by omega
  have h4 : ¬ dest.length + 2 < 4 := by omega
  have e : dest.length + 2 - 4 = dest.length - 2 := by omega
  have a : "loop:".toList.length = 5 := rfl
  have h2 : ("loop:".toList ++ (dest.take (dest.length - 2) ++ "dev".toList)).length <
      dest.length + 2 + 5 := by
    rw [List.length_append, loop_srcdev_length dest hlen, a]
    omega
  unfold loop_create
  simp only []
  rw [if_neg (snprintf_ok _ _ h1), if_neg h4, snprintf_fits _ _ h1, e,
    if_neg (snprintf_ok _ _ h2), snprintf_fits _ _ h2]
  cases sp.fstype <;> split_ifs <;> rfl

theorem rootdev_of_rootfs (lxcpath name : CStr) :
    (lxcpath ++ "/".toList ++ name ++ "/rootfs".toList).take
        ((lxcpath ++ "/".toList ++ name ++ "/rootfs".toList).length - 2) ++ "dev".toList =
      lxcpath ++ "/".toList ++ name ++ "/rootdev".toList := by
  have e1 : "/rootfs".toList = "/root".toList ++ "fs".toList := rfl
  have e2 : "/rootdev".toList = "/root".toList ++ "dev".toList := rfl
  have a : "fs".toList.length = 2 := rfl
  rw [e1, e2, ← List.append_assoc, ← List.append_assoc (lxcpath ++ "/".toList ++ name)]
  rw [List.take_left']
  rw [List.length_append _ "fs".toList, a]
  omega

theorem rootfs_length_ge (lxcpath name : CStr) :
    2 ≤ (lxcpath ++ "/".toList ++ name ++ "/rootfs".toList).length := by
  have a : "/rootfs".toList.length = 7 := rfl
  rw [List.length_append _ "/rootfs".toList, a]
  omega

/-- C21: for the destination `<lxcpath>/<name>/rootfs` and creation data that
are not NULL, `loop_create` returns, and when it returns 0 the destination of
the handle is that path, its source is `loop:<lxcpath>/<name>/rootdev`, and the
file made by `do_loop_create` is `<lxcpath>/<name>/rootdev`; with NULL creation
data it returns -1.  The destination `/var/lib/lxc/c1/rootfs` gives the source
`loop:/var/lib/lxc/c1/rootdev`. -/
theorem loop_create_paths (env : Env) (b : bdev) (lxcpath name n : CStr) (sp : bdev_specs) :
    (∃ r, loop_create env b (lxcpath ++ "/".toList ++ name ++ "/rootfs".toList) n (some sp) =
          some r ∧
        (r.1 = 0 →
          r.2.dest = some (lxcpath ++ "/".toList ++ name ++ "/rootfs".toList) ∧
          r.2.src = some ("loop:".toList ++ (lxcpath ++ "/".toList ++ name ++
            "/rootdev".toList)) ∧
          ∃ f, do_loop_create_file env (lxcpath ++ "/".toList ++ name ++ "/rootdev".toList)
              (if sp.fssize = 0 then DEFAULT_FS_SIZE else sp.fssize)
              (sp.fstype.getD DEFAULT_FSTYPE) =
            (0, some (lxcpath ++ "/".toList ++ name ++ "/rootdev".toList, f)))) ∧
      loop_create env b (lxcpath ++ "/".toList ++ name ++ "/rootfs".toList) n none =
        some (-1, b) ∧
      (loop_create Env.quiet (fresh_bdev .loop_ops "loop".toList)
          "/var/lib/lxc/c1/rootfs".toList "c1".toList (some specs_ext4_1g)).map
          (fun r => (r.1, r.2.src, r.2.dest)) =
        some (0, some "loop:/var/lib/lxc/c1/rootdev".toList,
          some "/var/lib/lxc/c1/rootfs".toList) := by
  refine ⟨⟨_, loop_create_some env b _ n sp (rootfs_length_ge lxcpath name), ?_⟩, rfl,
    by decide⟩
  intro h
  rw [rootdev_of_rootfs] at h ⊢
  refine ⟨rfl, rfl, ?_⟩
  by_cases hm : env.mkdir_p (some (lxcpath ++ "/".toList ++ name ++ "/rootfs".toList)) < 0
  · simp only [hm, if_true] at h
    exact absurd h (by decide)
  · simp only [hm, if_false] at h
    exact ⟨_, do_loop_create_file_ok env _ _ _ h⟩

/-- C22, evaluated: on a host where every call succeeds, `loop_create` with
fssize 2^30 hands that size to `do_loop_create`, which seeks to offset 2^30 and
writes one byte there, and the file is 2^30 + 1 bytes long, one byte more than
the size asked for. -/
theorem do_loop_create_one_byte_more :
    loop_create Env.quiet (fresh_bdev .loop_ops "loop".toList)
        "/var/lib/lxc/c1/rootfs".toList "c1".toList (some specs_ext4_1g) =
        some (do_loop_create Env.quiet "/var/lib/lxc/c1/rootdev".toList 1073741824
            "ext4".toList,
          { fresh_bdev .loop_ops "loop".toList with
            src := some "loop:/var/lib/lxc/c1/rootdev".toList
            dest := some "/var/lib/lxc/c1/rootfs".toList }) ∧
      do_loop_create_file Env.quiet "/var/lib/lxc/c1/rootdev".toList 1073741824
          "ext4".toList =
        (0, some ("/var/lib/lxc/c1/rootdev".toList, ⟨1073741825, 1073741825⟩)) ∧
      (1073741825 : Nat) ≠ 2 ^ 30 := by
  decide

/-- The extra byte is there for every size: for every fssize > 0, when
`loop_create` returns 0 the file written by `do_loop_create` (create the file,
seek to offset fssize, write a single byte) is fssize + 1 bytes long. -/
theorem loop_create_file_length (env : Env) (b : bdev) (dest n : CStr) (sp : bdev_specs)
    (r : Int × bdev) (hlen : 2 ≤ dest.length) (hsz : 0 < sp.fssize)
    (h : loop_create env b dest n (some sp) = some r) (hok : r.1 = 0) :
    ∃ f, do_loop_create_file env (dest.take (dest.length - 2) ++ "dev".toList) sp.fssize
          (sp.fstype.getD DEFAULT_FSTYPE) =
        (0, some (dest.take (dest.length - 2) ++ "dev".toList, f)) ∧
      f.length = sp.fssize + 1 := by
  rw [loop_create_some env b dest n sp hlen] at h
  have hne : ¬ sp.fssize = 0 := by omega
  simp only [hne, if_false, Option.some.injEq] at h
  subst h
  by_cases hm : env.mkdir_p (some dest) < 0
  · simp only [hm, if_true] at hok
    exact absurd hok (by decide)
  · simp only [hm, if_false] at hok
    exact ⟨_, do_loop_create_file_ok env _ _ _ hok, rfl⟩

/-- Witness for `loop_create_file_length`: container c1 with fssize 2^30 on a
host where every call succeeds. -/
theorem loop_create_file_length_witness :
    2 ≤ "/var/lib/lxc/c1/rootfs".toList.length ∧ 0 < specs_ext4_1g.fssize ∧
      ∃ f, do_loop_create_file Env.quiet
            ("/var/lib/lxc/c1/rootfs".toList.take ("/var/lib/lxc/c1/rootfs".toList.length - 2) ++
              "dev".toList) specs_ext4_1g.fssize (specs_ext4_1g.fstype.getD DEFAULT_FSTYPE) =
          (0, some ("/var/lib/lxc/c1/rootfs".toList.take
            ("/var/lib/lxc/c1/rootfs".toList.length - 2) ++ "dev".toList, f)) ∧
        f.length = specs_ext4_1g.fssize + 1 :=
  ⟨by decide, by decide,
    loop_create_file_length Env.quiet (fresh_bdev .loop_ops "loop".toList)
      "/var/lib/lxc/c1/rootfs".toList "c1".toList specs_ext4_1g
      (0, { fresh_bdev .loop_ops "loop".toList with
        src := some "loop:/var/lib/lxc/c1/rootdev".toList
        dest := some "/var/lib/lxc/c1/rootfs".toList })
      (by decide) (by decide) (by decide) rfl⟩

/-! ## loop descriptor -/

theorem find_free_loopdev_scan_ge (env : Env) (hopenat : ∀ d, -1 ≤ env.openat_dev d)
    (l : List CStr) : ∀ fd : Int, -1 ≤ fd → -1 ≤ (find_free_loopdev_scan env fd l).1 := by
  induction l with
  | nil =>
    intro fd h
    exact h
  | cons d rest ih =>
    intro fd h
    unfold find_free_loopdev_scan
    simp only []
    split_ifs
    · exact ih fd h
    · exact ih _ (hopenat d)
    · exact ih _ (by decide)
    · exact hopenat d

theorem find_free_loopdev_fd_nonneg (env : Env) (hopen : ∀ p, -1 ≤ env.open_rdwr p)
    (hopenat : ∀ d, -1 ≤ env.openat_dev d) (h : ¬ (find_free_loopdev env).1 < 0) :
    0 ≤ (find_free_loopdev env).2.1 := by
  unfold find_free_loopdev at h ⊢
  simp only [] at h ⊢
  by_cases hc : env.open_rdwr "/dev/loop-control".toList < 0
  · simp only [hc, if_true] at h ⊢
    unfold find_free_loopdev_no_control at h ⊢
    cases he : env.dev_entries with
    | none =>
      simp only [he] at h
      exact absurd (show (-1 : Int) < 0 by decide) h
    | some entries =>
      simp only [he] at h ⊢
      have hge := find_free_loopdev_scan_ge env hopenat entries (-1) (le_refl _)
      by_cases h1 : (find_free_loopdev_scan env (-1) entries).1 = -1
      · simp only [h1, if_true] at h
        exact absurd (show (-1 : Int) < 0 by decide) h
      · simp only [h1, if_false]
        omega
  · simp only [hc, if_false] at h ⊢
    by_cases hrc : env.loop_ctl_get_free (env.open_rdwr "/dev/loop-control".toList) ≥ 0
    · simp only [hrc, if_true] at h ⊢
      split_ifs at h ⊢ with h1
      · exact absurd (show (-1 : Int) < 0 by decide) h
      · have := hopen (snprintf 100 ("/dev/loop".toList ++
          fmt_d (env.loop_ctl_get_free (env.open_rdwr "/dev/loop-control".toList)))).2
        simp only []
        omega
    · simp only [hrc, if_false, if_true] at h
      exact absurd (show (-1 : Int) < 0 by decide) h

theorem loop_mount_lofd (env : Env) (b : bdev) (s d : CStr)
    (ht : strcmp_eq b.type "loop".toList = true) (hs : b.src = some s)
    (hd : b.dest = some d) (hf : ¬ (find_free_loopdev env).1 < 0) :
    ((loop_mount env b).ret < 0 → (loop_mount env b).bdev = { b with lofd := -1 }) ∧
      (0 ≤ (loop_mount env b).ret →
        (loop_mount env b).bdev = { b with lofd := (find_free_loopdev env).2.1 } ∧
        (loop_mount env b).calls =
          [SysCall.find_free_loopdev, SysCall.open_rdwr (s.drop 5),
            SysCall.ioctl_loop_set_fd (find_free_loopdev env).2.1 (env.open_rdwr (s.drop 5)),
            SysCall.ioctl_loop_set_status (find_free_loopdev env).2.1,
            SysCall.mount_unknown_fs (find_free_loopdev env).2.2 d,
            SysCall.close (env.open_rdwr (s.drop 5))]) := by
  obtain ⟨ops, type, src, dest, mntopts, lofd, nbd_idx⟩ := b
  simp only [] at ht hs hd
  subst hs hd
  unfold loop_mount
  simp only [ht, hf, Bool.not_true, Bool.false_eq_true, if_false]
  split_ifs with h1 h2 h3 h4
  · exact ⟨fun _ => rfl, fun h => absurd (show (0 : Int) ≤ -1 from h) (by decide)⟩
  · exact ⟨fun _ => rfl, fun h => absurd (show (0 : Int) ≤ -1 from h) (by decide)⟩
  · exact ⟨fun _ => rfl, fun h => absurd (show (0 : Int) ≤ -1 from h) (by decide)⟩
  · exact ⟨fun _ => rfl, fun h => absurd h4 (not_lt.mpr h)⟩
  · exact ⟨fun h => absurd h h4, fun _ => ⟨rfl, rfl⟩⟩

theorem loop_umount_good (env : Env) (b : bdev) (s d : CStr)
    (ht : strcmp_eq b.type "loop".toList = true) (hs : b.src = some s)
    (hd : b.dest = some d) :
    (0 ≤ b.lofd → loop_umount env b =
        ⟨sys_ret (env.sys_umount d), { b with lofd := -1 },
          [SysCall.umount d, SysCall.close b.lofd]⟩) ∧
      (b.lofd < 0 → loop_umount env b = ⟨sys_ret (env.sys_umount d), b, [SysCall.umount d]⟩) := by
  obtain ⟨ops, type, src, dest, mntopts, lofd, nbd_idx⟩ := b
  simp only [] at ht hs hd
  subst hs hd
  unfold loop_umount
  simp only [ht, Bool.not_true, Bool.false_eq_true, if_false]
  constructor
  · intro h
    simp only [ge_iff_le, h, if_true]
  · intro h
    have h2 : ¬ lofd ≥ 0 := not_le.mpr h
    simp only [h2, if_false]

theorem bdev_get_lofd (type : CStr) (h : bdev) (hg : bdev_get type = some h) : h.lofd = 0 := by
  unfold bdev_get at hg
  cases hf : bdevs.find? (fun b => strcmp_eq b.name type) with
  | none =>
    rw [hf] at hg
    cases hg
  | some e =>
    rw [hf] at hg
    cases hg
    rfl

theorem bdev_init_lofd (env : Env) (conf : lxc_conf) (src dst mntopts : Option CStr)
    (h : bdev) (hi : bdev_init env conf src dst mntopts = some h) : h.lofd = 0 := by
  unfold bdev_init at hi
  simp only [] at hi
  split at hi
  · cases hi
  · split at hi
    · cases hi
    · cases hi
      rfl

/-- C23, evaluated: the handles that `bdev_get` and `bdev_init` return have
loop descriptor 0, not a negative one, although no loop device is attached; a
`loop_mount` that fails for want of a free loop device leaves that 0 in place;
and `loop_umount` of such a handle, whose guard `lofd >= 0` stands for an
attached device, closes descriptor 0. -/
theorem fresh_handle_loop_fd_zero :
    (bdev_get "loop".toList).map (fun h => h.lofd) = some 0 ∧
      loop_img_init = some loop_img ∧ loop_img.lofd = 0 ∧
      loop_mount Env.no_loopdev loop_img = ⟨-22, loop_img, [SysCall.find_free_loopdev]⟩ ∧
      loop_umount Env.quiet loop_img =
        ⟨0, { loop_img with lofd := -1 },
          [SysCall.umount "/mnt".toList, SysCall.close 0]⟩ := by
  decide

/-- What the four functions do to the loop descriptor, on a host whose `open`
returns -1 or a descriptor: a handle
fresh from `bdev_get` or `bdev_init` has loop descriptor 0; a `loop_mount` that
returns -22 leaves the handle as it was; a `loop_mount` that fails with another
code sets the loop descriptor to -1; a successful `loop_mount` has attached the
backing file to a loop device and stores the descriptor of that device, which
is not negative; `loop_umount` of a well-shaped handle leaves a negative loop
descriptor, -1 when it was not negative before, and `loop_umount` of any other
handle leaves the handle as it was. -/
theorem loop_fd_transitions (env : Env) (b : bdev) (hopen : ∀ p, -1 ≤ env.open_rdwr p)
    (hopenat : ∀ d, -1 ≤ env.openat_dev d) :
    (∀ type h, bdev_get type = some h → h.lofd = 0) ∧
      (∀ conf src dst mntopts h, bdev_init env conf src dst mntopts = some h → h.lofd = 0) ∧
      ((loop_mount env b).ret = -22 → (loop_mount env b).bdev = b) ∧
      ((loop_mount env b).ret < 0 → (loop_mount env b).ret ≠ -22 →
        (loop_mount env b).bdev.lofd = -1) ∧
      (0 ≤ (loop_mount env b).ret →
        0 ≤ (loop_mount env b).bdev.lofd ∧
        (loop_mount env b).bdev.lofd = (find_free_loopdev env).2.1 ∧
        (∃ ffd, SysCall.ioctl_loop_set_fd (loop_mount env b).bdev.lofd ffd ∈
          (loop_mount env b).calls)) ∧
      (b.type = "loop".toList → b.src ≠ none → b.dest ≠ none →
        (loop_umount env b).bdev.lofd < 0 ∧
        (0 ≤ b.lofd → (loop_umount env b).bdev.lofd = -1)) ∧
      ((b.type ≠ "loop".toList ∨ b.src = none ∨ b.dest = none) →
        (loop_umount env b).bdev = b) := by
  refine ⟨bdev_get_lofd, bdev_init_lofd env, ?_, ?_, ?_, ?_, ?_⟩
  · intro h22
    by_cases hshape : b.type ≠ "loop".toList ∨ b.src = none ∨ b.dest = none
    · rw [loop_mount_bad env b (bad_shape_cases _ b hshape)]
    · simp only [not_or, ne_eq, not_not] at hshape
      obtain ⟨ht, hs, hd⟩ := hshape
      obtain ⟨s, hs⟩ := Option.ne_none_iff_exists'.mp hs
      obtain ⟨d, hd⟩ := Option.ne_none_iff_exists'.mp hd
      have ht2 : strcmp_eq b.type "loop".toList = true := by simpa [strcmp_eq] using ht
      have hf := ((loop_mount_good env b s d ht2 hs hd).1).mp h22
      unfold loop_mount
      simp only [ht2, hs, hd, hf, Bool.not_true, Bool.false_eq_true, if_false, if_true]
  · intro hneg hne
    by_cases hshape : b.type ≠ "loop".toList ∨ b.src = none ∨ b.dest = none
    · rw [loop_mount_bad env b (bad_shape_cases _ b hshape)] at hne
      exact absurd rfl hne
    · simp only [not_or, ne_eq, not_not] at hshape
      obtain ⟨ht, hs, hd⟩ := hshape
      obtain ⟨s, hs⟩ := Option.ne_none_iff_exists'.mp hs
      obtain ⟨d, hd⟩ := Option.ne_none_iff_exists'.mp hd
      have ht2 : strcmp_eq b.type "loop".toList = true := by simpa [strcmp_eq] using ht
      have hf : ¬ (find_free_loopdev env).1 < 0 :=
        fun hf => hne (((loop_mount_good env b s d ht2 hs hd).1).mpr hf)
      rw [(loop_mount_lofd env b s d ht2 hs hd hf).1 hneg]
  · intro hok
    by_cases hshape : b.type ≠ "loop".toList ∨ b.src = none ∨ b.dest = none
    · rw [loop_mount_bad env b (bad_shape_cases _ b hshape)] at hok
      exact absurd (show (0 : Int) ≤ -22 from hok) (by decide)
    · simp only [not_or, ne_eq, not_not] at hshape
      obtain ⟨ht, hs, hd⟩ := hshape
      obtain ⟨s, hs⟩ := Option.ne_none_iff_exists'.mp hs
      obtain ⟨d, hd⟩ := Option.ne_none_iff_exists'.mp hd
      have ht2 : strcmp_eq b.type "loop".toList = true := by simpa [strcmp_eq] using ht
      have hf : ¬ (find_free_loopdev env).1 < 0 := by
        intro hf
        rw [((loop_mount_good env b s d ht2 hs hd).1).mpr hf] at hok
        exact absurd hok (by decide)
      obtain ⟨hb, hc⟩ := (loop_mount_lofd env b s d ht2 hs hd hf).2 hok
      rw [hb, hc]
      exact ⟨find_free_loopdev_fd_nonneg env hopen hopenat hf, rfl,
        ⟨env.open_rdwr (s.drop 5), by simp⟩⟩
  · intro ht hs hd
    obtain ⟨s, hs⟩ := Option.ne_none_iff_exists'.mp hs
    obtain ⟨d, hd⟩ := Option.ne_none_iff_exists'.mp hd
    have ht2 : strcmp_eq b.type "loop".toList = true := by simpa [strcmp_eq] using ht
    have hu := loop_umount_good env b s d ht2 hs hd
    by_cases hl : 0 ≤ b.lofd
    · rw [hu.1 hl]
      exact ⟨show (-1 : Int) < 0 by decide, fun _ => rfl⟩
    · rw [hu.2 (not_le.mp hl)]
      exact ⟨not_le.mp hl, fun h => absurd h hl⟩
  · intro hshape
    rw [loop_umount_bad env b (bad_shape_cases _ b hshape)]

/-- Witness for `loop_fd_transitions`: the handle for `loop:/img` on a host
where every call succeeds. -/
theorem loop_fd_transitions_witness :
    (∀ p, -1 ≤ Env.quiet.open_rdwr p) ∧ (∀ d, -1 ≤ Env.quiet.openat_dev d) ∧
      (0 ≤ (loop_mount Env.quiet loop_img).ret →
        0 ≤ (loop_mount Env.quiet loop_img).bdev.lofd ∧
        (loop_mount Env.quiet loop_img).bdev.lofd = (find_free_loopdev Env.quiet).2.1 ∧
        (∃ ffd, SysCall.ioctl_loop_set_fd (loop_mount Env.quiet loop_img).bdev.lofd ffd ∈
          (loop_mount Env.quiet loop_img).calls)) ∧
      (loop_mount Env.quiet loop_img).ret = 0 ∧
      (loop_mount Env.quiet loop_img).bdev.lofd = 5 :=
  ⟨fun _ => show (-1 : Int) ≤ 5 by decide, fun _ => show (-1 : Int) ≤ 6 by decide,
    (loop_fd_transitions Env.quiet loop_img (fun _ => show (-1 : Int) ≤ 5 by decide)
      (fun _ => show (-1 : Int) ≤ 6 by decide)).2.2.2.2.1,
    by decide, by decide⟩

/-! ## bdev_get, detectors, argument check -/

theorem bdev_get_of_mem (type : CStr) (h : type ∈ registered_names) :
    ∃ e, e ∈ bdevs ∧ e.name = type ∧
      bdev_get type = some (⟨e.ops, e.name, none, none, none, 0, 0⟩ : bdev) := by
  simp only [registered_names, List.mem_cons, List.mem_singleton, List.not_mem_nil,
    or_false] at h
  rcases h with h | h | h | h | h | h | h | h | h <;> subst h
  · exact ⟨⟨"zfs".toList, .zfs_ops⟩, by decide, rfl, by decide⟩
  · exact ⟨⟨"lvm".toList, .lvm_ops⟩, by decide, rfl, by decide⟩
  · exact ⟨⟨"rbd".toList, .rbd_ops⟩, by decide, rfl, by decide⟩
  · exact ⟨⟨"btrfs".toList, .btrfs_ops⟩, by decide, rfl, by decide⟩
  · exact ⟨⟨"dir".toList, .dir_ops⟩, by decide, rfl, by decide⟩
  · exact ⟨⟨"aufs".toList, .aufs_ops⟩, by decide, rfl, by decide⟩
  · exact ⟨⟨"overlayfs".toList, .ovl_ops⟩, by decide, rfl, by decide⟩
  · exact ⟨⟨"loop".toList, .loop_ops⟩, by decide, rfl, by decide⟩
  · exact ⟨⟨"nbd".toList, .nbd_ops⟩, by decide, rfl, by decide⟩

/-- C24: `bdev_get` returns a handle exactly for the nine registered names
zfs, lvm, rbd, btrfs, dir, aufs, overlayfs, loop and nbd; the handle carries
that name and the operation table registered under it, its source, destination
and mount options are NULL and its loop descriptor and nbd index are 0; for
every other name the result is NULL. -/
theorem bdev_get_registered (type : CStr) :
    ((bdev_get type).isSome = true ↔ type ∈ registered_names) ∧
      (∀ h, bdev_get type = some h →
        h.type = type ∧ (⟨type, h.ops⟩ : bdev_type) ∈ bdevs ∧ h.src = none ∧ h.dest = none ∧
          h.mntopts = none ∧ h.lofd = 0 ∧ h.nbd_idx = 0) ∧
      (type ∉ registered_names → bdev_get type = none) ∧
      registered_names = bdevs.map (fun e => e.name) := by
  refine ⟨⟨?_, ?_⟩, ?_, ?_, by decide⟩
  · intro h
    obtain ⟨b, hb⟩ := Option.isSome_iff_exists.mp h
    exact bdev_get_some_mem type b hb
  · intro h
    obtain ⟨e, _, _, hg⟩ := bdev_get_of_mem type h
    rw [hg]
    rfl
  · intro h hg
    obtain ⟨e, hm, hn, hge⟩ := bdev_get_of_mem type (bdev_get_some_mem type h hg)
    rw [hge] at hg
    cases hg
    subst hn
    exact ⟨rfl, hm, rfl, rfl, rfl, rfl, rfl⟩
  · intro h
    cases hg : bdev_get type with
    | none => rfl
    | some b => exact absurd (bdev_get_some_mem type b hg) h

/-- C25: `loop_detect`, `nbd_detect` and `rbd_detect` are functions of the
source string alone and answer 1 exactly when it starts with `loop:`, `nbd:`
and `/dev/rbd/`, otherwise 0; `dir_detect` answers 1 exactly when the source
starts with `dir:` or `is_dir` holds of it, otherwise 0. -/
theorem detect_prefix_tags (env : Env) (s : CStr) :
    (loop_detect s = (if "loop:".toList <+: s then 1 else 0)) ∧
      (nbd_detect s = (if "nbd:".toList <+: s then 1 else 0)) ∧
      (rbd_detect s = (if "/dev/rbd/".toList <+: s then 1 else 0)) ∧
      (dir_detect env s = (if "dir:".toList <+: s ∨ env.is_dir s = true then 1 else 0)) ∧
      (detect env .loop_ops s ≠ 0 ↔ "loop:".toList <+: s) ∧
      (detect env .nbd_ops s ≠ 0 ↔ "nbd:".toList <+: s) ∧
      (detect env .rbd_ops s ≠ 0 ↔ "/dev/rbd/".toList <+: s) ∧
      (detect env .dir_ops s ≠ 0 ↔ ("dir:".toList <+: s ∨ env.is_dir s = true)) := by
  have hl := strncmp_eq_iff s "loop:".toList
  have hn := strncmp_eq_iff s "nbd:".toList
  have hr := strncmp_eq_iff s "/dev/rbd/".toList
  have hd := strncmp_eq_iff s "dir:".toList
  have e5 : "loop:".toList.length = 5 := rfl
  have e4 : "nbd:".toList.length = 4 := rfl
  have e9 : "/dev/rbd/".toList.length = 9 := rfl
  have e4d : "dir:".toList.length = 4 := rfl
  rw [e5] at hl
  rw [e4] at hn
  rw [e9] at hr
  rw [e4d] at hd
  have c1 : loop_detect s = (if "loop:".toList <+: s then 1 else 0) := by
    unfold loop_detect
    by_cases h : "loop:".toList <+: s
    · rw [if_pos h, if_pos (hl.mpr h)]
    · rw [if_neg h, if_neg (fun x => h (hl.mp x))]
  have c2 : nbd_detect s = (if "nbd:".toList <+: s then 1 else 0) := by
    unfold nbd_detect
    by_cases h : "nbd:".toList <+: s
    · rw [if_pos h, if_pos (hn.mpr h)]
    · rw [if_neg h, if_neg (fun x => h (hn.mp x))]
  have c3 : rbd_detect s = (if "/dev/rbd/".toList <+: s then 1 else 0) := by
    unfold rbd_detect
    by_cases h : "/dev/rbd/".toList <+: s
    · rw [if_pos h, if_pos (hr.mpr h)]
    · rw [if_neg h, if_neg (fun x => h (hr.mp x))]
  have c4 : dir_detect env s =
      (if "dir:".toList <+: s ∨ env.is_dir s = true then 1 else 0) := by
    unfold dir_detect
    by_cases h : "dir:".toList <+: s
    · rw [if_pos (Or.inl h), if_pos (hd.mpr h)]
    · rw [if_neg (fun x => h (hd.mp x))]
      by_cases h2 : env.is_dir s = true
      · rw [if_pos h2, if_pos (Or.inr h2)]
      · rw [if_neg h2, if_neg (fun x => x.elim h h2)]
  refine ⟨c1, c2, c3, c4, ?_, ?_, ?_, ?_⟩
  · show loop_detect s ≠ 0 ↔ _
    rw [c1]
    split_ifs with h
    · exact ⟨fun _ => h, fun _ => by decide⟩
    · exact ⟨fun x => absurd rfl x, fun x => absurd x h⟩
  · show nbd_detect s ≠ 0 ↔ _
    rw [c2]
    split_ifs with h
    · exact ⟨fun _ => h, fun _ => by decide⟩
    · exact ⟨fun x => absurd rfl x, fun x => absurd x h⟩
  · show rbd_detect s ≠ 0 ↔ _
    rw [c3]
    split_ifs with h
    · exact ⟨fun _ => h, fun _ => by decide⟩
    · exact ⟨fun x => absurd rfl x, fun x => absurd x h⟩
  · show dir_detect env s ≠ 0 ↔ _
    rw [c4]
    split_ifs with h
    · simp only [ne_eq, one_ne_zero, not_false_eq_true, true_iff]
      exact h
    · simp only [ne_eq, not_true_eq_false, false_iff]
      exact h

/-- C26: `validate_bdev_args` accepts exactly when (the type is lvm, or none
of fstype, fssize, lvname and vgname is given) and (the type is zfs, or zfsroot
is not given), a fssize of 0 counting as not given; the size text `0` parses
to 0 and is accepted with the type dir. -/
theorem validate_bdev_args_iff (a : lxc_arguments) :
    (validate_bdev_args a = true ↔
        ((a.bdevtype = "lvm".toList ∨
            (a.fstype = none ∧ a.fssize = 0 ∧ a.lvname = none ∧ a.vgname = none)) ∧
          (a.bdevtype = "zfs".toList ∨ a.zfsroot = none))) ∧
      validate_bdev_args
        { bdevtype := "dir".toList, fstype := none, fssize := get_fssize "0".toList,
          lvname := none, vgname := none, zfsroot := none } = true := by
  refine ⟨?_, by decide⟩
  obtain ⟨bdevtype, fstype, fssize, lvname, vgname, zfsroot⟩ := a
  unfold validate_bdev_args strcmp_eq
  simp only []
  by_cases hl : bdevtype = "lvm".toList <;> by_cases hz : bdevtype = "zfs".toList <;>
    cases fstype <;> cases lvname <;> cases vgname <;> cases zfsroot <;>
    by_cases hs : fssize = 0 <;> simp [hl, hz, hs]

/-! ## dir_new_path: termination and buffer size -/

theorem count_occurrences_skip (old : CStr) (skip : Nat) (l : CStr) :
    count_occurrences old skip l = count_occurrences old 0 (l.drop skip) := by
  induction l generalizing skip with
  | nil => cases skip <;> simp [count_occurrences]
  | cons c t ih =>
    cases skip with
    | zero => simp
    | succ s => simpa [count_occurrences] using ih s

theorem count_occurrences_none (old : CStr) (l : CStr) (h : strstr l old = none) :
    count_occurrences old 0 l = 0 := by
  induction l with
  | nil => simp [count_occurrences]
  | cons c t ih =>
    unfold strstr at h
    by_cases hp : old.isPrefixOf (c :: t) = true
    · simp [hp] at h
    · simp only [hp, Bool.false_eq_true, if_false, Option.map_eq_none'] at h
      simp [count_occurrences, hp, ih h]

theorem count_occurrences_some (old : CStr) (hne : old ≠ []) (l : CStr) (k : Nat)
    (h : strstr l old = some k) :
    count_occurrences old 0 l = 1 + count_occurrences old 0 (l.drop (k + old.length)) := by
  have hlen : 1 ≤ old.length := by
    cases old with
    | nil => exact absurd rfl hne
    | cons a t => simp
  induction l generalizing k with
  | nil => exact absurd (strstr_nil_some old k h) hne
  | cons c t ih =>
    unfold strstr at h
    by_cases hp : old.isPrefixOf (c :: t) = true
    · simp only [hp, if_true, Option.some.injEq] at h
      subst h
      simp only [count_occurrences, hp, if_true, Nat.zero_add]
      rw [count_occurrences_skip old (old.length - 1) t]
      obtain ⟨m, hm⟩ : ∃ m, old.length = m + 1 := ⟨old.length - 1, by omega⟩
      simp [hm]
    · simp only [hp, Bool.false_eq_true, if_false, Option.map_eq_some'] at h
      obtain ⟨k1, hk1, rfl⟩ := h
      have := ih k1 hk1
      simp only [count_occurrences, hp, Bool.false_eq_true, if_false, this]
      simp [Nat.add_right_comm k1 1 old.length]

theorem strstr_advance (p oldname : CStr) (hne : oldname ≠ []) (k : Nat)
    (h : strstr p oldname = some k) :
    k + oldname.length ≤ p.length ∧ (p.drop (k + oldname.length)).length < p.length := by
  have hlen : 1 ≤ oldname.length := by
    cases oldname with
    | nil => exact absurd rfl hne
    | cons a t => simp
  have hd := congrArg List.length (strstr_some_drop p oldname k h)
  rw [List.length_append, List.length_drop, List.length_drop] at hd
  rw [List.length_drop]
  omega

theorem strstr_nil_needle (p : CStr) : strstr p [] = some 0 := by
  cases p <;> simp [strstr]

theorem dir_new_path_count_nil (name : CStr) (fuel : Nat) (p : CStr) (nlen : Int) :
    dir_new_path_count [] name fuel p nlen = none := by
  induction fuel generalizing nlen with
  | zero => rfl
  | succ f ih =>
    unfold dir_new_path_count
    rw [strstr_nil_needle]
    simp only [List.length_nil, Nat.add_zero, List.drop_zero]
    exact ih _

theorem dir_new_path_copy_nil (name : CStr) (fuel : Nat) (src out : CStr) :
    dir_new_path_copy [] name fuel src out = none := by
  induction fuel generalizing out with
  | zero => rfl
  | succ f ih =>
    unfold dir_new_path_copy
    rw [strstr_nil_needle]
    simp only [List.length_nil, Nat.add_zero, List.drop_zero]
    exact ih _

theorem dir_new_path_count_eq (oldname name : CStr) (hne : oldname ≠ []) (fuel : Nat)
    (p : CStr) (nlen : Int) (hfuel : p.length < fuel) :
    dir_new_path_count oldname name fuel p nlen =
      some (nlen + (count_occurrences oldname 0 p : Int) *
        ((name.length : Int) - (oldname.length : Int))) := by
  induction fuel generalizing p nlen with
  | zero => omega
  | succ f ih =>
    unfold dir_new_path_count
    cases hs : strstr p oldname with
    | none => simp [count_occurrences_none oldname p hs]
    | some k =>
      have hd := (strstr_advance p oldname hne k hs).2
      simp only []
      rw [ih _ _ (by omega), count_occurrences_some oldname hne p k hs]
      push_cast
      congr 1
      ring

theorem dir_new_path_count_iters_eq (oldname : CStr) (hne : oldname ≠ []) (fuel : Nat)
    (p : CStr) (hfuel : p.length < fuel) :
    dir_new_path_count_iters oldname fuel p = some (count_occurrences oldname 0 p) := by
  induction fuel generalizing p with
  | zero => omega
  | succ f ih =>
    unfold dir_new_path_count_iters
    cases hs : strstr p oldname with
    | none => simp [count_occurrences_none oldname p hs]
    | some k =>
      have hd := (strstr_advance p oldname hne k hs).2
      simp only []
      rw [ih _ (by omega), count_occurrences_some oldname hne p k hs]
      simp [Nat.add_comm]

theorem dir_new_path_copy_iters_eq (oldname : CStr) (hne : oldname ≠ []) (fuel : Nat)
    (src : CStr) (hfuel : src.length < fuel) :
    dir_new_path_copy_iters oldname fuel src = some (count_occurrences oldname 0 src) := by
  induction fuel generalizing src with
  | zero => omega
  | succ f ih =>
    unfold dir_new_path_copy_iters
    cases hs : strstr src oldname with
    | none => simp [count_occurrences_none oldname src hs]
    | some k =>
      have hd := (strstr_advance src oldname hne k hs).2
      simp only []
      rw [ih _ (by omega), count_occurrences_some oldname hne src k hs]
      simp [Nat.add_comm]

theorem replace_occurrences_length (old new : CStr) (hne : old ≠ []) (fuel : Nat) (l : CStr)
    (hfuel : l.length < fuel) :
    ((replace_occurrences old new 0 l).length : Int) =
      (l.length : Int) + (count_occurrences old 0 l : Int) *
        ((new.length : Int) - (old.length : Int)) := by
  induction fuel generalizing l with
  | zero => omega
  | succ f ih =>
    cases hs : strstr l old with
    | none =>
      rw [replace_occurrences_none old new l hs, count_occurrences_none old l hs]
      simp
    | some k =>
      have ha := strstr_advance l old hne k hs
      have hd : (l.drop (k + old.length)).length < f := by omega
      have hk : (l.take k).length = k := by
        rw [List.length_take]
        omega
      have hdl : ((l.drop (k + old.length)).length : Int) =
          (l.length : Int) - ((k : Int) + (old.length : Int)) := by
        rw [List.length_drop]
        omega
      rw [replace_occurrences_some old new hne l k hs, count_occurrences_some old hne l k hs,
        List.length_append, List.length_append, hk]
      push_cast
      rw [ih _ hd, hdl]
      ring

theorem dir_new_path_fuel_val (fuel : Nat) (src oldname name oldpath lxcpath : CStr)
    (hne : oldname ≠ []) (hfuel : src.length < fuel) :
    dir_new_path_fuel fuel src oldname name oldpath lxcpath =
      some
        ((src.length : Int) + 1 +
            (if oldpath <+: src then (lxcpath.length : Int) - (oldpath.length : Int) else 0) +
            (count_occurrences oldname 0
              (if oldpath <+: src then src.drop oldpath.length else src) : Int) *
              ((name.length : Int) - (oldname.length : Int)),
          if oldpath <+: src then
            lxcpath ++ replace_occurrences oldname name 0 (src.drop oldpath.length)
          else replace_occurrences oldname name 0 src) := by
  unfold dir_new_path_fuel
  by_cases hp : oldpath <+: src
  · have hs : strncmp_eq src oldpath oldpath.length = true := (strncmp_eq_iff _ _).mpr hp
    have hd : (src.drop oldpath.length).length < fuel := by
      rw [List.length_drop]
      omega
    simp only [hs, if_true, hp, dir_new_path_count_eq oldname name hne fuel _ _ hd,
      dir_new_path_copy_eq oldname name hne fuel _ _ hd]
  · have hs : strncmp_eq src oldpath oldpath.length = false := by
      rw [← Bool.not_eq_true]
      exact fun h => hp ((strncmp_eq_iff _ _).mp h)
    simp only [hs, Bool.false_eq_true, if_false, hp,
      dir_new_path_count_eq oldname name hne fuel _ _ hfuel,
      dir_new_path_copy_eq oldname name hne fuel _ _ hfuel, List.nil_append, add_zero]

/-- C27: for a non-empty oldname both loops of `dir_new_path` end within
`strlen(src) + 1` evaluations of their condition, whatever src, newname, oldpath
and lxcpath are, and more fuel does not change the result; every iteration moves
the scan behind an occurrence of oldname, which shortens the text still to scan
by at least one character.  With an empty oldname `strstr` finds the needle at
the scan position, the position does not move, and no amount of fuel ends
either loop. -/
theorem dir_new_path_terminates (src oldname name oldpath lxcpath : CStr) :
    (oldname ≠ [] →
        (∃ r, dir_new_path_fuel (src.length + 1) src oldname name oldpath lxcpath = some r) ∧
        (∀ fuel, src.length < fuel →
          dir_new_path_fuel fuel src oldname name oldpath lxcpath =
            dir_new_path_fuel (src.length + 1) src oldname name oldpath lxcpath) ∧
        (∀ p k, strstr p oldname = some k →
          (p.drop (k + oldname.length)).length + 1 ≤ p.length)) ∧
      (∀ p : CStr, strstr p [] = some 0 ∧ p.drop (0 + ([] : CStr).length) = p) ∧
      (∀ fuel p nlen out, dir_new_path_count [] name fuel p nlen = none ∧
        dir_new_path_copy [] name fuel p out = none) ∧
      (∀ fuel, dir_new_path_fuel fuel src [] name oldpath lxcpath = none) := by
  refine ⟨fun hne => ⟨⟨_, dir_new_path_fuel_val _ src oldname name oldpath lxcpath hne
    (Nat.lt_succ_self _)⟩, ?_, ?_⟩, ?_, ?_, ?_⟩
  · intro fuel hfuel
    rw [dir_new_path_fuel_val fuel src oldname name oldpath lxcpath hne hfuel,
      dir_new_path_fuel_val _ src oldname name oldpath lxcpath hne (Nat.lt_succ_self _)]
  · intro p k h
    exact (strstr_advance p oldname hne k h).2
  · intro p
    exact ⟨strstr_nil_needle p, rfl⟩
  · intro fuel p nlen out
    exact ⟨dir_new_path_count_nil name fuel p nlen, dir_new_path_copy_nil name fuel p out⟩
  · intro fuel
    unfold dir_new_path_fuel
    simp only [dir_new_path_count_nil]

/-- C28: for a non-empty oldname the size computed by the counting pass of
`dir_new_path` is the length of the string the copying pass writes, plus one for
the terminator, and equals length(src) + 1 + (length(lxcpath) - length(oldpath)
if src starts with oldpath, else 0) + k * (length(newname) - length(oldname)),
where k is the number of non-overlapping occurrences of oldname behind the
oldpath prefix; the bodies of both loops run k times. -/
theorem dir_new_path_buffer_size (src oldname name oldpath lxcpath : CStr)
    (hne : oldname ≠ []) :
    ∃ nlen r, dir_new_path_fuel (src.length + 1) src oldname name oldpath lxcpath =
        some (nlen, r) ∧
      (r.length : Int) + 1 = nlen ∧
      nlen = (src.length : Int) + 1 +
        (if oldpath <+: src then (lxcpath.length : Int) - (oldpath.length : Int) else 0) +
        (count_occurrences oldname 0
          (if oldpath <+: src then src.drop oldpath.length else src) : Int) *
          ((name.length : Int) - (oldname.length : Int)) ∧
      dir_new_path_count_iters oldname (src.length + 1)
          (if oldpath <+: src then src.drop oldpath.length else src) =
        some (count_occurrences oldname 0
          (if oldpath <+: src then src.drop oldpath.length else src)) ∧
      dir_new_path_copy_iters oldname (src.length + 1)
          (if oldpath <+: src then src.drop oldpath.length else src) =
        some (count_occurrences oldname 0
          (if oldpath <+: src then src.drop oldpath.length else src)) := by
  have hrest : (if oldpath <+: src then src.drop oldpath.length else src).length <
      src.length + 1 := by
    split_ifs
    · rw [List.length_drop]
      omega
    · omega
  refine ⟨_, _, dir_new_path_fuel_val _ src oldname name oldpath lxcpath hne
    (Nat.lt_succ_self _), ?_, rfl, dir_new_path_count_iters_eq oldname hne _ _ hrest,
    dir_new_path_copy_iters_eq oldname hne _ _ hrest⟩
  by_cases hp : oldpath <+: src
  · have hl : oldpath.length ≤ src.length := hp.length_le
    have hd : ((src.drop oldpath.length).length : Int) =
        (src.length : Int) - (oldpath.length : Int) := by
      rw [List.length_drop]
      omega
    simp only [hp, if_true, List.length_append]
    push_cast
    rw [replace_occurrences_length oldname name hne _ _ (Nat.lt_succ_self _), hd]
    ring
  · simp only [hp, if_false]
    rw [replace_occurrences_length oldname name hne _ _ (Nat.lt_succ_self _)]
    ring

/-- Witness for `dir_new_path_buffer_size`: renaming `c1` to `c1-snap` in
`/var/lib/lxc/c1/rootfs` under the unchanged path `/var/lib/lxc`; the name
occurs once behind the path and the buffer has 28 bytes. -/
theorem dir_new_path_buffer_size_witness :
    "c1".toList ≠ [] ∧
      dir_new_path_fuel ("/var/lib/lxc/c1/rootfs".toList.length + 1)
          "/var/lib/lxc/c1/rootfs".toList "c1".toList "c1-snap".toList "/var/lib/lxc".toList
          "/var/lib/lxc".toList = some (28, "/var/lib/lxc/c1-snap/rootfs".toList) ∧
      count_occurrences "c1".toList 0 "/c1/rootfs".toList = 1 ∧
      ∃ nlen r, dir_new_path_fuel ("/var/lib/lxc/c1/rootfs".toList.length + 1)
          "/var/lib/lxc/c1/rootfs".toList "c1".toList "c1-snap".toList "/var/lib/lxc".toList
          "/var/lib/lxc".toList = some (nlen, r) ∧
        (r.length : Int) + 1 = nlen :=
  ⟨by decide, by decide, by decide,
    (dir_new_path_buffer_size "/var/lib/lxc/c1/rootfs".toList "c1".toList "c1-snap".toList
      "/var/lib/lxc".toList "/var/lib/lxc".toList (by decide)).imp
      (fun _ h => h.imp (fun _ h2 => ⟨h2.1, h2.2.1⟩))⟩

end Lxc
